import Mathlib

/-!
# ChilliSource render command compilation

A shallow embedding of `Rendering/Base/RenderCommandCompiler.cpp`: the list-count
planner (`CalcNumRenderCommandLists`), the pass compiler
(`CompileRenderCommandsForPass`) and the orchestrator (`CompileRenderCommands`); and of
the class `CUTF8String` of `Core/String/UTF8String.cpp` (`size`, `at`, `append`,
`appendChar`, `appendCodePoints`, `substr`, `GetCharacter`, `erase`, `clear`); of the
class `DynamicSpriteBatch` of `Rendering/Sprite/DynamicSpriteBatcher.cpp`; and of
`MaterialSortPredicate::SortItem` of `Rendering/Base/RendererSortPredicates.cpp`. The
definitions come first, the theorems about them follow.

Conventions of the embedding

* Raw pointers are `Option Nat`: `none` is `nullptr`, `some a` points at the object
  with identity `a`. Pointer comparison is comparison of these values.
* The math library is opaque: colours, vectors and matrices are uninterpreted values,
  and the three operations the compiler calls (`Matrix4::Inverse`, matrix product,
  `GetTranslation`) are uninterpreted constructors.
* `CS_ASSERT` is compiled in only when `CS_ENABLE_DEBUG` is defined; the build flag is
  a `Bool` argument. A failed assertion calls `LogFatal`, which terminates the
  program: the functions return `Except String _` and `.error` carries the message.
* The `u32` counters `count` and `currentList` count command lists: two per target
  group and one per render pass held in memory, plus two. They stay far below `2 ^ 32`
  and are natural numbers.
* The code points of a `CUTF8String` are bytes, natural numbers below 256; reading
  past the end of the code points is undefined and gives `none`.
* Dereferencing a null pointer is undefined and gives `none`.
-/

namespace ChilliSource

/-! ## Opaque value types -/

/-- A raw pointer: `none` is `nullptr`, `some a` the address of an object. -/
abbrev Ptr := Option Nat

/-- A 32 bit float, carried around as its bit pattern and never computed with. -/
abbrev f32 := Nat

/-- Modelled from the spec: `Core/Base/Colour.h` is not part of the sources; colours are
opaque values with one distinguished constant, `Colour::k_black`. -/
structure Colour where
  code : Nat
deriving DecidableEq

/-- The constant `Colour::k_black`. -/
def Colour.k_black : Colour := ⟨0⟩

/-- Modelled from the spec: `Matrix4` of the math library is not part of the sources;
matrices are opaque values, `Matrix4::Inverse` and `operator*` are kept as
uninterpreted operations on them. -/
inductive Matrix4 where
  | value (code : Nat)
  | Inverse (m : Matrix4)
  | mul (a b : Matrix4)
deriving DecidableEq

/-- Modelled from the spec: `Vector3` of the math library is not part of the sources;
vectors are opaque values, `Matrix4::GetTranslation` is an uninterpreted operation
producing one. -/
inductive Vector3 where
  | value (code : Nat)
  | GetTranslation (m : Matrix4)
deriving DecidableEq

/-- Modelled from the spec: `Integer2` of the math library is not part of the sources;
it is the resolution of a target group, which the compiler only passes on. -/
structure Integer2 where
  x : Int
  y : Int
deriving DecidableEq

/-! ## Scene description model -/

/-- Modelled from the spec: `RenderTargetGroup.h` is not part of the sources. The
compiler reads a target group through `GetDepthTarget`, which returns a texture pointer
that the compiler checks against `nullptr`; the colour texture is carried for identity. -/
structure RenderTargetGroup where
  colourTarget : Ptr
  depthTarget : Ptr
deriving DecidableEq

/-- The method `RenderTargetGroup::GetDepthTarget`. -/
def RenderTargetGroup.GetDepthTarget (g : RenderTargetGroup) : Ptr := g.depthTarget

/-- The container `RenderAmbientLight` (`Rendering/Lighting/RenderAmbientLight.h`). -/
structure RenderAmbientLight where
  m_colour : Colour
deriving DecidableEq

/-- The getter `RenderAmbientLight::GetColour`. -/
def RenderAmbientLight.GetColour (l : RenderAmbientLight) : Colour := l.m_colour

/-- Modelled from the spec: `RenderDirectionalLight.h` is not part of the sources; the
directional light container is read through the getters
`GetColour`, `GetDirection`, `GetLightWorldMatrix`, `GetLightProjectionMatrix`,
`GetShadowTolerance` and `GetShadowMapTarget` (a possibly null pointer to a
render target group). -/
structure RenderDirectionalLight where
  GetColour : Colour
  GetDirection : Vector3
  GetLightWorldMatrix : Matrix4
  GetLightProjectionMatrix : Matrix4
  GetShadowTolerance : f32
  GetShadowMapTarget : Option RenderTargetGroup
deriving DecidableEq

/-- Modelled from the spec: `RenderPointLight.h` is not part of the sources; the point
light container is read through `GetColour`,
`GetPosition` and `GetAttenuation`. -/
structure RenderPointLight where
  GetColour : Colour
  GetPosition : Vector3
  GetAttenuation : Vector3
deriving DecidableEq

/-- The enum `RenderPassObject::Type`, with the two values the compiler switches on. -/
inductive RenderPassObject.Type where
  | k_static
  | k_dynamic
deriving DecidableEq

/-- Modelled from the spec: `RenderPassObject.h` is not part of the sources; one
drawable instance, read through `GetType`,
`GetRenderMaterial`, `GetRenderMesh`, `GetRenderDynamicMesh` and `GetWorldMatrix`. -/
structure RenderPassObject where
  GetType : RenderPassObject.Type
  GetRenderMaterial : Ptr
  GetRenderMesh : Ptr
  GetRenderDynamicMesh : Ptr
  GetWorldMatrix : Matrix4
deriving DecidableEq

/-- The enum `RenderPass::LightType`, with the four values the compiler switches on. -/
inductive RenderPass.LightType where
  | k_none
  | k_ambient
  | k_directional
  | k_point
deriving DecidableEq

/-- Modelled from the spec: `RenderPass.h` is not part of the sources; a render pass,
read through `GetLightType`,
`GetAmbientLight`, `GetDirectionalLight`, `GetPointLight` and
`GetRenderPassObjects`. -/
structure RenderPass where
  GetLightType : RenderPass.LightType
  GetAmbientLight : RenderAmbientLight
  GetDirectionalLight : RenderDirectionalLight
  GetPointLight : RenderPointLight
  GetRenderPassObjects : List RenderPassObject
deriving DecidableEq

/-- Modelled from the spec: `RenderCamera.h` is not part of the sources; the camera of
a camera group, read through `GetWorldMatrix` and `GetViewProjectionMatrix`. -/
structure RenderCamera where
  GetWorldMatrix : Matrix4
  GetViewProjectionMatrix : Matrix4
deriving DecidableEq

/-- Modelled from the spec: `CameraRenderPassGroup.h` is not part of the sources; a
camera plus its ordered render passes. -/
structure CameraRenderPassGroup where
  GetCamera : RenderCamera
  GetRenderPasses : List RenderPass
deriving DecidableEq

/-- Modelled from the spec: `TargetRenderPassGroup.h` is not part of the sources; an
optional render target group (else a resolution), a clear colour and the ordered camera
groups. -/
structure TargetRenderPassGroup where
  GetRenderTargetGroup : Option RenderTargetGroup
  GetResolution : Integer2
  GetClearColour : Colour
  GetRenderCameraGroups : List CameraRenderPassGroup
deriving DecidableEq

/-! ## Command lists and the command buffer -/

/-- The closed set of command records a `RenderCommandList` holds. -/
inductive RenderCommand where
  | Begin (resolution : Integer2) (clearColour : Colour)
  | BeginWithTargetGroup (renderTargetGroup : Option RenderTargetGroup) (clearColour : Colour)
  | ApplyCamera (position : Vector3) (viewProjectionMatrix : Matrix4)
  | ApplyAmbientLight (colour : Colour)
  | ApplyDirectionalLight (colour : Colour) (direction : Vector3) (lightViewProjection : Matrix4)
      (shadowTolerance : f32) (shadowMapTexture : Ptr)
  | ApplyPointLight (colour : Colour) (position : Vector3) (attenuation : Vector3)
  | ApplyMaterial (renderMaterial : Ptr)
  | ApplyMesh (renderMesh : Ptr)
  | ApplyDynamicMesh (renderDynamicMesh : Ptr)
  | RenderInstance (worldMatrix : Matrix4)
  | End
deriving DecidableEq

/-- Modelled from the spec: `RenderCommandList.h` is not part of the sources; an
ordered, append-only sequence of commands, every `Add...Command` method appends one
record at the end. -/
abbrev RenderCommandList := List RenderCommand

namespace RenderCommandList

/-- The ordered commands of the list. -/
def GetOrderedList (l : RenderCommandList) : List RenderCommand := l

def AddBeginCommand (l : RenderCommandList) (resolution : Integer2) (clearColour : Colour) :
    RenderCommandList :=
  l ++ [RenderCommand.Begin resolution clearColour]

def AddBeginWithTargetGroupCommand (l : RenderCommandList)
    (renderTargetGroup : Option RenderTargetGroup) (clearColour : Colour) : RenderCommandList :=
  l ++ [RenderCommand.BeginWithTargetGroup renderTargetGroup clearColour]

def AddApplyCameraCommand (l : RenderCommandList) (position : Vector3)
    (viewProjectionMatrix : Matrix4) : RenderCommandList :=
  l ++ [RenderCommand.ApplyCamera position viewProjectionMatrix]

def AddApplyAmbientLightCommand (l : RenderCommandList) (colour : Colour) : RenderCommandList :=
  l ++ [RenderCommand.ApplyAmbientLight colour]

def AddApplyDirectionalLightCommand (l : RenderCommandList) (colour : Colour)
    (direction : Vector3) (lightViewProjection : Matrix4) (shadowTolerance : f32)
    (shadowMapTexture : Ptr) : RenderCommandList :=
  l ++ [RenderCommand.ApplyDirectionalLight colour direction lightViewProjection
    shadowTolerance shadowMapTexture]

def AddApplyPointLightCommand (l : RenderCommandList) (colour : Colour) (position : Vector3)
    (attenuation : Vector3) : RenderCommandList :=
  l ++ [RenderCommand.ApplyPointLight colour position attenuation]

def AddApplyMaterialCommand (l : RenderCommandList) (renderMaterial : Ptr) : RenderCommandList :=
  l ++ [RenderCommand.ApplyMaterial renderMaterial]

def AddApplyMeshCommand (l : RenderCommandList) (renderMesh : Ptr) : RenderCommandList :=
  l ++ [RenderCommand.ApplyMesh renderMesh]

def AddApplyDynamicMeshCommand (l : RenderCommandList) (renderDynamicMesh : Ptr) :
    RenderCommandList :=
  l ++ [RenderCommand.ApplyDynamicMesh renderDynamicMesh]

def AddRenderInstanceCommand (l : RenderCommandList) (worldMatrix : Matrix4) :
    RenderCommandList :=
  l ++ [RenderCommand.RenderInstance worldMatrix]

def AddEndCommand (l : RenderCommandList) : RenderCommandList :=
  l ++ [RenderCommand.End]

end RenderCommandList

/-- Modelled from the spec: `RenderCommandBuffer.h` is not part of the sources; a
fixed-length, index-addressed sequence of command lists plus the transient dynamic
meshes it keeps alive. -/
structure RenderCommandBuffer where
  m_renderCommandLists : List RenderCommandList
  m_renderDynamicMeshes : List Nat
deriving DecidableEq

namespace RenderCommandBuffer

/-- The constructor `RenderCommandBuffer(numLists, renderDynamicMeshes)`: `numLists`
empty lists. -/
def new (numLists : Nat) (renderDynamicMeshes : List Nat) : RenderCommandBuffer :=
  ⟨List.replicate numLists [], renderDynamicMeshes⟩

/-- The number of lists of the buffer. -/
def GetNumSlots (b : RenderCommandBuffer) : Nat := b.m_renderCommandLists.length

/-- Reading through the pointer `GetRenderCommandList(index)`. -/
def readList (b : RenderCommandBuffer) (index : Nat) : RenderCommandList :=
  b.m_renderCommandLists.getD index []

/-- Writing through the pointer `GetRenderCommandList(index)`; the other lists and the
length of the buffer are untouched. -/
def writeList (b : RenderCommandBuffer) (index : Nat) (l : RenderCommandList) :
    RenderCommandBuffer :=
  ⟨b.m_renderCommandLists.set index l, b.m_renderDynamicMeshes⟩

end RenderCommandBuffer

/-! ## Assertions -/

/-- The macro `CS_ASSERT(query, message)` of `Core/Base/StandardMacros.h`: with
`CS_ENABLE_DEBUG` a false query calls `LogFatal(message)`; without it the macro expands
to nothing. `Logging` is not part of the sources: as the specification has it, a fatal
log terminates the program, which is the `error` result here. -/
def CS_ASSERT (CS_ENABLE_DEBUG : Bool) (query : Bool) (message : String) : Except String Unit :=
  if CS_ENABLE_DEBUG then
    if query = false then Except.error message else Except.ok ()
  else Except.ok ()

/-! ## The list-count planner -/

/-- The function `ContainsRenderPassObject`, the loop with its early return. -/
def ContainsRenderPassObject.loop : List RenderPass → Bool
  | [] => false
  | renderPass :: rest =>
    if renderPass.GetRenderPassObjects.length > 0 then true
    else ContainsRenderPassObject.loop rest

/-- Whether a camera render pass group contains at least one render pass object. -/
def ContainsRenderPassObject (cameraRenderPassGroup : CameraRenderPassGroup) : Bool :=
  ContainsRenderPassObject.loop cameraRenderPassGroup.GetRenderPasses

/-- The function `CalcNumRenderCommandLists`: the counter threaded through the three
nested loops. -/
def CalcNumRenderCommandLists (targetRenderPassGroups : List TargetRenderPassGroup)
    (preRenderCommandList postRenderCommandList : RenderCommandList) : Nat :=
  let count := 0
  let count := if preRenderCommandList.GetOrderedList.length > 0 then count + 1 else count
  let count := targetRenderPassGroups.foldl (fun count targetRenderPassGroup =>
    let count := count + 1
    let count := targetRenderPassGroup.GetRenderCameraGroups.foldl
      (fun count cameraRenderPassGroup =>
        cameraRenderPassGroup.GetRenderPasses.foldl (fun count renderPass =>
          if renderPass.GetRenderPassObjects.length > 0 then count + 1 else count) count)
      count
    count + 1) count
  let count := if postRenderCommandList.GetOrderedList.length > 0 then count + 1 else count
  count

/-! ## The pass compiler -/

/-- The function `AddBeginCommand`. -/
def AddBeginCommand (targetRenderPassGroup : TargetRenderPassGroup)
    (renderCommandList : RenderCommandList) : RenderCommandList :=
  if targetRenderPassGroup.GetRenderTargetGroup.isSome then
    renderCommandList.AddBeginWithTargetGroupCommand targetRenderPassGroup.GetRenderTargetGroup
      targetRenderPassGroup.GetClearColour
  else
    renderCommandList.AddBeginCommand targetRenderPassGroup.GetResolution
      targetRenderPassGroup.GetClearColour

/-- The function `AddApplyLightCommand`. The `default:` branch of the switch is not
reachable: the enum has the four values matched here. -/
def AddApplyLightCommand (CS_ENABLE_DEBUG : Bool) (renderPass : RenderPass)
    (renderCommandList : RenderCommandList) : Except String RenderCommandList :=
  match renderPass.GetLightType with
  | RenderPass.LightType.k_none =>
    Except.ok (renderCommandList.AddApplyAmbientLightCommand Colour.k_black)
  | RenderPass.LightType.k_ambient =>
    let ambientLight := renderPass.GetAmbientLight
    Except.ok (renderCommandList.AddApplyAmbientLightCommand ambientLight.GetColour)
  | RenderPass.LightType.k_directional =>
    let directionalLight := renderPass.GetDirectionalLight
    let viewProj := Matrix4.mul (Matrix4.Inverse directionalLight.GetLightWorldMatrix)
      directionalLight.GetLightProjectionMatrix
    let shadowMapTarget := directionalLight.GetShadowMapTarget
    match shadowMapTarget with
    | some target =>
      let shadowMapTexture := target.GetDepthTarget
      match CS_ASSERT CS_ENABLE_DEBUG shadowMapTexture.isSome
          "Shadow map target must have depth texture." with
      | Except.error message => Except.error message
      | Except.ok _ =>
        Except.ok (renderCommandList.AddApplyDirectionalLightCommand directionalLight.GetColour
          directionalLight.GetDirection viewProj directionalLight.GetShadowTolerance
          shadowMapTexture)
    | none =>
      Except.ok (renderCommandList.AddApplyDirectionalLightCommand directionalLight.GetColour
        directionalLight.GetDirection viewProj directionalLight.GetShadowTolerance none)
  | RenderPass.LightType.k_point =>
    let pointLight := renderPass.GetPointLight
    Except.ok (renderCommandList.AddApplyPointLightCommand pointLight.GetColour
      pointLight.GetPosition pointLight.GetAttenuation)

/-- The local variables of the object loop of `CompileRenderCommandsForPass`, with the
list being written. -/
structure PassLoopState where
  currentMaterial : Ptr
  currentStaticMesh : Ptr
  currentDynamicMesh : Ptr
  renderCommandList : RenderCommandList
deriving DecidableEq

/-- One iteration of the object loop of `CompileRenderCommandsForPass`. The `default:`
branch of the switch is not reachable: the enum has the two values matched here. -/
def CompileRenderCommandsForPass.body (s : PassLoopState) (renderPassObject : RenderPassObject) :
    PassLoopState :=
  let s : PassLoopState :=
    if renderPassObject.GetRenderMaterial ≠ s.currentMaterial then
      ⟨renderPassObject.GetRenderMaterial, none, s.currentDynamicMesh,
        s.renderCommandList.AddApplyMaterialCommand renderPassObject.GetRenderMaterial⟩
    else s
  let s : PassLoopState :=
    match renderPassObject.GetType with
    | RenderPassObject.Type.k_static =>
      if renderPassObject.GetRenderMesh ≠ s.currentStaticMesh then
        ⟨s.currentMaterial, renderPassObject.GetRenderMesh, none,
          s.renderCommandList.AddApplyMeshCommand renderPassObject.GetRenderMesh⟩
      else s
    | RenderPassObject.Type.k_dynamic =>
      if renderPassObject.GetRenderDynamicMesh ≠ s.currentDynamicMesh then
        ⟨s.currentMaterial, none, renderPassObject.GetRenderDynamicMesh,
          s.renderCommandList.AddApplyDynamicMeshCommand renderPassObject.GetRenderDynamicMesh⟩
      else s
  ⟨s.currentMaterial, s.currentStaticMesh, s.currentDynamicMesh,
    s.renderCommandList.AddRenderInstanceCommand renderPassObject.GetWorldMatrix⟩

/-- The function `CompileRenderCommandsForPass`. -/
def CompileRenderCommandsForPass (CS_ENABLE_DEBUG : Bool) (renderPass : RenderPass)
    (renderCommandList : RenderCommandList) : Except String RenderCommandList :=
  match AddApplyLightCommand CS_ENABLE_DEBUG renderPass renderCommandList with
  | Except.error message => Except.error message
  | Except.ok renderCommandList =>
    let renderPassObjects := renderPass.GetRenderPassObjects
    match CS_ASSERT CS_ENABLE_DEBUG (decide (renderPassObjects.length > 0))
        "Cannot compile a pass with no objects." with
    | Except.error message => Except.error message
    | Except.ok _ =>
      Except.ok (renderPassObjects.foldl CompileRenderCommandsForPass.body
        ⟨none, none, none, renderCommandList⟩).renderCommandList

/-! ## The compilation orchestrator -/

/-- What a list handed out by `GetRenderCommandList` is used for. -/
inductive ListUse where
  | preRenderCommandList
  | beginCommand
  | applyCameraCommand
  | renderPassTask
  | endCommand
  | postRenderCommandList
deriving DecidableEq

/-- A scheduled task: the closure capturing a render pass and the pointer to its
command list, the pointer being the index it was obtained with. -/
structure Task where
  renderPass : RenderPass
  renderCommandList : Nat
deriving DecidableEq

/-- The local variables of `CompileRenderCommands` while it walks the scene, and a
record of every call of `GetRenderCommandList` (the index passed and what the list
was used for), in call order. -/
structure CompileState where
  renderCommandBuffer : RenderCommandBuffer
  tasks : List Task
  currentList : Nat
  listAccesses : List (Nat × ListUse)
deriving DecidableEq

/-- The body of the innermost loop of `CompileRenderCommands`: a pass with objects
takes the list at `currentList++` and a task is pushed for it. -/
def CompileRenderCommands.passBody (s : CompileState) (renderPass : RenderPass) : CompileState :=
  if renderPass.GetRenderPassObjects.length > 0 then
    ⟨s.renderCommandBuffer, s.tasks ++ [⟨renderPass, s.currentList⟩], s.currentList + 1,
      s.listAccesses ++ [(s.currentList, ListUse.renderPassTask)]⟩
  else s

/-- The body of the camera group loop of `CompileRenderCommands`: the apply camera
command goes to the list at `currentList` (not incremented), then the passes. -/
def CompileRenderCommands.cameraBody (s : CompileState)
    (cameraRenderPassGroup : CameraRenderPassGroup) : CompileState :=
  if ContainsRenderPassObject cameraRenderPassGroup then
    let camera := cameraRenderPassGroup.GetCamera
    let s : CompileState :=
      ⟨s.renderCommandBuffer.writeList s.currentList
          ((s.renderCommandBuffer.readList s.currentList).AddApplyCameraCommand
            (Vector3.GetTranslation camera.GetWorldMatrix) camera.GetViewProjectionMatrix),
        s.tasks, s.currentList,
        s.listAccesses ++ [(s.currentList, ListUse.applyCameraCommand)]⟩
    cameraRenderPassGroup.GetRenderPasses.foldl CompileRenderCommands.passBody s
  else s

/-- The body of the target group loop of `CompileRenderCommands`: begin command,
camera groups, end command. -/
def CompileRenderCommands.targetBody (s : CompileState)
    (targetRenderPassGroup : TargetRenderPassGroup) : CompileState :=
  let s : CompileState :=
    ⟨s.renderCommandBuffer.writeList s.currentList
        (AddBeginCommand targetRenderPassGroup (s.renderCommandBuffer.readList s.currentList)),
      s.tasks, s.currentList + 1,
      s.listAccesses ++ [(s.currentList, ListUse.beginCommand)]⟩
  let s : CompileState :=
    targetRenderPassGroup.GetRenderCameraGroups.foldl CompileRenderCommands.cameraBody s
  ⟨s.renderCommandBuffer.writeList s.currentList
      (s.renderCommandBuffer.readList s.currentList).AddEndCommand,
    s.tasks, s.currentList + 1,
    s.listAccesses ++ [(s.currentList, ListUse.endCommand)]⟩

/-- The part of `CompileRenderCommands` that runs before the tasks are processed: the
buffer is allocated with `CalcNumRenderCommandLists` lists, the framing commands are
written and the pass tasks are collected. -/
def CompileRenderCommands.schedule (targetRenderPassGroups : List TargetRenderPassGroup)
    (renderDynamicMeshes : List Nat)
    (preRenderCommandList postRenderCommandList : RenderCommandList) : CompileState :=
  let numLists :=
    CalcNumRenderCommandLists targetRenderPassGroups preRenderCommandList postRenderCommandList
  let s : CompileState := ⟨RenderCommandBuffer.new numLists renderDynamicMeshes, [], 0, []⟩
  let s : CompileState :=
    if preRenderCommandList.GetOrderedList.length > 0 then
      ⟨s.renderCommandBuffer.writeList s.currentList preRenderCommandList, s.tasks,
        s.currentList + 1, s.listAccesses ++ [(s.currentList, ListUse.preRenderCommandList)]⟩
    else s
  let s : CompileState := targetRenderPassGroups.foldl CompileRenderCommands.targetBody s
  let s : CompileState :=
    if postRenderCommandList.GetOrderedList.length > 0 then
      ⟨s.renderCommandBuffer.writeList s.currentList postRenderCommandList, s.tasks,
        s.currentList + 1, s.listAccesses ++ [(s.currentList, ListUse.postRenderCommandList)]⟩
    else s
  s

/-- Running one task: `CompileRenderCommandsForPass` on the captured pass and list. -/
def Task.run (CS_ENABLE_DEBUG : Bool) (renderCommandBuffer : RenderCommandBuffer) (task : Task) :
    Except String RenderCommandBuffer :=
  match CompileRenderCommandsForPass CS_ENABLE_DEBUG task.renderPass
      (renderCommandBuffer.readList task.renderCommandList) with
  | Except.error message => Except.error message
  | Except.ok renderCommandList =>
    Except.ok (renderCommandBuffer.writeList task.renderCommandList renderCommandList)

/-- Modelled from the spec: `TaskScheduler.h` is not part of the sources;
`TaskContext::ProcessChildTasks` is a fork and join, it returns when every task has run
to completion. The tasks are run one after the other,
in the order given. -/
def ProcessChildTasks (CS_ENABLE_DEBUG : Bool) :
    List Task → RenderCommandBuffer → Except String RenderCommandBuffer
  | [], renderCommandBuffer => Except.ok renderCommandBuffer
  | task :: rest, renderCommandBuffer =>
    match task.run CS_ENABLE_DEBUG renderCommandBuffer with
    | Except.error message => Except.error message
    | Except.ok renderCommandBuffer => ProcessChildTasks CS_ENABLE_DEBUG rest renderCommandBuffer

/-- The function `RenderCommandCompiler::CompileRenderCommands`. -/
def CompileRenderCommands (CS_ENABLE_DEBUG : Bool)
    (targetRenderPassGroups : List TargetRenderPassGroup) (renderDynamicMeshes : List Nat)
    (preRenderCommandList postRenderCommandList : RenderCommandList) :
    Except String RenderCommandBuffer :=
  let s := CompileRenderCommands.schedule targetRenderPassGroups renderDynamicMeshes
    preRenderCommandList postRenderCommandList
  if s.tasks.length > 0 then
    ProcessChildTasks CS_ENABLE_DEBUG s.tasks s.renderCommandBuffer
  else Except.ok s.renderCommandBuffer

/-! ## Specification-side definitions -/

/-- Whether a render pass has at least one render pass object. -/
def RenderPass.hasObjects (renderPass : RenderPass) : Bool :=
  decide (renderPass.GetRenderPassObjects ≠ [])

/-- The render passes of a target group, across all its camera groups, in order. -/
def TargetRenderPassGroup.allRenderPasses (g : TargetRenderPassGroup) : List RenderPass :=
  (g.GetRenderCameraGroups.map CameraRenderPassGroup.GetRenderPasses).flatten

/-- The number of render passes of a target group, across all its camera groups, that
have at least one render pass object. -/
def TargetRenderPassGroup.numPassesWithObjects (g : TargetRenderPassGroup) : Nat :=
  (g.allRenderPasses.filter RenderPass.hasObjects).length

/-- The two conditions the pass compiler asserts of its render pass: the pass has at
least one object, and the shadow map target of a directional light, when the light has
one, has a depth texture. -/
def RenderPass.assertionsHold (renderPass : RenderPass) : Bool :=
  decide (renderPass.GetRenderPassObjects.length > 0) &&
    (match renderPass.GetLightType, renderPass.GetDirectionalLight.GetShadowMapTarget with
      | RenderPass.LightType.k_directional, some target => target.GetDepthTarget.isSome
      | _, _ => true)

/-- Whether a command is one of the light-application commands. -/
def RenderCommand.isLight : RenderCommand → Bool
  | RenderCommand.ApplyAmbientLight _ => true
  | RenderCommand.ApplyDirectionalLight _ _ _ _ _ => true
  | RenderCommand.ApplyPointLight _ _ _ => true
  | _ => false

/-- Whether a command is a material, mesh, dynamic mesh or render-instance command. -/
def RenderCommand.isObjectCommand : RenderCommand → Bool
  | RenderCommand.ApplyMaterial _ => true
  | RenderCommand.ApplyMesh _ => true
  | RenderCommand.ApplyDynamicMesh _ => true
  | RenderCommand.RenderInstance _ => true
  | _ => false

/-- The world matrix of a render-instance command, `none` for any other command. -/
def RenderCommand.instanceMatrix? : RenderCommand → Option Matrix4
  | RenderCommand.RenderInstance worldMatrix => some worldMatrix
  | _ => none

/-- The indices taken with `currentList++`, in call order: those of every recorded
access but the apply-camera ones, which read `currentList` without incrementing it. -/
def claimedIndices (accesses : List (Nat × ListUse)) : List Nat :=
  (accesses.filter (fun a => decide (a.2 ≠ ListUse.applyCameraCommand))).map Prod.fst

/-- The indices of the accesses that hand a list to a render pass task, in call order. -/
def passTaskIndices (accesses : List (Nat × ListUse)) : List Nat :=
  (accesses.filter (fun a => decide (a.2 = ListUse.renderPassTask))).map Prod.fst

/-- The render passes of a target group that have at least one object, in order. -/
def TargetRenderPassGroup.passesWithObjects (g : TargetRenderPassGroup) : List RenderPass :=
  g.allRenderPasses.filter RenderPass.hasObjects

/-- The state `t` is reached from `s` by taking `k` lists and scheduling the passes
`passes`: the cursor moved by `k`, the new accesses take the indices `s.currentList`,
..., `s.currentList + k - 1` once each and in order, every new access is to one of
these, and the new tasks are those of `passes`, in order, with the indices handed to
render pass tasks. -/
def CompileState.Advances (s t : CompileState) (k : Nat) (passes : List RenderPass) : Prop :=
  t.currentList = s.currentList + k ∧
  ∃ (accesses : List (Nat × ListUse)) (tasks : List Task),
    t.listAccesses = s.listAccesses ++ accesses
    ∧ t.tasks = s.tasks ++ tasks
    ∧ claimedIndices accesses = List.range' s.currentList k
    ∧ (∀ a ∈ accesses, s.currentList ≤ a.1 ∧ a.1 < s.currentList + k)
    ∧ tasks.map Task.renderCommandList = passTaskIndices accesses
    ∧ tasks.map Task.renderPass = passes

/-- The buffer of `s` has `n` lists, and every list below the cursor (and inside the
buffer) either holds a command already or is the list of a scheduled task. -/
def CompileState.Covered (n : Nat) (s : CompileState) : Prop :=
  s.renderCommandBuffer.m_renderCommandLists.length = n ∧
  ∀ i, i < s.currentList → i < n →
    s.renderCommandBuffer.readList i ≠ [] ∨ i ∈ s.tasks.map Task.renderCommandList

/-! ## The layout of the buffer (specification side) -/

/-- The commands a render pass compiles to: what `CompileRenderCommandsForPass` returns
for an empty list in a release build, where no assertion can fail. -/
def compiledPass (renderPass : RenderPass) : RenderCommandList :=
  match CompileRenderCommandsForPass false renderPass [] with
  | Except.ok renderCommandList => renderCommandList
  | Except.error _ => []

/-- The apply-camera command of a camera group: the translation of the world matrix of
its camera and the view-projection matrix. -/
def CameraRenderPassGroup.applyCameraCommand (g : CameraRenderPassGroup) : RenderCommand :=
  RenderCommand.ApplyCamera (Vector3.GetTranslation g.GetCamera.GetWorldMatrix)
    g.GetCamera.GetViewProjectionMatrix

/-- The render passes of a camera group that have at least one object, in order. -/
def CameraRenderPassGroup.passesWithObjects (g : CameraRenderPassGroup) : List RenderPass :=
  g.GetRenderPasses.filter RenderPass.hasObjects

/-- One list of the buffer as the specification lays it out: the commands the
orchestrator writes to it itself, and the render pass compiled into it, if any. -/
structure Slot where
  framing : RenderCommandList
  renderPass : Option RenderPass
deriving DecidableEq

/-- The final content of a slot: the framing commands, then the compiled pass. -/
def Slot.final (slot : Slot) : RenderCommandList :=
  slot.framing ++
    (match slot.renderPass with
      | some renderPass => compiledPass renderPass
      | none => [])

/-- The slots of a camera group: one per pass with objects, the first of them prefixed
with the apply-camera command; none at all for a group without objects. -/
def CameraRenderPassGroup.slots (g : CameraRenderPassGroup) : List Slot :=
  match g.passesWithObjects with
  | [] => []
  | first :: rest =>
    ⟨[g.applyCameraCommand], some first⟩ :: rest.map (fun renderPass => ⟨[], some renderPass⟩)

/-- The slots of the passes of a target group, camera group after camera group. -/
def TargetRenderPassGroup.passSlots (g : TargetRenderPassGroup) : List Slot :=
  (g.GetRenderCameraGroups.map CameraRenderPassGroup.slots).flatten

/-- The slots of a target group: begin, the passes with objects, end. -/
def TargetRenderPassGroup.slots (g : TargetRenderPassGroup) : List Slot :=
  [⟨AddBeginCommand g [], none⟩] ++ g.passSlots ++ [⟨[RenderCommand.End], none⟩]

/-- The slots of a frame: the pre-list if it is not empty, the target groups in order,
the post-list if it is not empty. -/
def sceneSlots (targetRenderPassGroups : List TargetRenderPassGroup)
    (preRenderCommandList postRenderCommandList : RenderCommandList) : List Slot :=
  (if preRenderCommandList ≠ [] then [⟨preRenderCommandList, none⟩] else [])
    ++ (targetRenderPassGroups.map TargetRenderPassGroup.slots).flatten
    ++ (if postRenderCommandList ≠ [] then [⟨postRenderCommandList, none⟩] else [])

/-- The tasks of a run of slots that starts at index `start`: one per slot with a render
pass, holding the index of the slot. -/
def slotTasks (start : Nat) : List Slot → List Task
  | [] => []
  | slot :: rest =>
    (match slot.renderPass with
      | some renderPass => [⟨renderPass, start⟩]
      | none => []) ++ slotTasks (start + 1) rest

/-- The state `t` is reached from `s` by laying out `slots`: the cursor moved past
them, their tasks were pushed, the dynamic meshes are untouched, and if the buffer of
`s` was empty from the cursor on, the buffer of `t` holds the framing commands of the
slots there and is still empty after them. -/
def CompileState.Fills (s t : CompileState) (slots : List Slot) : Prop :=
  t.currentList = s.currentList + slots.length
  ∧ t.tasks = s.tasks ++ slotTasks s.currentList slots
  ∧ t.renderCommandBuffer.m_renderDynamicMeshes = s.renderCommandBuffer.m_renderDynamicMeshes
  ∧ ∀ (filled : List RenderCommandList) (m : Nat),
      s.renderCommandBuffer.m_renderCommandLists = filled ++ List.replicate m [] →
      filled.length = s.currentList → slots.length ≤ m →
      t.renderCommandBuffer.m_renderCommandLists
        = filled ++ slots.map Slot.framing ++ List.replicate (m - slots.length) []

/-- The commands the tasks of `tasks` with the list index `i` append to it, in order. -/
def appendedAt (tasks : List Task) (i : Nat) : List RenderCommand :=
  ((tasks.filter (fun t => decide (t.renderCommandList = i))).map
    (fun t => compiledPass t.renderPass)).flatten

/-! ## UTF-8 strings -/

/-- The class `CUTF8String` of `Core/String/UTF8String.cpp` (namespace `moFlo` in the
source): the code points, which are the bytes of the UTF-8 encoding, and the cached
length. -/
structure CUTF8String where
  mCodePoints : List Nat
  mudwLength : Nat
  mbIsLengthCacheValid : Bool
deriving DecidableEq

/-- The constructor `CUTF8String(const std::string&)`: the bytes of the string, the
length cache not valid. -/
def CUTF8String.fromCodePoints (inCodePoints : List Nat) : CUTF8String :=
  ⟨inCodePoints, 0, false⟩

/-- The test `(*it & 0xc0) != 0x80` of `size` and `substr`: the byte is not a trail
byte, it starts a character. -/
def CUTF8String.isLead (codePoint : Nat) : Bool :=
  decide (codePoint &&& 0xc0 ≠ 0x80)

/-- The loop of `CUTF8String::substr` over the remaining code points, with the local
variables `strCodePoints` and `udwPosition`; the `u32` sum and counter wrap at 2 ^ 32. -/
def CUTF8String.substr.loop (inudwStartPosition inudwLength : Nat) :
    List Nat → List Nat → Nat → List Nat
  | [], strCodePoints, _ => strCodePoints
  | codePoint :: rest, strCodePoints, udwPosition =>
    if udwPosition ≥ (inudwStartPosition + inudwLength) % 2 ^ 32 then strCodePoints
    else
      let strCodePoints :=
        if udwPosition ≥ inudwStartPosition then strCodePoints ++ [codePoint]
        else strCodePoints
      CUTF8String.substr.loop inudwStartPosition inudwLength rest strCodePoints
        ((udwPosition + (if CUTF8String.isLead codePoint then 1 else 0)) % 2 ^ 32)

/-- The method `CUTF8String::substr`. -/
def CUTF8String.substr (s : CUTF8String) (inudwStartPosition inudwLength : Nat) : CUTF8String :=
  CUTF8String.fromCodePoints
    (CUTF8String.substr.loop inudwStartPosition inudwLength s.mCodePoints [] 0)

/-- The characters of a well-formed UTF-8 string as the specification sees them: the
code points cut before every lead byte, so that each piece is one lead byte with its
trail bytes. -/
def CUTF8String.characters : List Nat → List (List Nat)
  | [] => []
  | codePoint :: rest =>
    match rest, CUTF8String.characters rest with
    | following :: _, next :: others =>
      if CUTF8String.isLead following then [codePoint] :: next :: others
      else (codePoint :: next) :: others
    | _, _ => [[codePoint]]

/-- The substring as the specification words it: all bytes of the characters with
index in `[start, start + length)`, clipped to the end of the string. -/
def CUTF8String.specSubstr (codePoints : List Nat) (start length : Nat) : List Nat :=
  (((CUTF8String.characters codePoints).drop start).take length).flatten

/-! ## The UTF-8 string: size, characters, appending and erasing

The header `UTF8String.h` is not among the sources. A code point (`CodePoint`) is a byte,
a natural number below 256, and a character (`Char`) is a 32-bit unsigned value. The
`u32` counters of `size` and `at` count code points of the string and are natural
numbers: they cannot wrap for a string of fewer than 2 ^ 32 code points. -/

/-- The default constructor `CUTF8String()`: no code points, the length cache not valid. -/
def CUTF8String.empty : CUTF8String := ⟨[], 0, false⟩

/-- One iteration of the loop of `CUTF8String::size` on the pair of `mudwLength` and
`mbIsLengthCacheValid`: the length grows by one at a byte that is not a trail byte, and
the cache is marked valid. -/
def CUTF8String.size.body (state : Nat × Bool) (codePoint : Nat) : Nat × Bool :=
  (state.1 + (if CUTF8String.isLead codePoint then 1 else 0), true)

/-- The method `CUTF8String::size`, which is `const` and writes the two `mutable` cache
members: the value it returns and the string after the call. -/
def CUTF8String.size (s : CUTF8String) : Nat × CUTF8String :=
  if !s.mbIsLengthCacheValid then
    let state := s.mCodePoints.foldl CUTF8String.size.body (0, s.mbIsLengthCacheValid)
    (state.1, ⟨s.mCodePoints, state.1, state.2⟩)
  else (s.mudwLength, s)

/-- The conversion `s8 cFirstByte = (*inpIt)`: the byte read as a signed 8-bit value. -/
def CUTF8String.toS8 (codePoint : Nat) : Int :=
  if codePoint % 256 < 128 then (codePoint % 256 : Nat) else ((codePoint % 256 : Nat) : Int) - 256

/-- The expression `0xF0 & cFirstByte` of the `switch` of `GetCharacter`: the signed
byte is promoted to `int` (32-bit two's complement) before the mask. -/
def CUTF8String.GetCharacter.selector (cFirstByte : Int) : Nat :=
  0xF0 &&& (cFirstByte % 2 ^ 32).toNat

/-- The method `CUTF8String::GetCharacter` on the code points from the iterator `inpIt`
to the end of the string: the character and the number of code points in it
(`outudwNumCodePointsInCharacter`), or `none` when it reads past the end of the code
points. -/
def CUTF8String.GetCharacter (inpIt : List Nat) : Option (Nat × Nat) :=
  match inpIt with
  | [] => none
  | first :: rest =>
    let cFirstByte := CUTF8String.toS8 first
    if cFirstByte > 0 then some (first, 1)
    else if CUTF8String.GetCharacter.selector cFirstByte = 0xE0 then
      match rest with
      | second :: third :: _ =>
        some ((((first &&& 0x0F) <<< 12) ||| ((second &&& 0x3F) <<< 6)) ||| (third &&& 0x3F), 3)
      | _ => none
    else if CUTF8String.GetCharacter.selector cFirstByte = 0xF0 then
      match rest with
      | second :: third :: fourth :: _ =>
        some (((((first &&& 0x07) <<< 18) ||| ((second &&& 0x3F) <<< 12))
          ||| ((third &&& 0x3F) <<< 6)) ||| (fourth &&& 0x3F), 4)
      | _ => none
    else
      match rest with
      | second :: _ => some (((first &&& 0x1F) <<< 6) ||| (second &&& 0x3F), 2)
      | _ => none

/-- The loop of `CUTF8String::at` with the iterations left, the local `udwCodePoint` and
the local `Result`. -/
def CUTF8String.at.loop (mCodePoints : List Nat) : Nat → Nat → Nat → Option Nat
  | 0, _, Result => some Result
  | iterations + 1, udwCodePoint, _ =>
    match CUTF8String.GetCharacter (mCodePoints.drop udwCodePoint) with
    | none => none
    | some (Result, udwOffset) =>
      CUTF8String.at.loop mCodePoints iterations (udwCodePoint + udwOffset) Result

/-- The method `CUTF8String::at`: the loop runs for `i = 0 .. inudwIndex`. -/
def CUTF8String.at (s : CUTF8String) (inudwIndex : Nat) : Option Nat :=
  CUTF8String.at.loop s.mCodePoints (inudwIndex + 1) 0 0

/-- The method `CUTF8String::append`. -/
def CUTF8String.append (s instrUTF8String : CUTF8String) : CUTF8String :=
  ⟨s.mCodePoints ++ instrUTF8String.mCodePoints, s.mudwLength, false⟩

/-- The code points `cp[0 .. udwNumCodePoints)` that `appendChar` computes for a
character. -/
def CUTF8String.appendChar.cp (inChar : Nat) : List Nat :=
  if inChar ≤ 0x7F then [(inChar >>> 0) &&& 0x7F]
  else if inChar ≤ 0x7FF then
    [0xC0 ||| ((inChar >>> 6) &&& 0x1F), 0x80 ||| (inChar &&& 0x3F)]
  else if inChar ≤ 0xFFFF then
    [0xE0 ||| ((inChar >>> 12) &&& 0x0F), 0x80 ||| ((inChar >>> 6) &&& 0x3F),
      0x80 ||| (inChar &&& 0x3F)]
  else if inChar ≤ 0x1FFFFF then
    [0xF0 ||| ((inChar >>> 18) &&& 0x07), 0x80 ||| ((inChar >>> 12) &&& 0x3F),
      0x80 ||| ((inChar >>> 6) &&& 0x3F), 0x80 ||| (inChar &&& 0x3F)]
  else []

/-- The method `CUTF8String::appendChar`. -/
def CUTF8String.appendChar (s : CUTF8String) (inChar : Nat) : CUTF8String :=
  ⟨s.mCodePoints ++ CUTF8String.appendChar.cp inChar, s.mudwLength, false⟩

/-- The method `CUTF8String::appendCodePoints`: the character holds the code points
themselves, read through `(CodePoint*)(&inChar)` from the lowest address on (the lowest
byte first on a little-endian machine). -/
def CUTF8String.appendCodePoints (s : CUTF8String) (inChar : Nat) : CUTF8String :=
  let pLeadCodePoint : List Nat :=
    [inChar &&& 0xFF, (inChar >>> 8) &&& 0xFF, (inChar >>> 16) &&& 0xFF,
      (inChar >>> 24) &&& 0xFF]
  let lead := inChar &&& 0xFF
  let udwNumCodePoints :=
    if lead < 0x80 then 1
    else if lead < 0xE0 then 2
    else if lead < 0xF0 then 3
    else if lead < 0xF8 then 4
    else 0
  ⟨s.mCodePoints ++ pLeadCodePoint.take udwNumCodePoints, s.mudwLength, false⟩

/-- The inner loop of `CUTF8String::erase`, `mCodePoints.erase(it + i)` for
`i = 0 .. udwOffset`, with `it` at the index `position`: each call erases in the code
points the earlier calls left. Erasing at or past the end is undefined and gives
`none`. -/
def CUTF8String.erase.loop (position : Nat) : Nat → Nat → List Nat → Option (List Nat)
  | 0, _, mCodePoints => some mCodePoints
  | remaining + 1, i, mCodePoints =>
    if position + i < mCodePoints.length then
      CUTF8String.erase.loop position remaining (i + 1) (mCodePoints.eraseIdx (position + i))
    else none

/-- The method `CUTF8String::erase` with the iterator given as the index of the code
point it points at. -/
def CUTF8String.erase (s : CUTF8String) (inpIt : Nat) : Option CUTF8String :=
  match CUTF8String.GetCharacter (s.mCodePoints.drop inpIt) with
  | none => none
  | some (_, udwOffset) =>
    if inpIt < s.mCodePoints.length then
      match CUTF8String.erase.loop inpIt udwOffset 0 s.mCodePoints with
      | none => none
      | some mCodePoints => some ⟨mCodePoints, s.mudwLength, false⟩
    else some ⟨s.mCodePoints, s.mudwLength, false⟩

/-- The method `CUTF8String::clear`. -/
def CUTF8String.clear (_ : CUTF8String) : CUTF8String := ⟨[], 0, false⟩

/-- The number of code points `b` of a string with `(b & 0xC0) != 0x80`
(specification side). -/
def CUTF8String.numLeadBytes (codePoints : List Nat) : Nat :=
  (codePoints.filter CUTF8String.isLead).length

/-- A call of one of the methods of a string that read or change its length. -/
inductive CUTF8String.Call where
  | size
  | append (instrUTF8String : CUTF8String)
  | appendChar (inChar : Nat)
  | appendCodePoints (inChar : Nat)
  | erase (inpIt : Nat)
  | clear

/-- The string after a call, `none` when the call is undefined. -/
def CUTF8String.call (s : CUTF8String) : CUTF8String.Call → Option CUTF8String
  | CUTF8String.Call.size => some (CUTF8String.size s).2
  | CUTF8String.Call.append instrUTF8String => some (s.append instrUTF8String)
  | CUTF8String.Call.appendChar inChar => some (s.appendChar inChar)
  | CUTF8String.Call.appendCodePoints inChar => some (s.appendCodePoints inChar)
  | CUTF8String.Call.erase inpIt => s.erase inpIt
  | CUTF8String.Call.clear => some s.clear

/-- The string after a sequence of calls. -/
def CUTF8String.calls : CUTF8String → List CUTF8String.Call → Option CUTF8String
  | s, [] => some s
  | s, c :: rest =>
    match s.call c with
    | none => none
    | some s => CUTF8String.calls s rest

/-- Whether a call is an `erase`. -/
def CUTF8String.Call.isErase : CUTF8String.Call → Bool
  | CUTF8String.Call.erase _ => true
  | _ => false

/-- The string that `appendChar` builds from a list of characters, starting from the
empty string. -/
def CUTF8String.fromChars (characters : List Nat) : CUTF8String :=
  characters.foldl CUTF8String.appendChar CUTF8String.empty

/-! ## The material sort predicate -/

/-- The address a pointer holds, which the relational operators compare: 0 for the null
pointer. -/
def Ptr.address : Ptr → Nat
  | none => 0
  | some a => a + 1

/-- A render component as `MaterialSortPredicate::SortItem` of
`Rendering/Base/RendererSortPredicates.cpp` reads it: the material pointer
`GetMaterial().get()`, whether the component is a static mesh component
(`IsA(StaticMeshComponent::InterfaceID)`), and the mesh pointer `GetMesh().get()` of a
static mesh component. -/
structure RenderComponent where
  GetMaterial : Ptr
  IsStaticMeshComponent : Bool
  GetMesh : Ptr
deriving DecidableEq

/-- The function `MaterialSortPredicate::SortItem`. -/
def MaterialSortPredicate.SortItem (p1 p2 : RenderComponent) : Bool :=
  let pM1 := p1.GetMaterial
  let pM2 := p2.GetMaterial
  if pM1 = pM2 then
    let bp1Mesh := p1.IsStaticMeshComponent
    let bp2Mesh := p2.IsStaticMeshComponent
    if bp1Mesh && bp2Mesh then decide (p1.GetMesh.address < p2.GetMesh.address)
    else bp1Mesh
  else decide (p1.GetMaterial.address < p2.GetMaterial.address)

/-- The order the predicate is said to implement (specification side): by material
identity, then static mesh components before the others, then by mesh identity. -/
def MaterialSortPredicate.before (p1 p2 : RenderComponent) : Prop :=
  p1.GetMaterial.address < p2.GetMaterial.address
  ∨ (p1.GetMaterial = p2.GetMaterial
    ∧ ((p1.IsStaticMeshComponent = true ∧ p2.IsStaticMeshComponent = false)
      ∨ (p1.IsStaticMeshComponent = true ∧ p2.IsStaticMeshComponent = true
        ∧ p1.GetMesh.address < p2.GetMesh.address)))

/-! ## The dynamic sprite batch

The header `DynamicSpriteBatcher.h` is not among the sources: the constants
`kudwIndicesPerSprite` and `kudwBufferArrayBounds` it declares are parameters, and the
members of the class and of its `RenderCommand` are those the code of
`Rendering/Sprite/DynamicSpriteBatcher.cpp` uses. -/

/-- The constant `kudwMaxSpritesInDynamicBatch`. -/
def kudwMaxSpritesInDynamicBatch : Nat := 2048

/-- The vertices of a sprite, uninterpreted: given ones, or the product of vertices with
a transform. -/
inductive SpriteVertices where
  | value (code : Nat)
  | Multiply (sVerts : SpriteVertices) (inpTransform : Nat)
deriving DecidableEq

/-- The structure `SpriteComponent::SpriteData` as the batch reads it: the material
pointer and the vertices. -/
structure SpriteData where
  pMaterial : Ptr
  sVerts : SpriteVertices
deriving DecidableEq

/-- The structure `DynamicSpriteBatch::RenderCommand`: a copy of the material, which is
the object the pointer names, the offset in bytes into the index buffer and the number
of indices. -/
structure DynamicSpriteBatch.RenderCommand where
  Material : Nat
  udwOffset : Nat
  udwStride : Nat
deriving DecidableEq

/-- What `BuildAndFlushBatch` hands to the sprite batch `mpBatch[...]`: the buffer it
uses, the sprites of `Build` and the commands of the `Render` calls, in order. -/
structure DynamicSpriteBatch.Flush where
  buffer : Nat
  sprites : List SpriteData
  commands : List DynamicSpriteBatch.RenderCommand
deriving DecidableEq

/-- The class `DynamicSpriteBatch`, with the list of the flushes it has made. -/
structure DynamicSpriteBatch where
  maSpriteCache : List SpriteData
  maRenderCommands : List DynamicSpriteBatch.RenderCommand
  mpLastMaterial : Ptr
  mudwSpriteCommandCounter : Nat
  mudwCurrentRenderSpriteBatch : Nat
  flushes : List DynamicSpriteBatch.Flush
deriving DecidableEq

/-- The constructor of `DynamicSpriteBatch`. -/
def DynamicSpriteBatch.new : DynamicSpriteBatch := ⟨[], [], none, 0, 0, []⟩

/-- Modelled from the spec: `Core::MathUtils::Wrap` is not among the sources; a value
past the upper bound wraps to the lower bound. -/
def Wrap (value lower upper : Nat) : Nat :=
  if value > upper then lower else value

/-- The method `DynamicSpriteBatch::ForceCommandChange`; `none` when it dereferences a
null `mpLastMaterial`. The offset and the stride are `u32`; `sizeof(s16)` is 2. -/
def DynamicSpriteBatch.ForceCommandChange (kudwIndicesPerSprite : Nat)
    (b : DynamicSpriteBatch) : Option DynamicSpriteBatch :=
  if !b.maSpriteCache.isEmpty then
    match b.mpLastMaterial with
    | none => none
    | some material =>
      let sLastCommand : DynamicSpriteBatch.RenderCommand :=
        ⟨material,
          (((b.maSpriteCache.length - b.mudwSpriteCommandCounter) * kudwIndicesPerSprite) * 2)
            % 2 ^ 32,
          (b.mudwSpriteCommandCounter * kudwIndicesPerSprite) % 2 ^ 32⟩
      some ⟨b.maSpriteCache, b.maRenderCommands ++ [sLastCommand], b.mpLastMaterial, 0,
        b.mudwCurrentRenderSpriteBatch, b.flushes⟩
  else some b

/-- The method `DynamicSpriteBatch::BuildAndFlushBatch`. -/
def DynamicSpriteBatch.BuildAndFlushBatch (kudwBufferArrayBounds : Nat)
    (b : DynamicSpriteBatch) : DynamicSpriteBatch :=
  ⟨[], [], b.mpLastMaterial, b.mudwSpriteCommandCounter,
    Wrap (b.mudwCurrentRenderSpriteBatch + 1) 0 kudwBufferArrayBounds,
    b.flushes ++ [⟨b.mudwCurrentRenderSpriteBatch, b.maSpriteCache, b.maRenderCommands⟩]⟩

/-- The method `DynamicSpriteBatch::ForceRender`. -/
def DynamicSpriteBatch.ForceRender (kudwIndicesPerSprite kudwBufferArrayBounds : Nat)
    (b : DynamicSpriteBatch) : Option DynamicSpriteBatch :=
  if !b.maSpriteCache.isEmpty then
    match DynamicSpriteBatch.ForceCommandChange kudwIndicesPerSprite b with
    | none => none
    | some b => some (DynamicSpriteBatch.BuildAndFlushBatch kudwBufferArrayBounds b)
  else some b

/-- The sprite `Render` leaves at the back of the cache: the sprite given, with its
vertices multiplied by the transform when there is one. -/
def DynamicSpriteBatch.Render.cached (inpSprite : SpriteData) (inpTransform : Option Nat) :
    SpriteData :=
  match inpTransform with
  | some transform => ⟨inpSprite.pMaterial, SpriteVertices.Multiply inpSprite.sVerts transform⟩
  | none => inpSprite

/-- The method `DynamicSpriteBatch::Render`. -/
def DynamicSpriteBatch.Render (kudwIndicesPerSprite kudwBufferArrayBounds : Nat)
    (b : DynamicSpriteBatch) (inpSprite : SpriteData) (inpTransform : Option Nat) :
    Option DynamicSpriteBatch :=
  match (if b.maSpriteCache.length ≥ kudwMaxSpritesInDynamicBatch
      then DynamicSpriteBatch.ForceRender kudwIndicesPerSprite kudwBufferArrayBounds b
      else some b) with
  | none => none
  | some b =>
    match (if b.mpLastMaterial.isSome && decide (b.mpLastMaterial ≠ inpSprite.pMaterial)
        then DynamicSpriteBatch.ForceCommandChange kudwIndicesPerSprite b
        else some b) with
    | none => none
    | some b =>
      some ⟨b.maSpriteCache ++ [DynamicSpriteBatch.Render.cached inpSprite inpTransform],
        b.maRenderCommands, inpSprite.pMaterial,
        b.mudwSpriteCommandCounter + 1, b.mudwCurrentRenderSpriteBatch, b.flushes⟩

/-- A call of one of the three public methods of the batch. -/
inductive DynamicSpriteBatch.Call where
  | Render (inpSprite : SpriteData) (inpTransform : Option Nat)
  | ForceCommandChange
  | ForceRender
deriving DecidableEq

/-- The batch after a call, `none` when the call is undefined. -/
def DynamicSpriteBatch.call (kudwIndicesPerSprite kudwBufferArrayBounds : Nat)
    (b : DynamicSpriteBatch) : DynamicSpriteBatch.Call → Option DynamicSpriteBatch
  | DynamicSpriteBatch.Call.Render inpSprite inpTransform =>
    DynamicSpriteBatch.Render kudwIndicesPerSprite kudwBufferArrayBounds b inpSprite
      inpTransform
  | DynamicSpriteBatch.Call.ForceCommandChange =>
    DynamicSpriteBatch.ForceCommandChange kudwIndicesPerSprite b
  | DynamicSpriteBatch.Call.ForceRender =>
    DynamicSpriteBatch.ForceRender kudwIndicesPerSprite kudwBufferArrayBounds b

/-- The batch after a sequence of calls. -/
def DynamicSpriteBatch.calls (kudwIndicesPerSprite kudwBufferArrayBounds : Nat) :
    DynamicSpriteBatch → List DynamicSpriteBatch.Call → Option DynamicSpriteBatch
  | b, [] => some b
  | b, c :: rest =>
    match DynamicSpriteBatch.call kudwIndicesPerSprite kudwBufferArrayBounds b c with
    | none => none
    | some b => DynamicSpriteBatch.calls kudwIndicesPerSprite kudwBufferArrayBounds b rest

/-- Whether the sprite of a `Render` call has a material; the other calls have no
sprite. -/
def DynamicSpriteBatch.Call.hasMaterial : DynamicSpriteBatch.Call → Bool
  | DynamicSpriteBatch.Call.Render inpSprite _ => inpSprite.pMaterial.isSome
  | _ => true

/-- The commands that tile groups of sprites, each group with its material, when
`before` sprites precede them (specification side): each command starts where the
groups before it end and spans its group. -/
def DynamicSpriteBatch.commandsOf (kudwIndicesPerSprite : Nat) :
    Nat → List (Nat × List SpriteData) → List DynamicSpriteBatch.RenderCommand
  | _, [] => []
  | before, (material, sprites) :: rest =>
    ⟨material, before * kudwIndicesPerSprite * 2, sprites.length * kudwIndicesPerSprite⟩
      :: DynamicSpriteBatch.commandsOf kudwIndicesPerSprite (before + sprites.length) rest

/-- The commands are those that tile a grouping of the sprites; under the condition
`materials`, which says that the sprites submitted all have a material, every sprite of a
group has the material of the group. -/
def DynamicSpriteBatch.Grouped (materials : Prop) (kudwIndicesPerSprite : Nat)
    (sprites : List SpriteData) (commands : List DynamicSpriteBatch.RenderCommand) : Prop :=
  ∃ groups : List (Nat × List SpriteData),
    sprites = (groups.map Prod.snd).flatten
    ∧ commands = DynamicSpriteBatch.commandsOf kudwIndicesPerSprite 0 groups
    ∧ (materials → ∀ g ∈ groups, ∀ sprite ∈ g.2, sprite.pMaterial = some g.1)

/-- The invariant of the batch: the cache holds at most the maximum number of sprites;
it is the sprites the recorded commands tile followed by those counted by
`mudwSpriteCommandCounter`, which, under the condition `materials`, all have the last
material; and the commands of every flush made tile its sprites. -/
def DynamicSpriteBatch.Consistent (materials : Prop) (kudwIndicesPerSprite : Nat)
    (b : DynamicSpriteBatch) : Prop :=
  b.maSpriteCache.length ≤ kudwMaxSpritesInDynamicBatch
  ∧ (∃ closed pending : List SpriteData,
    b.maSpriteCache = closed ++ pending
    ∧ pending.length = b.mudwSpriteCommandCounter
    ∧ DynamicSpriteBatch.Grouped materials kudwIndicesPerSprite closed b.maRenderCommands
    ∧ (materials → ∀ sprite ∈ pending, sprite.pMaterial = b.mpLastMaterial)
    ∧ (materials → pending ≠ [] → b.mpLastMaterial ≠ none))
  ∧ ∀ f ∈ b.flushes,
    DynamicSpriteBatch.Grouped materials kudwIndicesPerSprite f.sprites f.commands

/-- Sprite data with the given material and vertices. -/
def sampleSprite (material code : Nat) : SpriteData :=
  ⟨some material, SpriteVertices.value code⟩

/-- Two sprites of material 1, a sprite of material 2, and a forced render. -/
def sampleSpriteCalls : List DynamicSpriteBatch.Call :=
  [DynamicSpriteBatch.Call.Render (sampleSprite 1 0) none,
    DynamicSpriteBatch.Call.Render (sampleSprite 1 1) (some 7),
    DynamicSpriteBatch.Call.Render (sampleSprite 2 2) none,
    DynamicSpriteBatch.Call.ForceRender]

/-! ## Sample scenes -/

/-- A static object with the given material, mesh and world matrix. -/
def sampleStaticObject (material mesh world : Nat) : RenderPassObject :=
  ⟨RenderPassObject.Type.k_static, some material, some mesh, none, Matrix4.value world⟩

/-- A dynamic object with the given material, dynamic mesh and world matrix. -/
def sampleDynamicObject (material mesh world : Nat) : RenderPassObject :=
  ⟨RenderPassObject.Type.k_dynamic, some material, none, some mesh, Matrix4.value world⟩

/-- A directional light whose shadow map target is the given one. -/
def sampleDirectionalLight (shadowMapTarget : Option RenderTargetGroup) :
    RenderDirectionalLight :=
  ⟨⟨3⟩, Vector3.value 4, Matrix4.value 5, Matrix4.value 6, 7, shadowMapTarget⟩

/-- A render pass with the given light type and objects; its directional light has the
given shadow map target. -/
def samplePass (lightType : RenderPass.LightType) (shadowMapTarget : Option RenderTargetGroup)
    (objects : List RenderPassObject) : RenderPass :=
  ⟨lightType, ⟨⟨2⟩⟩, sampleDirectionalLight shadowMapTarget,
    ⟨⟨8⟩, Vector3.value 9, Vector3.value 10⟩, objects⟩

/-- Four static objects: (material 1, mesh 10), (1, 10), (1, 11), (2, 11). -/
def sampleCoalescingObjects : List RenderPassObject :=
  [sampleStaticObject 1 10 0, sampleStaticObject 1 10 1, sampleStaticObject 1 11 2,
    sampleStaticObject 2 11 3]

/-- Two dynamic objects with different materials and the same dynamic mesh. -/
def sampleDynamicObjects : List RenderPassObject :=
  [sampleDynamicObject 1 10 0, sampleDynamicObject 2 10 1]

/-- A render target group with a colour texture and no depth texture. -/
def sampleColourOnlyTarget : RenderTargetGroup := ⟨some 20, none⟩

/-- A render target group with a colour texture and a depth texture. -/
def sampleDepthTarget : RenderTargetGroup := ⟨some 20, some 21⟩

/-- A camera. -/
def sampleCamera : RenderCamera := ⟨Matrix4.value 30, Matrix4.value 31⟩

/-- A target group rendering to the screen with two camera groups: the first has an
empty pass, a pass of four static objects and a pass of two dynamic objects, the second
has an empty pass only. -/
def sampleTargetGroup : TargetRenderPassGroup :=
  ⟨none, ⟨640, 480⟩, ⟨1⟩,
    [⟨sampleCamera, [samplePass RenderPass.LightType.k_ambient none [],
        samplePass RenderPass.LightType.k_none none sampleCoalescingObjects,
        samplePass RenderPass.LightType.k_point none sampleDynamicObjects]⟩,
     ⟨sampleCamera, [samplePass RenderPass.LightType.k_ambient none []]⟩]⟩

/-- The buffer compiled from `sampleTargetGroup` with the pre-list `[End]` and an empty
post-list. -/
def sampleBuffer : RenderCommandBuffer :=
  ⟨[[RenderCommand.End],
    [RenderCommand.Begin ⟨640, 480⟩ ⟨1⟩],
    [RenderCommand.ApplyCamera (Vector3.GetTranslation (Matrix4.value 30)) (Matrix4.value 31),
      RenderCommand.ApplyAmbientLight Colour.k_black,
      RenderCommand.ApplyMaterial (some 1), RenderCommand.ApplyMesh (some 10),
      RenderCommand.RenderInstance (Matrix4.value 0),
      RenderCommand.RenderInstance (Matrix4.value 1),
      RenderCommand.ApplyMesh (some 11), RenderCommand.RenderInstance (Matrix4.value 2),
      RenderCommand.ApplyMaterial (some 2), RenderCommand.ApplyMesh (some 11),
      RenderCommand.RenderInstance (Matrix4.value 3)],
    [RenderCommand.ApplyPointLight ⟨8⟩ (Vector3.value 9) (Vector3.value 10),
      RenderCommand.ApplyMaterial (some 1), RenderCommand.ApplyDynamicMesh (some 10),
      RenderCommand.RenderInstance (Matrix4.value 0),
      RenderCommand.ApplyMaterial (some 2),
      RenderCommand.RenderInstance (Matrix4.value 1)],
    [RenderCommand.End]], []⟩

/-- The buffer compiled from `sampleTargetGroup` with an empty pre-list and the
post-list `[End]`. -/
def samplePostBuffer : RenderCommandBuffer :=
  ⟨sampleBuffer.m_renderCommandLists.drop 1 ++ [[RenderCommand.End]], []⟩

/-- Whether a command is an apply-camera command. -/
def RenderCommand.isApplyCamera : RenderCommand → Bool
  | RenderCommand.ApplyCamera _ _ => true
  | _ => false

/-- The first camera group of `sampleTargetGroup`. -/
def sampleCameraGroup : CameraRenderPassGroup :=
  ⟨sampleCamera, [samplePass RenderPass.LightType.k_ambient none [],
    samplePass RenderPass.LightType.k_none none sampleCoalescingObjects,
    samplePass RenderPass.LightType.k_point none sampleDynamicObjects]⟩

/-- The second camera group of `sampleTargetGroup`: one pass, without objects. -/
def sampleEmptyCameraGroup : CameraRenderPassGroup :=
  ⟨sampleCamera, [samplePass RenderPass.LightType.k_ambient none []]⟩

/-- A list that already holds an apply-camera command. -/
def sampleCameraList : RenderCommandList :=
  [RenderCommand.ApplyCamera (Vector3.GetTranslation (Matrix4.value 30)) (Matrix4.value 31)]

/-- A buffer of two lists, the second one holding an apply-camera command. -/
def sampleTwoListBuffer : RenderCommandBuffer := ⟨[[RenderCommand.End], sampleCameraList], []⟩

/-! ## The commands of each object (specification side) -/

/-- The commands one iteration of the object loop appends: the list the iteration
leaves when it starts from an empty list with the trackers of `s`. -/
def CompileRenderCommandsForPass.emitted (s : PassLoopState) (o : RenderPassObject) :
    List RenderCommand :=
  (CompileRenderCommandsForPass.body
    ⟨s.currentMaterial, s.currentStaticMesh, s.currentDynamicMesh, []⟩ o).renderCommandList

/-- The commands the object loop appends, object by object, from the state `s` on. -/
def CompileRenderCommandsForPass.objectCommands :
    PassLoopState → List RenderPassObject → List (List RenderCommand)
  | _, [] => []
  | s, o :: rest =>
    CompileRenderCommandsForPass.emitted s o
      :: CompileRenderCommandsForPass.objectCommands (CompileRenderCommandsForPass.body s o) rest

/-- The state of the object loop when it starts: the three trackers are null. -/
def CompileRenderCommandsForPass.initial (renderCommandList : RenderCommandList) :
    PassLoopState :=
  ⟨none, none, none, renderCommandList⟩

/-- Whether a command is an apply-material command. -/
def RenderCommand.isApplyMaterial : RenderCommand → Bool
  | RenderCommand.ApplyMaterial _ => true
  | _ => false

/-- Whether a command is an apply-mesh command. -/
def RenderCommand.isApplyMesh : RenderCommand → Bool
  | RenderCommand.ApplyMesh _ => true
  | _ => false

/-- The mesh command of an object: apply-mesh with its mesh for a static object,
apply-dynamic-mesh with its dynamic mesh for a dynamic object. -/
def RenderPassObject.meshCommand (o : RenderPassObject) : RenderCommand :=
  match o.GetType with
  | RenderPassObject.Type.k_static => RenderCommand.ApplyMesh o.GetRenderMesh
  | RenderPassObject.Type.k_dynamic => RenderCommand.ApplyDynamicMesh o.GetRenderDynamicMesh

/-- Whether the mesh of an object, the one of its type, is not null. -/
def RenderPassObject.hasMesh (o : RenderPassObject) : Bool :=
  match o.GetType with
  | RenderPassObject.Type.k_static => o.GetRenderMesh.isSome
  | RenderPassObject.Type.k_dynamic => o.GetRenderDynamicMesh.isSome

/-- A static object, a dynamic object and the static object again, all of material 1:
(static, mesh 10), (dynamic, mesh 20), (static, mesh 10). -/
def sampleMixedObjects : List RenderPassObject :=
  [sampleStaticObject 1 10 0, sampleDynamicObject 1 20 1, sampleStaticObject 1 10 2]

/-! ## Counting lemmas -/

theorem RenderPass.hasObjects_iff (renderPass : RenderPass) :
    renderPass.hasObjects = true ↔ renderPass.GetRenderPassObjects.length > 0 := by
  unfold RenderPass.hasObjects
  cases renderPass.GetRenderPassObjects <;> simp

theorem passCount_foldl (passes : List RenderPass) (c : Nat) :
    passes.foldl (fun count renderPass =>
        if renderPass.GetRenderPassObjects.length > 0 then count + 1 else count) c
      = c + (passes.filter RenderPass.hasObjects).length := by
  induction passes generalizing c with
  | nil => simp
  | cons p ps ih =>
    rw [List.foldl_cons, ih, List.filter_cons]
    by_cases h : p.GetRenderPassObjects.length > 0
    · have hp : p.hasObjects = true := (RenderPass.hasObjects_iff p).2 h
      simp only [h, hp, if_true, List.length_cons]
      omega
    · have hp : p.hasObjects = false := by
        cases hq : p.hasObjects
        · rfl
        · exact absurd ((RenderPass.hasObjects_iff p).1 hq) h
      simp [h, hp]

theorem cameraCount_foldl (cameraGroups : List CameraRenderPassGroup) (c : Nat) :
    cameraGroups.foldl (fun count cameraRenderPassGroup =>
        cameraRenderPassGroup.GetRenderPasses.foldl (fun count renderPass =>
          if renderPass.GetRenderPassObjects.length > 0 then count + 1 else count) count) c
      = c + (((cameraGroups.map CameraRenderPassGroup.GetRenderPasses).flatten).filter
          RenderPass.hasObjects).length := by
  induction cameraGroups generalizing c with
  | nil => simp
  | cons g gs ih =>
    rw [List.foldl_cons, ih, passCount_foldl]
    simp only [List.map_cons, List.flatten_cons, List.filter_append, List.length_append]
    omega

theorem targetCount_foldl (targetGroups : List TargetRenderPassGroup) (c : Nat) :
    targetGroups.foldl (fun count targetRenderPassGroup =>
        let count := count + 1
        let count := targetRenderPassGroup.GetRenderCameraGroups.foldl
          (fun count cameraRenderPassGroup =>
            cameraRenderPassGroup.GetRenderPasses.foldl (fun count renderPass =>
              if renderPass.GetRenderPassObjects.length > 0 then count + 1 else count) count)
          count
        count + 1) c
      = c + (targetGroups.map (fun g => 2 + g.numPassesWithObjects)).sum := by
  induction targetGroups generalizing c with
  | nil => simp
  | cons g gs ih =>
    rw [List.foldl_cons, ih]
    simp only [cameraCount_foldl, List.map_cons, List.sum_cons,
      TargetRenderPassGroup.numPassesWithObjects, TargetRenderPassGroup.allRenderPasses]
    omega

/-! ## The list-count planner: theorems -/

theorem CalcNumRenderCommandLists_closed (targetRenderPassGroups : List TargetRenderPassGroup)
    (preRenderCommandList postRenderCommandList : RenderCommandList) :
    CalcNumRenderCommandLists targetRenderPassGroups preRenderCommandList postRenderCommandList
      = (if preRenderCommandList ≠ [] then 1 else 0)
        + (targetRenderPassGroups.map (fun g => 2 + g.numPassesWithObjects)).sum
        + (if postRenderCommandList ≠ [] then 1 else 0) := by
  unfold CalcNumRenderCommandLists
  simp only [targetCount_foldl, RenderCommandList.GetOrderedList]
  cases preRenderCommandList <;> cases postRenderCommandList <;> simp

/-- Claim C1. For every sequence of target render pass groups and every pre and post
command list, `CalcNumRenderCommandLists` returns one if the pre-list is non-empty, plus,
for each target group, two plus the number of its render passes (across all its camera
groups) that have at least one render pass object, plus one if the post-list is
non-empty. -/
theorem CalcNumRenderCommandLists_eq (targetRenderPassGroups : List TargetRenderPassGroup)
    (preRenderCommandList postRenderCommandList : RenderCommandList) :
    CalcNumRenderCommandLists targetRenderPassGroups preRenderCommandList postRenderCommandList
      = (if preRenderCommandList ≠ [] then 1 else 0)
        + (targetRenderPassGroups.map (fun g => 2 + g.numPassesWithObjects)).sum
        + (if postRenderCommandList ≠ [] then 1 else 0) :=
  CalcNumRenderCommandLists_closed targetRenderPassGroups preRenderCommandList
    postRenderCommandList

/-! ## The pass compiler: lemmas -/

theorem CS_ASSERT_release (query : Bool) (message : String) :
    CS_ASSERT false query message = Except.ok () := rfl

theorem CS_ASSERT_true (CS_ENABLE_DEBUG : Bool) (message : String) :
    CS_ASSERT CS_ENABLE_DEBUG true message = Except.ok () := by
  cases CS_ENABLE_DEBUG <;> rfl

theorem CS_ASSERT_debug_false (message : String) :
    CS_ASSERT true false message = Except.error message := rfl

/-- One iteration of the object loop appends state changes and then the render-instance
command of the object. -/
theorem CompileRenderCommandsForPass.body_appends (s : PassLoopState) (o : RenderPassObject) :
    ∃ changes : List RenderCommand,
      (CompileRenderCommandsForPass.body s o).renderCommandList
          = s.renderCommandList ++ (changes ++ [RenderCommand.RenderInstance o.GetWorldMatrix])
        ∧ ∀ c ∈ changes, c.isObjectCommand = true ∧ c.instanceMatrix? = none := by
  unfold CompileRenderCommandsForPass.body
  by_cases hm : o.GetRenderMaterial ≠ s.currentMaterial
  · cases ht : o.GetType
    · by_cases hx : o.GetRenderMesh ≠ none
      · refine ⟨[RenderCommand.ApplyMaterial o.GetRenderMaterial,
          RenderCommand.ApplyMesh o.GetRenderMesh], ?_, ?_⟩
        · simp [hm, hx, RenderCommandList.AddApplyMaterialCommand,
            RenderCommandList.AddApplyMeshCommand, RenderCommandList.AddRenderInstanceCommand]
        · simp [RenderCommand.isObjectCommand, RenderCommand.instanceMatrix?]
      · refine ⟨[RenderCommand.ApplyMaterial o.GetRenderMaterial], ?_, ?_⟩
        · simp [hm, hx, RenderCommandList.AddApplyMaterialCommand,
            RenderCommandList.AddRenderInstanceCommand]
        · simp [RenderCommand.isObjectCommand, RenderCommand.instanceMatrix?]
    · by_cases hx : o.GetRenderDynamicMesh ≠ s.currentDynamicMesh
      · refine ⟨[RenderCommand.ApplyMaterial o.GetRenderMaterial,
          RenderCommand.ApplyDynamicMesh o.GetRenderDynamicMesh], ?_, ?_⟩
        · simp [hm, hx, RenderCommandList.AddApplyMaterialCommand,
            RenderCommandList.AddApplyDynamicMeshCommand,
            RenderCommandList.AddRenderInstanceCommand]
        · simp [RenderCommand.isObjectCommand, RenderCommand.instanceMatrix?]
      · refine ⟨[RenderCommand.ApplyMaterial o.GetRenderMaterial], ?_, ?_⟩
        · simp [hm, hx, RenderCommandList.AddApplyMaterialCommand,
            RenderCommandList.AddRenderInstanceCommand]
        · simp [RenderCommand.isObjectCommand, RenderCommand.instanceMatrix?]
  · cases ht : o.GetType
    · by_cases hx : o.GetRenderMesh ≠ s.currentStaticMesh
      · refine ⟨[RenderCommand.ApplyMesh o.GetRenderMesh], ?_, ?_⟩
        · simp [hm, hx, RenderCommandList.AddApplyMeshCommand,
            RenderCommandList.AddRenderInstanceCommand]
        · simp [RenderCommand.isObjectCommand, RenderCommand.instanceMatrix?]
      · refine ⟨[], ?_, ?_⟩
        · simp [hm, hx, RenderCommandList.AddRenderInstanceCommand]
        · simp
    · by_cases hx : o.GetRenderDynamicMesh ≠ s.currentDynamicMesh
      · refine ⟨[RenderCommand.ApplyDynamicMesh o.GetRenderDynamicMesh], ?_, ?_⟩
        · simp [hm, hx, RenderCommandList.AddApplyDynamicMeshCommand,
            RenderCommandList.AddRenderInstanceCommand]
        · simp [RenderCommand.isObjectCommand, RenderCommand.instanceMatrix?]
      · refine ⟨[], ?_, ?_⟩
        · simp [hm, hx, RenderCommandList.AddRenderInstanceCommand]
        · simp

/-- The object loop appends object commands only, and its render-instance commands are
the world matrices of the objects, in order. -/
theorem CompileRenderCommandsForPass.loop_appends (objects : List RenderPassObject)
    (s : PassLoopState) :
    ∃ appended : List RenderCommand,
      (objects.foldl CompileRenderCommandsForPass.body s).renderCommandList
          = s.renderCommandList ++ appended
        ∧ (∀ c ∈ appended, c.isObjectCommand = true)
        ∧ appended.filterMap RenderCommand.instanceMatrix?
            = objects.map RenderPassObject.GetWorldMatrix := by
  induction objects generalizing s with
  | nil => exact ⟨[], by simp, by simp, by simp⟩
  | cons o os ih =>
    obtain ⟨changes, hlist, hchanges⟩ := CompileRenderCommandsForPass.body_appends s o
    obtain ⟨rest, hrest, hobj, hinst⟩ := ih (CompileRenderCommandsForPass.body s o)
    refine ⟨changes ++ [RenderCommand.RenderInstance o.GetWorldMatrix] ++ rest, ?_, ?_, ?_⟩
    · rw [List.foldl_cons, hrest, hlist]
      simp
    · intro c hc
      simp only [List.mem_append, List.mem_singleton] at hc
      rcases hc with (hc | hc) | hc
      · exact (hchanges c hc).1
      · subst hc
        rfl
      · exact hobj c hc
    · have hnone : changes.filterMap RenderCommand.instanceMatrix? = [] := by
        rw [List.filterMap_eq_nil_iff]
        intro c hc
        exact (hchanges c hc).2
      simp [List.filterMap_append, hnone, hinst, RenderCommand.instanceMatrix?]

/-- A successful `AddApplyLightCommand` appends exactly one command, a light command. -/
theorem AddApplyLightCommand_ok (CS_ENABLE_DEBUG : Bool) (renderPass : RenderPass)
    (renderCommandList out : RenderCommandList)
    (h : AddApplyLightCommand CS_ENABLE_DEBUG renderPass renderCommandList = Except.ok out) :
    ∃ light : RenderCommand, out = renderCommandList ++ [light] ∧ light.isLight = true := by
  unfold AddApplyLightCommand at h
  cases hl : renderPass.GetLightType <;> simp only [hl] at h
  · injection h with h
    exact ⟨_, h.symm, rfl⟩
  · injection h with h
    exact ⟨_, h.symm, rfl⟩
  · cases ht : renderPass.GetDirectionalLight.GetShadowMapTarget <;> simp only [ht] at h
    · injection h with h
      exact ⟨_, h.symm, rfl⟩
    · split at h
      · exact absurd h (by simp)
      · injection h with h
        exact ⟨_, h.symm, rfl⟩
  · injection h with h
    exact ⟨_, h.symm, rfl⟩

/-- The function `AddApplyLightCommand` fails only in a debug build, for a directional
light whose shadow map target has no depth texture. -/
theorem AddApplyLightCommand_error (CS_ENABLE_DEBUG : Bool) (renderPass : RenderPass)
    (renderCommandList : RenderCommandList) (message : String)
    (h : AddApplyLightCommand CS_ENABLE_DEBUG renderPass renderCommandList
      = Except.error message) :
    CS_ENABLE_DEBUG = true ∧ renderPass.GetLightType = RenderPass.LightType.k_directional
      ∧ ∃ target, renderPass.GetDirectionalLight.GetShadowMapTarget = some target
          ∧ target.GetDepthTarget = none := by
  unfold AddApplyLightCommand at h
  cases hl : renderPass.GetLightType <;> simp only [hl] at h
  · exact absurd h (by simp)
  · exact absurd h (by simp)
  · cases ht : renderPass.GetDirectionalLight.GetShadowMapTarget <;> simp only [ht] at h
    · exact absurd h (by simp)
    · rename_i target
      cases hd : CS_ENABLE_DEBUG
      · rw [hd] at h
        simp [CS_ASSERT] at h
      · cases hq : target.GetDepthTarget
        · exact ⟨rfl, rfl, target, rfl, hq⟩
        · rw [hd, hq] at h
          simp [CS_ASSERT] at h
  · exact absurd h (by simp)

/-- What `CompileRenderCommandsForPass` returns, in terms of its light command and its
object loop. -/
theorem CompileRenderCommandsForPass_ok_iff (CS_ENABLE_DEBUG : Bool) (renderPass : RenderPass)
    (renderCommandList out : RenderCommandList) :
    CompileRenderCommandsForPass CS_ENABLE_DEBUG renderPass renderCommandList = Except.ok out
      ↔ ∃ lit, AddApplyLightCommand CS_ENABLE_DEBUG renderPass renderCommandList = Except.ok lit
          ∧ (CS_ENABLE_DEBUG = false ∨ renderPass.GetRenderPassObjects.length > 0)
          ∧ out = (renderPass.GetRenderPassObjects.foldl CompileRenderCommandsForPass.body
              ⟨none, none, none, lit⟩).renderCommandList := by
  unfold CompileRenderCommandsForPass
  cases hlight : AddApplyLightCommand CS_ENABLE_DEBUG renderPass renderCommandList with
  | error message => simp
  | ok lit =>
    cases CS_ENABLE_DEBUG
    · simp [CS_ASSERT, eq_comm]
    · by_cases hobj : renderPass.GetRenderPassObjects.length > 0
      · simp [CS_ASSERT, hobj, eq_comm]
      · simp [CS_ASSERT, hobj]

/-- The pass compiler returns in a release build, and in a debug build whenever its
assertions hold. -/
theorem CompileRenderCommandsForPass_returns (CS_ENABLE_DEBUG : Bool) (renderPass : RenderPass)
    (renderCommandList : RenderCommandList)
    (h : CS_ENABLE_DEBUG = false ∨ renderPass.assertionsHold = true) :
    ∃ out, CompileRenderCommandsForPass CS_ENABLE_DEBUG renderPass renderCommandList
      = Except.ok out := by
  have hlight : ∃ lit, AddApplyLightCommand CS_ENABLE_DEBUG renderPass renderCommandList
      = Except.ok lit := by
    cases hl : AddApplyLightCommand CS_ENABLE_DEBUG renderPass renderCommandList with
    | ok lit => exact ⟨lit, rfl⟩
    | error message =>
      obtain ⟨hd, hdir, target, ht, hq⟩ := AddApplyLightCommand_error _ _ _ _ hl
      rcases h with h | h
      · rw [hd] at h
        exact absurd h (by simp)
      · simp [RenderPass.assertionsHold, hdir, ht, hq] at h
  obtain ⟨lit, hlit⟩ := hlight
  refine ⟨_, (CompileRenderCommandsForPass_ok_iff _ _ _ _).2 ⟨lit, hlit, ?_, rfl⟩⟩
  rcases h with h | h
  · exact Or.inl h
  · right
    simp only [RenderPass.assertionsHold, Bool.and_eq_true, decide_eq_true_eq] at h
    exact h.1

/-- A successful pass compilation appends a light command followed by object commands
only, whose render-instance commands are the world matrices of the objects in order. -/
theorem CompileRenderCommandsForPass_shape (CS_ENABLE_DEBUG : Bool) (renderPass : RenderPass)
    (renderCommandList out : RenderCommandList)
    (h : CompileRenderCommandsForPass CS_ENABLE_DEBUG renderPass renderCommandList
      = Except.ok out) :
    ∃ (light : RenderCommand) (rest : List RenderCommand),
      AddApplyLightCommand CS_ENABLE_DEBUG renderPass renderCommandList
          = Except.ok (renderCommandList ++ [light])
        ∧ out = renderCommandList ++ light :: rest
        ∧ light.isLight = true
        ∧ (∀ c ∈ rest, c.isObjectCommand = true)
        ∧ rest.filterMap RenderCommand.instanceMatrix?
            = renderPass.GetRenderPassObjects.map RenderPassObject.GetWorldMatrix := by
  obtain ⟨lit, hlit, _, hout⟩ := (CompileRenderCommandsForPass_ok_iff _ _ _ _).1 h
  obtain ⟨light, hlight, hisLight⟩ := AddApplyLightCommand_ok _ _ _ _ hlit
  obtain ⟨rest, hrest, hobj, hinst⟩ :=
    CompileRenderCommandsForPass.loop_appends renderPass.GetRenderPassObjects
      ⟨none, none, none, lit⟩
  refine ⟨light, rest, ?_, ?_, hisLight, hobj, hinst⟩
  · rw [hlit, hlight]
  · rw [hout, hrest, hlight]
    simp

theorem RenderCommand.isLight_of_isObjectCommand (c : RenderCommand)
    (h : c.isObjectCommand = true) : c.isLight = false := by
  cases c <;> simp_all [RenderCommand.isObjectCommand, RenderCommand.isLight]

theorem AddApplyLightCommand_none (CS_ENABLE_DEBUG : Bool) (renderPass : RenderPass)
    (renderCommandList : RenderCommandList)
    (h : renderPass.GetLightType = RenderPass.LightType.k_none) :
    AddApplyLightCommand CS_ENABLE_DEBUG renderPass renderCommandList
      = Except.ok (renderCommandList ++ [RenderCommand.ApplyAmbientLight Colour.k_black]) := by
  simp [AddApplyLightCommand, h, RenderCommandList.AddApplyAmbientLightCommand]

theorem AddApplyLightCommand_ambient (CS_ENABLE_DEBUG : Bool) (renderPass : RenderPass)
    (renderCommandList : RenderCommandList)
    (h : renderPass.GetLightType = RenderPass.LightType.k_ambient) :
    AddApplyLightCommand CS_ENABLE_DEBUG renderPass renderCommandList
      = Except.ok (renderCommandList ++
          [RenderCommand.ApplyAmbientLight renderPass.GetAmbientLight.GetColour]) := by
  simp [AddApplyLightCommand, h, RenderCommandList.AddApplyAmbientLightCommand]

theorem AddApplyLightCommand_point (CS_ENABLE_DEBUG : Bool) (renderPass : RenderPass)
    (renderCommandList : RenderCommandList)
    (h : renderPass.GetLightType = RenderPass.LightType.k_point) :
    AddApplyLightCommand CS_ENABLE_DEBUG renderPass renderCommandList
      = Except.ok (renderCommandList ++
          [RenderCommand.ApplyPointLight renderPass.GetPointLight.GetColour
            renderPass.GetPointLight.GetPosition renderPass.GetPointLight.GetAttenuation]) := by
  simp [AddApplyLightCommand, h, RenderCommandList.AddApplyPointLightCommand]

/-- A directional light: the command, when one is emitted, carries the depth texture of
the shadow map target. -/
theorem AddApplyLightCommand_directional (CS_ENABLE_DEBUG : Bool) (renderPass : RenderPass)
    (renderCommandList out : RenderCommandList)
    (h : renderPass.GetLightType = RenderPass.LightType.k_directional)
    (hok : AddApplyLightCommand CS_ENABLE_DEBUG renderPass renderCommandList = Except.ok out) :
    out = renderCommandList ++
      [RenderCommand.ApplyDirectionalLight renderPass.GetDirectionalLight.GetColour
        renderPass.GetDirectionalLight.GetDirection
        (Matrix4.mul (Matrix4.Inverse renderPass.GetDirectionalLight.GetLightWorldMatrix)
          renderPass.GetDirectionalLight.GetLightProjectionMatrix)
        renderPass.GetDirectionalLight.GetShadowTolerance
        (renderPass.GetDirectionalLight.GetShadowMapTarget.bind
          RenderTargetGroup.GetDepthTarget)] := by
  unfold AddApplyLightCommand at hok
  simp only [h] at hok
  cases ht : renderPass.GetDirectionalLight.GetShadowMapTarget <;> simp only [ht] at hok
  · injection hok with hok
    rw [← hok]
    rfl
  · split at hok
    · exact absurd hok (by simp)
    · injection hok with hok
      rw [← hok]
      rfl

theorem List.cons_eq_of_append_singleton_eq {α : Type} (l : List α) (a b : α)
    (h : l ++ [a] = l ++ [b]) : a = b := by
  have := List.append_cancel_left h
  simpa using this

/-! ## The pass compiler: theorems -/

/-- Claim C5. For a render pass whose objects are four static objects (matA, meshX),
(matA, meshX), (matA, meshY), (matB, meshY) with matA ≠ matB and meshX ≠ meshY, the
commands `CompileRenderCommandsForPass` appends after the light command are exactly
apply-material(A), apply-mesh(X), render-instance, render-instance, apply-mesh(Y),
render-instance, apply-material(B), apply-mesh(Y), render-instance. -/
theorem CompileRenderCommandsForPass_coalescing (CS_ENABLE_DEBUG : Bool)
    (renderPass : RenderPass) (renderCommandList lit : RenderCommandList)
    (matA matB meshX meshY : Nat) (d1 d2 d3 d4 : Ptr) (w1 w2 w3 w4 : Matrix4)
    (hobjects : renderPass.GetRenderPassObjects =
      [⟨RenderPassObject.Type.k_static, some matA, some meshX, d1, w1⟩,
       ⟨RenderPassObject.Type.k_static, some matA, some meshX, d2, w2⟩,
       ⟨RenderPassObject.Type.k_static, some matA, some meshY, d3, w3⟩,
       ⟨RenderPassObject.Type.k_static, some matB, some meshY, d4, w4⟩])
    (hmat : matA ≠ matB) (hmesh : meshX ≠ meshY)
    (hlight : AddApplyLightCommand CS_ENABLE_DEBUG renderPass renderCommandList
      = Except.ok lit) :
    CompileRenderCommandsForPass CS_ENABLE_DEBUG renderPass renderCommandList
      = Except.ok (lit ++
        [RenderCommand.ApplyMaterial (some matA), RenderCommand.ApplyMesh (some meshX),
         RenderCommand.RenderInstance w1, RenderCommand.RenderInstance w2,
         RenderCommand.ApplyMesh (some meshY), RenderCommand.RenderInstance w3,
         RenderCommand.ApplyMaterial (some matB), RenderCommand.ApplyMesh (some meshY),
         RenderCommand.RenderInstance w4]) := by
  rw [CompileRenderCommandsForPass_ok_iff]
  refine ⟨lit, hlight, Or.inr (by simp [hobjects]), ?_⟩
  have hmat2 : ¬ matB = matA := fun h => hmat h.symm
  have hmesh2 : ¬ meshY = meshX := fun h => hmesh h.symm
  simp [hobjects, CompileRenderCommandsForPass.body, hmat2, hmesh2,
    RenderCommandList.AddApplyMaterialCommand, RenderCommandList.AddApplyMeshCommand,
    RenderCommandList.AddRenderInstanceCommand]

/-- Witness of claim C5: the sample pass with materials 1, 2 and meshes 10, 11, compiled
into an empty list. -/
theorem CompileRenderCommandsForPass_coalescing_witness :
    CompileRenderCommandsForPass true
        (samplePass RenderPass.LightType.k_none none sampleCoalescingObjects) []
      = Except.ok ([RenderCommand.ApplyAmbientLight Colour.k_black] ++
        [RenderCommand.ApplyMaterial (some 1), RenderCommand.ApplyMesh (some 10),
         RenderCommand.RenderInstance (Matrix4.value 0),
         RenderCommand.RenderInstance (Matrix4.value 1),
         RenderCommand.ApplyMesh (some 11), RenderCommand.RenderInstance (Matrix4.value 2),
         RenderCommand.ApplyMaterial (some 2), RenderCommand.ApplyMesh (some 11),
         RenderCommand.RenderInstance (Matrix4.value 3)]) :=
  CompileRenderCommandsForPass_coalescing true
    (samplePass RenderPass.LightType.k_none none sampleCoalescingObjects) []
    [RenderCommand.ApplyAmbientLight Colour.k_black] 1 2 10 11 none none none none
    (Matrix4.value 0) (Matrix4.value 1) (Matrix4.value 2) (Matrix4.value 3)
    rfl (by decide) (by decide) rfl

/-- Claim C6, the code at the failing input. Two dynamic objects with different
materials and the same dynamic mesh: the material change resets the static mesh tracker
only, the dynamic mesh tracker keeps the mesh, and the second object gets apply-material
and render-instance with no apply-dynamic-mesh in between. -/
theorem CompileRenderCommandsForPass_material_change_keeps_dynamic_mesh
    (CS_ENABLE_DEBUG : Bool) :
    CompileRenderCommandsForPass CS_ENABLE_DEBUG
        (samplePass RenderPass.LightType.k_none none sampleDynamicObjects) []
      = Except.ok [RenderCommand.ApplyAmbientLight Colour.k_black,
          RenderCommand.ApplyMaterial (some 1), RenderCommand.ApplyDynamicMesh (some 10),
          RenderCommand.RenderInstance (Matrix4.value 0),
          RenderCommand.ApplyMaterial (some 2),
          RenderCommand.RenderInstance (Matrix4.value 1)]
      ∧ (CompileRenderCommandsForPass.body ⟨some 1, none, some 10, []⟩
          (sampleDynamicObject 2 10 1)).currentDynamicMesh = some 10 := by
  cases CS_ENABLE_DEBUG <;> exact ⟨rfl, rfl⟩

/-- Claim C7. For every render pass, the render-instance commands appended by
`CompileRenderCommandsForPass` are, in order, one per render pass object, each carrying
the world matrix of its object; and the function returns (always in a release build, in a
debug build when its assertions hold). -/
theorem CompileRenderCommandsForPass_instances (CS_ENABLE_DEBUG : Bool)
    (renderPass : RenderPass) (renderCommandList : RenderCommandList) :
    (CS_ENABLE_DEBUG = false ∨ renderPass.assertionsHold = true →
      ∃ out, CompileRenderCommandsForPass CS_ENABLE_DEBUG renderPass renderCommandList
        = Except.ok out)
    ∧ ∀ out, CompileRenderCommandsForPass CS_ENABLE_DEBUG renderPass renderCommandList
        = Except.ok out →
      ∃ appended : List RenderCommand, out = renderCommandList ++ appended
        ∧ appended.filterMap RenderCommand.instanceMatrix?
            = renderPass.GetRenderPassObjects.map RenderPassObject.GetWorldMatrix := by
  refine ⟨CompileRenderCommandsForPass_returns _ _ _, ?_⟩
  intro out h
  obtain ⟨light, rest, _, hout, hisLight, _, hinst⟩ :=
    CompileRenderCommandsForPass_shape _ _ _ _ h
  refine ⟨light :: rest, hout, ?_⟩
  cases light <;> simp_all [RenderCommand.instanceMatrix?, RenderCommand.isLight]

/-- Witness of claim C7: the sample pass of four objects, compiled in a debug build. -/
theorem CompileRenderCommandsForPass_instances_witness :
    (∃ out, CompileRenderCommandsForPass true
        (samplePass RenderPass.LightType.k_point none sampleCoalescingObjects) []
      = Except.ok out)
    ∧ ∃ appended : List RenderCommand,
        [RenderCommand.ApplyPointLight ⟨8⟩ (Vector3.value 9) (Vector3.value 10),
          RenderCommand.ApplyMaterial (some 1), RenderCommand.ApplyMesh (some 10),
          RenderCommand.RenderInstance (Matrix4.value 0),
          RenderCommand.RenderInstance (Matrix4.value 1),
          RenderCommand.ApplyMesh (some 11), RenderCommand.RenderInstance (Matrix4.value 2),
          RenderCommand.ApplyMaterial (some 2), RenderCommand.ApplyMesh (some 11),
          RenderCommand.RenderInstance (Matrix4.value 3)] = [] ++ appended
        ∧ appended.filterMap RenderCommand.instanceMatrix?
            = (samplePass RenderPass.LightType.k_point none
                sampleCoalescingObjects).GetRenderPassObjects.map
                  RenderPassObject.GetWorldMatrix :=
  ⟨(CompileRenderCommandsForPass_instances true
      (samplePass RenderPass.LightType.k_point none sampleCoalescingObjects) []).1
      (Or.inr rfl),
   (CompileRenderCommandsForPass_instances true
      (samplePass RenderPass.LightType.k_point none sampleCoalescingObjects) []).2 _ rfl⟩

/-- Claim C8. For every render pass whose light type is none, the light command is not
skipped: `AddApplyLightCommand` appends apply-ambient-light with colour black, and it is
the first command `CompileRenderCommandsForPass` appends. -/
theorem CompileRenderCommandsForPass_light_none (CS_ENABLE_DEBUG : Bool)
    (renderPass : RenderPass) (renderCommandList : RenderCommandList)
    (hnone : renderPass.GetLightType = RenderPass.LightType.k_none) :
    AddApplyLightCommand CS_ENABLE_DEBUG renderPass renderCommandList
        = Except.ok (renderCommandList ++ [RenderCommand.ApplyAmbientLight Colour.k_black])
    ∧ (CS_ENABLE_DEBUG = false ∨ renderPass.GetRenderPassObjects.length > 0 →
        ∃ out, CompileRenderCommandsForPass CS_ENABLE_DEBUG renderPass renderCommandList
          = Except.ok out)
    ∧ ∀ out, CompileRenderCommandsForPass CS_ENABLE_DEBUG renderPass renderCommandList
        = Except.ok out →
      ∃ rest : List RenderCommand,
        out = renderCommandList ++ RenderCommand.ApplyAmbientLight Colour.k_black :: rest := by
  have hlight := AddApplyLightCommand_none CS_ENABLE_DEBUG renderPass renderCommandList hnone
  refine ⟨hlight, ?_, ?_⟩
  · intro h
    exact ⟨_, (CompileRenderCommandsForPass_ok_iff _ _ _ _).2 ⟨_, hlight, h, rfl⟩⟩
  · intro out h
    obtain ⟨light, rest, hl, hout, _, _, _⟩ := CompileRenderCommandsForPass_shape _ _ _ _ h
    rw [hlight] at hl
    injection hl with hl
    have hblack := List.cons_eq_of_append_singleton_eq _ _ _ hl
    exact ⟨rest, by rw [hout, hblack]⟩

/-- Witness of claim C8: a pass without light and with two objects, in a debug build. -/
theorem CompileRenderCommandsForPass_light_none_witness :
    AddApplyLightCommand true
        (samplePass RenderPass.LightType.k_none none sampleDynamicObjects) []
        = Except.ok ([] ++ [RenderCommand.ApplyAmbientLight Colour.k_black])
    ∧ (∃ out, CompileRenderCommandsForPass true
        (samplePass RenderPass.LightType.k_none none sampleDynamicObjects) [] = Except.ok out)
    ∧ ∃ rest : List RenderCommand,
        [RenderCommand.ApplyAmbientLight Colour.k_black,
          RenderCommand.ApplyMaterial (some 1), RenderCommand.ApplyDynamicMesh (some 10),
          RenderCommand.RenderInstance (Matrix4.value 0),
          RenderCommand.ApplyMaterial (some 2),
          RenderCommand.RenderInstance (Matrix4.value 1)]
        = [] ++ RenderCommand.ApplyAmbientLight Colour.k_black :: rest :=
  ⟨(CompileRenderCommandsForPass_light_none true
      (samplePass RenderPass.LightType.k_none none sampleDynamicObjects) [] rfl).1,
   (CompileRenderCommandsForPass_light_none true
      (samplePass RenderPass.LightType.k_none none sampleDynamicObjects) [] rfl).2.1
      (Or.inr (by decide)),
   (CompileRenderCommandsForPass_light_none true
      (samplePass RenderPass.LightType.k_none none sampleDynamicObjects) [] rfl).2.2 _ rfl⟩

/-- Claim C9. For every render pass, `CompileRenderCommandsForPass` appends exactly one
light command, first, followed by material, mesh and instance commands only; for an
ambient light it is apply-ambient-light with the colour of the pass, for a point light
apply-point-light with the colour, position and attenuation of the point light. The
function returns always in a release build, in a debug build when its assertions hold. -/
theorem CompileRenderCommandsForPass_one_light_command (CS_ENABLE_DEBUG : Bool)
    (renderPass : RenderPass) (renderCommandList : RenderCommandList) :
    (CS_ENABLE_DEBUG = false ∨ renderPass.assertionsHold = true →
      ∃ out, CompileRenderCommandsForPass CS_ENABLE_DEBUG renderPass renderCommandList
        = Except.ok out)
    ∧ ∀ out, CompileRenderCommandsForPass CS_ENABLE_DEBUG renderPass renderCommandList
        = Except.ok out →
      ∃ (light : RenderCommand) (rest : List RenderCommand),
        out = renderCommandList ++ light :: rest
        ∧ light.isLight = true
        ∧ (∀ c ∈ rest, c.isObjectCommand = true ∧ c.isLight = false)
        ∧ ((light :: rest).filter RenderCommand.isLight).length = 1
        ∧ (renderPass.GetLightType = RenderPass.LightType.k_ambient →
            light = RenderCommand.ApplyAmbientLight renderPass.GetAmbientLight.GetColour)
        ∧ (renderPass.GetLightType = RenderPass.LightType.k_point →
            light = RenderCommand.ApplyPointLight renderPass.GetPointLight.GetColour
              renderPass.GetPointLight.GetPosition renderPass.GetPointLight.GetAttenuation) := by
  refine ⟨CompileRenderCommandsForPass_returns _ _ _, ?_⟩
  intro out h
  obtain ⟨light, rest, hl, hout, hisLight, hobj, _⟩ :=
    CompileRenderCommandsForPass_shape _ _ _ _ h
  have hrest : ∀ c ∈ rest, c.isObjectCommand = true ∧ c.isLight = false :=
    fun c hc => ⟨hobj c hc, RenderCommand.isLight_of_isObjectCommand c (hobj c hc)⟩
  refine ⟨light, rest, hout, hisLight, hrest, ?_, ?_, ?_⟩
  · have hnil : rest.filter RenderCommand.isLight = [] := by
      rw [List.filter_eq_nil_iff]
      intro c hc
      simp [(hrest c hc).2]
    simp [List.filter_cons, hisLight, hnil]
  · intro hamb
    rw [AddApplyLightCommand_ambient _ _ _ hamb] at hl
    injection hl with hl
    exact (List.cons_eq_of_append_singleton_eq _ _ _ hl).symm
  · intro hpoint
    rw [AddApplyLightCommand_point _ _ _ hpoint] at hl
    injection hl with hl
    exact (List.cons_eq_of_append_singleton_eq _ _ _ hl).symm

/-- Witness of claim C9: a pass with a point light and two objects, in a debug build. -/
theorem CompileRenderCommandsForPass_one_light_command_witness :
    (∃ out, CompileRenderCommandsForPass true
        (samplePass RenderPass.LightType.k_point none sampleDynamicObjects) [] = Except.ok out)
    ∧ ∃ (light : RenderCommand) (rest : List RenderCommand),
        [RenderCommand.ApplyPointLight ⟨8⟩ (Vector3.value 9) (Vector3.value 10),
          RenderCommand.ApplyMaterial (some 1), RenderCommand.ApplyDynamicMesh (some 10),
          RenderCommand.RenderInstance (Matrix4.value 0),
          RenderCommand.ApplyMaterial (some 2),
          RenderCommand.RenderInstance (Matrix4.value 1)] = [] ++ light :: rest
        ∧ light.isLight = true
        ∧ (∀ c ∈ rest, c.isObjectCommand = true ∧ c.isLight = false)
        ∧ ((light :: rest).filter RenderCommand.isLight).length = 1
        ∧ ((samplePass RenderPass.LightType.k_point none sampleDynamicObjects).GetLightType
              = RenderPass.LightType.k_ambient →
            light = RenderCommand.ApplyAmbientLight
              (samplePass RenderPass.LightType.k_point none
                sampleDynamicObjects).GetAmbientLight.GetColour)
        ∧ ((samplePass RenderPass.LightType.k_point none sampleDynamicObjects).GetLightType
              = RenderPass.LightType.k_point →
            light = RenderCommand.ApplyPointLight
              (samplePass RenderPass.LightType.k_point none
                sampleDynamicObjects).GetPointLight.GetColour
              (samplePass RenderPass.LightType.k_point none
                sampleDynamicObjects).GetPointLight.GetPosition
              (samplePass RenderPass.LightType.k_point none
                sampleDynamicObjects).GetPointLight.GetAttenuation) :=
  ⟨(CompileRenderCommandsForPass_one_light_command true
      (samplePass RenderPass.LightType.k_point none sampleDynamicObjects) []).1 (Or.inr rfl),
   (CompileRenderCommandsForPass_one_light_command true
      (samplePass RenderPass.LightType.k_point none sampleDynamicObjects) []).2 _ rfl⟩

/-- Claim C10, as stated, fails: in a release build a directional light whose shadow
map target has no depth texture gets a command without a shadow map texture although
the light has a shadow map target. -/
theorem AddApplyLightCommand_texture_iff_target_fails :
    ¬ ∀ (CS_ENABLE_DEBUG : Bool) (renderPass : RenderPass)
        (renderCommandList out : RenderCommandList),
        renderPass.GetLightType = RenderPass.LightType.k_directional →
        AddApplyLightCommand CS_ENABLE_DEBUG renderPass renderCommandList = Except.ok out →
        ∃ (viewProj : Matrix4) (shadowMapTexture : Ptr),
          out = renderCommandList ++
            [RenderCommand.ApplyDirectionalLight renderPass.GetDirectionalLight.GetColour
              renderPass.GetDirectionalLight.GetDirection viewProj
              renderPass.GetDirectionalLight.GetShadowTolerance shadowMapTexture]
          ∧ (shadowMapTexture.isSome = true
              ↔ renderPass.GetDirectionalLight.GetShadowMapTarget.isSome = true) := by
  intro h
  obtain ⟨viewProj, shadowMapTexture, hout, hiff⟩ :=
    h false (samplePass RenderPass.LightType.k_directional (some sampleColourOnlyTarget) [])
      []
      [RenderCommand.ApplyDirectionalLight ⟨3⟩ (Vector3.value 4)
        (Matrix4.mul (Matrix4.Inverse (Matrix4.value 5)) (Matrix4.value 6)) 7 none]
      rfl rfl
  simp only [List.nil_append, List.cons.injEq, RenderCommand.ApplyDirectionalLight.injEq,
    and_true] at hout
  have htex : shadowMapTexture = none := hout.2.2.2.2.symm
  rw [htex] at hiff
  exact absurd (hiff.2 rfl) (by simp)

/-- Claim C10, amended. For every render pass with a directional light, the emitted
apply-directional-light command carries the colour, direction and shadow tolerance of
the light, and its shadow map texture is the depth texture of the shadow map target of
the light: present if and only if the light has a shadow map target with a depth
texture. In a debug build a target without depth texture is fatal, so there the texture
is present if and only if the light has a shadow map target. A command is emitted
always in a release build, and in a debug build when every target has a depth texture. -/
theorem AddApplyLightCommand_directional_texture (CS_ENABLE_DEBUG : Bool)
    (renderPass : RenderPass) (renderCommandList : RenderCommandList)
    (hdir : renderPass.GetLightType = RenderPass.LightType.k_directional) :
    (CS_ENABLE_DEBUG = false
        ∨ (∀ target, renderPass.GetDirectionalLight.GetShadowMapTarget = some target →
            target.GetDepthTarget.isSome = true) →
      ∃ out, AddApplyLightCommand CS_ENABLE_DEBUG renderPass renderCommandList = Except.ok out)
    ∧ ∀ out, AddApplyLightCommand CS_ENABLE_DEBUG renderPass renderCommandList
        = Except.ok out →
      out = renderCommandList ++
        [RenderCommand.ApplyDirectionalLight renderPass.GetDirectionalLight.GetColour
          renderPass.GetDirectionalLight.GetDirection
          (Matrix4.mul (Matrix4.Inverse renderPass.GetDirectionalLight.GetLightWorldMatrix)
            renderPass.GetDirectionalLight.GetLightProjectionMatrix)
          renderPass.GetDirectionalLight.GetShadowTolerance
          (renderPass.GetDirectionalLight.GetShadowMapTarget.bind
            RenderTargetGroup.GetDepthTarget)]
      ∧ ((renderPass.GetDirectionalLight.GetShadowMapTarget.bind
            RenderTargetGroup.GetDepthTarget).isSome = true
          ↔ ∃ target, renderPass.GetDirectionalLight.GetShadowMapTarget = some target
              ∧ target.GetDepthTarget.isSome = true)
      ∧ (CS_ENABLE_DEBUG = true →
          ((renderPass.GetDirectionalLight.GetShadowMapTarget.bind
              RenderTargetGroup.GetDepthTarget).isSome = true
            ↔ renderPass.GetDirectionalLight.GetShadowMapTarget.isSome = true)) := by
  refine ⟨?_, ?_⟩
  · intro h
    cases hl : AddApplyLightCommand CS_ENABLE_DEBUG renderPass renderCommandList with
    | ok out => exact ⟨out, rfl⟩
    | error message =>
      obtain ⟨hd, _, target, ht, hq⟩ := AddApplyLightCommand_error _ _ _ _ hl
      rcases h with h | h
      · rw [hd] at h
        exact absurd h (by simp)
      · have := h target ht
        rw [hq] at this
        exact absurd this (by simp)
  · intro out hok
    refine ⟨AddApplyLightCommand_directional _ _ _ _ hdir hok, ?_, ?_⟩
    · cases renderPass.GetDirectionalLight.GetShadowMapTarget <;> simp
    · intro hd
      cases ht : renderPass.GetDirectionalLight.GetShadowMapTarget with
      | none => simp
      | some target =>
        cases hq : target.GetDepthTarget with
        | some texture => simp [hq]
        | none =>
          exfalso
          unfold AddApplyLightCommand at hok
          simp [hdir, ht, hd, hq, CS_ASSERT] at hok

/-- Witness of claim C10, amended: in a debug build, a directional light whose shadow
map target has the depth texture 21. -/
theorem AddApplyLightCommand_directional_texture_witness :
    (∃ out, AddApplyLightCommand true
        (samplePass RenderPass.LightType.k_directional (some sampleDepthTarget) []) []
      = Except.ok out)
    ∧ ([RenderCommand.ApplyDirectionalLight ⟨3⟩ (Vector3.value 4)
          (Matrix4.mul (Matrix4.Inverse (Matrix4.value 5)) (Matrix4.value 6)) 7 (some 21)]
        = [] ++ [RenderCommand.ApplyDirectionalLight ⟨3⟩ (Vector3.value 4)
          (Matrix4.mul (Matrix4.Inverse (Matrix4.value 5)) (Matrix4.value 6)) 7 (some 21)]
      ∧ ((some 21 : Ptr).isSome = true
          ↔ ∃ target, some sampleDepthTarget = some target
              ∧ target.GetDepthTarget.isSome = true)
      ∧ (true = true →
          ((some 21 : Ptr).isSome = true ↔ (some sampleDepthTarget).isSome = true))) :=
  ⟨(AddApplyLightCommand_directional_texture true
      (samplePass RenderPass.LightType.k_directional (some sampleDepthTarget) []) []
      rfl).1 (Or.inr (fun target h => by
        injection h with h
        subst h
        rfl)),
   (AddApplyLightCommand_directional_texture true
      (samplePass RenderPass.LightType.k_directional (some sampleDepthTarget) []) []
      rfl).2 _ rfl⟩

/-! ## The orchestrator: slot accounting -/

theorem claimedIndices_append (a b : List (Nat × ListUse)) :
    claimedIndices (a ++ b) = claimedIndices a ++ claimedIndices b := by
  simp [claimedIndices]

theorem passTaskIndices_append (a b : List (Nat × ListUse)) :
    passTaskIndices (a ++ b) = passTaskIndices a ++ passTaskIndices b := by
  simp [passTaskIndices]

theorem CompileState.Advances.refl (s : CompileState) : s.Advances s 0 [] :=
  ⟨rfl, [], [], by simp, by simp, by simp [claimedIndices], by simp,
    by simp [passTaskIndices], rfl⟩

theorem CompileState.Advances.trans {s t u : CompileState} {k m : Nat}
    {ps qs : List RenderPass}
    (h₁ : s.Advances t k ps) (h₂ : t.Advances u m qs) : s.Advances u (k + m) (ps ++ qs) := by
  obtain ⟨hc₁, a₁, t₁, ha₁, ht₁, hcl₁, hb₁, hp₁, hr₁⟩ := h₁
  obtain ⟨hc₂, a₂, t₂, ha₂, ht₂, hcl₂, hb₂, hp₂, hr₂⟩ := h₂
  refine ⟨by omega, a₁ ++ a₂, t₁ ++ t₂, ?_, ?_, ?_, ?_, ?_, ?_⟩
  · rw [ha₂, ha₁, List.append_assoc]
  · rw [ht₂, ht₁, List.append_assoc]
  · rw [claimedIndices_append, hcl₁, hcl₂, hc₁, List.range'_append_1, Nat.add_comm m k]
  · intro a ha
    rcases List.mem_append.1 ha with ha | ha
    · have := hb₁ a ha
      omega
    · have := hb₂ a ha
      omega
  · rw [List.map_append, passTaskIndices_append, hp₁, hp₂]
  · rw [List.map_append, hr₁, hr₂]

/-- A single access that takes the list at `currentList++` for a framing command. -/
theorem CompileState.Advances.takeList (s : CompileState) (b : RenderCommandBuffer)
    (listUse : ListUse) (h : listUse ≠ ListUse.applyCameraCommand)
    (h' : listUse ≠ ListUse.renderPassTask) :
    s.Advances ⟨b, s.tasks, s.currentList + 1, s.listAccesses ++ [(s.currentList, listUse)]⟩
      1 [] := by
  refine ⟨rfl, [(s.currentList, listUse)], [], rfl, by simp, ?_, ?_, ?_, rfl⟩
  · simp [claimedIndices, h]
  · simp
  · simp [passTaskIndices, h']

theorem ContainsRenderPassObject.loop_iff (passes : List RenderPass) :
    ContainsRenderPassObject.loop passes = true
      ↔ 0 < (passes.filter RenderPass.hasObjects).length := by
  induction passes with
  | nil => simp [ContainsRenderPassObject.loop]
  | cons p ps ih =>
    unfold ContainsRenderPassObject.loop
    by_cases h : p.GetRenderPassObjects.length > 0
    · have hp : p.hasObjects = true := (RenderPass.hasObjects_iff p).2 h
      simp [h, hp, List.filter_cons]
    · have hp : p.hasObjects = false := by
        cases hq : p.hasObjects
        · rfl
        · exact absurd ((RenderPass.hasObjects_iff p).1 hq) h
      simp only [h, if_false, ih, List.filter_cons, hp]
      simp

theorem CompileRenderCommands.passBody_advances (s : CompileState) (p : RenderPass) :
    s.Advances (CompileRenderCommands.passBody s p)
      ([p].filter RenderPass.hasObjects).length ([p].filter RenderPass.hasObjects) := by
  unfold CompileRenderCommands.passBody
  by_cases h : p.GetRenderPassObjects.length > 0
  · have hp : p.hasObjects = true := (RenderPass.hasObjects_iff p).2 h
    simp only [h, if_true, List.filter_cons, hp, List.filter_nil, List.length_singleton]
    refine ⟨rfl, [(s.currentList, ListUse.renderPassTask)], [⟨p, s.currentList⟩], rfl, rfl,
      ?_, ?_, ?_, rfl⟩
    · simp [claimedIndices]
    · simp
    · simp [passTaskIndices]
  · have hp : p.hasObjects = false := by
      cases hq : p.hasObjects
      · rfl
      · exact absurd ((RenderPass.hasObjects_iff p).1 hq) h
    simp only [h, if_false, List.filter_cons, hp, List.filter_nil, List.length_nil]
    exact CompileState.Advances.refl s

theorem CompileRenderCommands.passes_advance (passes : List RenderPass) (s : CompileState) :
    s.Advances (passes.foldl CompileRenderCommands.passBody s)
      (passes.filter RenderPass.hasObjects).length (passes.filter RenderPass.hasObjects) := by
  induction passes generalizing s with
  | nil => exact CompileState.Advances.refl s
  | cons p ps ih =>
    have h := (CompileRenderCommands.passBody_advances s p).trans
      (ih (CompileRenderCommands.passBody s p))
    rw [List.foldl_cons]
    have hsplit : (p :: ps).filter RenderPass.hasObjects
        = [p].filter RenderPass.hasObjects ++ ps.filter RenderPass.hasObjects := by
      rw [← List.filter_append]
      rfl
    rw [hsplit, List.length_append]
    exact h

theorem CompileRenderCommands.cameraBody_advances (s : CompileState)
    (g : CameraRenderPassGroup) :
    s.Advances (CompileRenderCommands.cameraBody s g)
      (g.GetRenderPasses.filter RenderPass.hasObjects).length
      (g.GetRenderPasses.filter RenderPass.hasObjects) := by
  unfold CompileRenderCommands.cameraBody
  by_cases hc : ContainsRenderPassObject g = true
  · simp only [hc, if_true]
    have hk : 0 < (g.GetRenderPasses.filter RenderPass.hasObjects).length :=
      (ContainsRenderPassObject.loop_iff _).1 hc
    obtain ⟨hcur, acc, ts, hacc, hts, hcl, hb, hp, hr⟩ :=
      CompileRenderCommands.passes_advance g.GetRenderPasses
        ⟨s.renderCommandBuffer.writeList s.currentList
            ((s.renderCommandBuffer.readList s.currentList).AddApplyCameraCommand
              (Vector3.GetTranslation g.GetCamera.GetWorldMatrix)
              g.GetCamera.GetViewProjectionMatrix),
          s.tasks, s.currentList,
          s.listAccesses ++ [(s.currentList, ListUse.applyCameraCommand)]⟩
    refine ⟨hcur, (s.currentList, ListUse.applyCameraCommand) :: acc, ts, ?_, hts, ?_, ?_, ?_,
      hr⟩
    · rw [hacc]
      simp
    · rw [← hcl]
      simp [claimedIndices]
    · intro a ha
      rcases List.mem_cons.1 ha with ha | ha
      · subst ha
        exact ⟨Nat.le_refl _, by simp only; omega⟩
      · exact hb a ha
    · rw [hp]
      simp [passTaskIndices]
  · have hk : g.GetRenderPasses.filter RenderPass.hasObjects = [] := by
      have := (ContainsRenderPassObject.loop_iff g.GetRenderPasses).not.1 hc
      exact List.length_eq_zero.1 (by omega)
    simp only [hc]
    rw [hk]
    exact CompileState.Advances.refl s

theorem CompileRenderCommands.cameras_advance (groups : List CameraRenderPassGroup)
    (s : CompileState) :
    s.Advances (groups.foldl CompileRenderCommands.cameraBody s)
      (((groups.map CameraRenderPassGroup.GetRenderPasses).flatten).filter
        RenderPass.hasObjects).length
      (((groups.map CameraRenderPassGroup.GetRenderPasses).flatten).filter
        RenderPass.hasObjects) := by
  induction groups generalizing s with
  | nil => exact CompileState.Advances.refl s
  | cons g gs ih =>
    have h := (CompileRenderCommands.cameraBody_advances s g).trans
      (ih (CompileRenderCommands.cameraBody s g))
    rw [List.foldl_cons]
    simp only [List.map_cons, List.flatten_cons, List.filter_append, List.length_append]
    exact h

theorem CompileRenderCommands.targetBody_advances (s : CompileState)
    (g : TargetRenderPassGroup) :
    s.Advances (CompileRenderCommands.targetBody s g) (2 + g.numPassesWithObjects)
      g.passesWithObjects := by
  unfold CompileRenderCommands.targetBody
  have h₁ := CompileState.Advances.takeList s
    (s.renderCommandBuffer.writeList s.currentList
      (AddBeginCommand g (s.renderCommandBuffer.readList s.currentList)))
    ListUse.beginCommand (by decide) (by decide)
  have h₂ := h₁.trans (CompileRenderCommands.cameras_advance g.GetRenderCameraGroups _)
  have hk : 2 + g.numPassesWithObjects
      = 1 + (((g.GetRenderCameraGroups.map CameraRenderPassGroup.GetRenderPasses).flatten).filter
          RenderPass.hasObjects).length + 1 := by
    simp only [TargetRenderPassGroup.numPassesWithObjects,
      TargetRenderPassGroup.allRenderPasses]
    omega
  have hps : g.passesWithObjects
      = [] ++ ((g.GetRenderCameraGroups.map CameraRenderPassGroup.GetRenderPasses).flatten).filter
          RenderPass.hasObjects ++ [] := by
    simp [TargetRenderPassGroup.passesWithObjects, TargetRenderPassGroup.allRenderPasses]
  rw [hk, hps]
  exact h₂.trans
    (CompileState.Advances.takeList _ _ ListUse.endCommand (by decide) (by decide))

theorem CompileRenderCommands.targets_advance (groups : List TargetRenderPassGroup)
    (s : CompileState) :
    s.Advances (groups.foldl CompileRenderCommands.targetBody s)
      (groups.map (fun g => 2 + g.numPassesWithObjects)).sum
      (groups.map TargetRenderPassGroup.passesWithObjects).flatten := by
  induction groups generalizing s with
  | nil => exact CompileState.Advances.refl s
  | cons g gs ih =>
    have h := (CompileRenderCommands.targetBody_advances s g).trans
      (ih (CompileRenderCommands.targetBody s g))
    rw [List.foldl_cons]
    simp only [List.map_cons, List.sum_cons, List.flatten_cons]
    exact h

theorem CompileRenderCommands.schedule_advances
    (targetRenderPassGroups : List TargetRenderPassGroup) (renderDynamicMeshes : List Nat)
    (preRenderCommandList postRenderCommandList : RenderCommandList) :
    CompileState.Advances
      ⟨RenderCommandBuffer.new (CalcNumRenderCommandLists targetRenderPassGroups
        preRenderCommandList postRenderCommandList) renderDynamicMeshes, [], 0, []⟩
      (CompileRenderCommands.schedule targetRenderPassGroups renderDynamicMeshes
        preRenderCommandList postRenderCommandList)
      (CalcNumRenderCommandLists targetRenderPassGroups preRenderCommandList
        postRenderCommandList)
      (targetRenderPassGroups.map TargetRenderPassGroup.passesWithObjects).flatten := by
  rw [CalcNumRenderCommandLists_closed]
  generalize hinit : (⟨RenderCommandBuffer.new ((if preRenderCommandList ≠ [] then 1 else 0)
        + (targetRenderPassGroups.map (fun g => 2 + g.numPassesWithObjects)).sum
        + (if postRenderCommandList ≠ [] then 1 else 0)) renderDynamicMeshes, [], 0, []⟩
      : CompileState) = s₀
  have hsched : CompileRenderCommands.schedule targetRenderPassGroups renderDynamicMeshes
        preRenderCommandList postRenderCommandList
      = (fun s₂ : CompileState =>
          if postRenderCommandList.GetOrderedList.length > 0 then
            (⟨s₂.renderCommandBuffer.writeList s₂.currentList postRenderCommandList, s₂.tasks,
              s₂.currentList + 1,
              s₂.listAccesses ++ [(s₂.currentList, ListUse.postRenderCommandList)]⟩
              : CompileState)
          else s₂)
        (targetRenderPassGroups.foldl CompileRenderCommands.targetBody
          (if preRenderCommandList.GetOrderedList.length > 0 then
            (⟨s₀.renderCommandBuffer.writeList s₀.currentList preRenderCommandList, s₀.tasks,
              s₀.currentList + 1,
              s₀.listAccesses ++ [(s₀.currentList, ListUse.preRenderCommandList)]⟩
              : CompileState)
          else s₀)) := by
    rw [← hinit, ← CalcNumRenderCommandLists_closed]
    rfl
  rw [hsched]
  have hpre : s₀.Advances
      (if preRenderCommandList.GetOrderedList.length > 0 then
        (⟨s₀.renderCommandBuffer.writeList s₀.currentList preRenderCommandList, s₀.tasks,
          s₀.currentList + 1,
          s₀.listAccesses ++ [(s₀.currentList, ListUse.preRenderCommandList)]⟩ : CompileState)
      else s₀)
      (if preRenderCommandList ≠ [] then 1 else 0) [] := by
    cases preRenderCommandList with
    | nil => simpa [RenderCommandList.GetOrderedList] using CompileState.Advances.refl s₀
    | cons c cs =>
      simpa [RenderCommandList.GetOrderedList] using
        CompileState.Advances.takeList s₀ (s₀.renderCommandBuffer.writeList s₀.currentList (c :: cs))
          ListUse.preRenderCommandList (by decide) (by decide)
  have htargets := hpre.trans (CompileRenderCommands.targets_advance targetRenderPassGroups _)
  generalize targetRenderPassGroups.foldl CompileRenderCommands.targetBody _ = s₂ at htargets ⊢
  have hpost : s₂.Advances
      (if postRenderCommandList.GetOrderedList.length > 0 then
        (⟨s₂.renderCommandBuffer.writeList s₂.currentList postRenderCommandList, s₂.tasks,
          s₂.currentList + 1,
          s₂.listAccesses ++ [(s₂.currentList, ListUse.postRenderCommandList)]⟩ : CompileState)
      else s₂)
      (if postRenderCommandList ≠ [] then 1 else 0) [] := by
    cases postRenderCommandList with
    | nil => simpa [RenderCommandList.GetOrderedList] using CompileState.Advances.refl s₂
    | cons c cs =>
      simpa [RenderCommandList.GetOrderedList] using
        CompileState.Advances.takeList s₂ (s₂.renderCommandBuffer.writeList s₂.currentList (c :: cs))
          ListUse.postRenderCommandList (by decide) (by decide)
  have h := htargets.trans hpost
  simpa using h

/-- The slot accounting of the scheduling part of `CompileRenderCommands`, with
`n = CalcNumRenderCommandLists ...`: the cursor ends at `n`, the indices taken with
`currentList++` are `0, ..., n - 1` in order, every access is below `n`, the tasks hold
the indices handed to render pass tasks and compile the passes with objects, in order. -/
theorem CompileRenderCommands.schedule_slots
    (targetRenderPassGroups : List TargetRenderPassGroup) (renderDynamicMeshes : List Nat)
    (preRenderCommandList postRenderCommandList : RenderCommandList) :
    (CompileRenderCommands.schedule targetRenderPassGroups renderDynamicMeshes
        preRenderCommandList postRenderCommandList).currentList
      = CalcNumRenderCommandLists targetRenderPassGroups preRenderCommandList
          postRenderCommandList
    ∧ claimedIndices (CompileRenderCommands.schedule targetRenderPassGroups
        renderDynamicMeshes preRenderCommandList postRenderCommandList).listAccesses
      = List.range (CalcNumRenderCommandLists targetRenderPassGroups preRenderCommandList
          postRenderCommandList)
    ∧ (∀ a ∈ (CompileRenderCommands.schedule targetRenderPassGroups renderDynamicMeshes
        preRenderCommandList postRenderCommandList).listAccesses,
        a.1 < CalcNumRenderCommandLists targetRenderPassGroups preRenderCommandList
          postRenderCommandList)
    ∧ (CompileRenderCommands.schedule targetRenderPassGroups renderDynamicMeshes
        preRenderCommandList postRenderCommandList).tasks.map Task.renderCommandList
      = passTaskIndices (CompileRenderCommands.schedule targetRenderPassGroups
          renderDynamicMeshes preRenderCommandList postRenderCommandList).listAccesses
    ∧ (CompileRenderCommands.schedule targetRenderPassGroups renderDynamicMeshes
        preRenderCommandList postRenderCommandList).tasks.map Task.renderPass
      = (targetRenderPassGroups.map TargetRenderPassGroup.passesWithObjects).flatten := by
  obtain ⟨hcur, acc, ts, hacc, hts, hcl, hb, hp, hr⟩ :=
    CompileRenderCommands.schedule_advances targetRenderPassGroups renderDynamicMeshes
      preRenderCommandList postRenderCommandList
  simp only [List.nil_append, Nat.zero_add] at hcur hacc hts hcl hb
  rw [hacc, hts]
  refine ⟨hcur, ?_, ?_, hp, hr⟩
  · rw [hcl, List.range_eq_range']
  · intro a ha
    exact (hb a ha).2

/-! ## The orchestrator: buffer contents -/

theorem RenderCommandBuffer.length_writeList (b : RenderCommandBuffer) (i : Nat)
    (l : RenderCommandList) :
    (b.writeList i l).m_renderCommandLists.length = b.m_renderCommandLists.length := by
  simp [RenderCommandBuffer.writeList]

theorem RenderCommandBuffer.readList_writeList_self (b : RenderCommandBuffer) (i : Nat)
    (l : RenderCommandList) (h : i < b.m_renderCommandLists.length) :
    (b.writeList i l).readList i = l := by
  simp [RenderCommandBuffer.writeList, RenderCommandBuffer.readList, List.getD_eq_getElem?_getD,
    List.getElem?_set, h]

theorem RenderCommandBuffer.readList_writeList_ne (b : RenderCommandBuffer) (i j : Nat)
    (l : RenderCommandList) (h : i ≠ j) :
    (b.writeList i l).readList j = b.readList j := by
  simp [RenderCommandBuffer.writeList, RenderCommandBuffer.readList, List.getD_eq_getElem?_getD,
    List.getElem?_set, h]

theorem RenderCommandBuffer.mem_lists_iff (b : RenderCommandBuffer) (l : RenderCommandList) :
    l ∈ b.m_renderCommandLists
      ↔ ∃ i, i < b.m_renderCommandLists.length ∧ b.readList i = l := by
  constructor
  · intro h
    obtain ⟨i, hi, hl⟩ := List.getElem_of_mem h
    refine ⟨i, hi, ?_⟩
    simp [RenderCommandBuffer.readList, List.getD_eq_getElem?_getD, hi, hl]
  · rintro ⟨i, hi, hl⟩
    have : b.m_renderCommandLists[i] = l := by
      simpa [RenderCommandBuffer.readList, List.getD_eq_getElem?_getD, hi] using hl
    rw [← this]
    exact List.getElem_mem hi

theorem List.foldl_preserves {σ α : Type} (P : σ → Prop) (f : σ → α → σ)
    (hstep : ∀ s a, P s → P (f s a)) (l : List α) (s : σ) (h : P s) : P (l.foldl f s) := by
  induction l generalizing s with
  | nil => exact h
  | cons a as ih => exact ih (f s a) (hstep s a h)

/-- Taking the list at `currentList++` and writing a non-empty list to it keeps the
state covered. -/
theorem CompileState.Covered.takeSlot {n : Nat} {s : CompileState} (h : s.Covered n)
    (l : RenderCommandList) (hl : l ≠ []) (accesses : List (Nat × ListUse)) :
    CompileState.Covered n
      ⟨s.renderCommandBuffer.writeList s.currentList l, s.tasks, s.currentList + 1,
        accesses⟩ := by
  obtain ⟨hlen, hcov⟩ := h
  refine ⟨by simpa [RenderCommandBuffer.length_writeList] using hlen, ?_⟩
  intro i hi hin
  by_cases hic : i = s.currentList
  · left
    subst hic
    simp only
    rw [RenderCommandBuffer.readList_writeList_self _ _ _ (by omega)]
    exact hl
  · have hi' : i < s.currentList := by
      simp only at hi
      omega
    simp only
    rw [RenderCommandBuffer.readList_writeList_ne _ _ _ _ (Ne.symm hic)]
    exact hcov i hi' hin

/-- Writing to the list at `currentList` without moving the cursor keeps the state
covered. -/
theorem CompileState.Covered.write {n : Nat} {s : CompileState} (h : s.Covered n)
    (l : RenderCommandList) (accesses : List (Nat × ListUse)) :
    CompileState.Covered n
      ⟨s.renderCommandBuffer.writeList s.currentList l, s.tasks, s.currentList, accesses⟩ := by
  obtain ⟨hlen, hcov⟩ := h
  refine ⟨by simpa [RenderCommandBuffer.length_writeList] using hlen, ?_⟩
  intro i hi hin
  simp only at hi ⊢
  rw [RenderCommandBuffer.readList_writeList_ne _ _ _ _ (by omega)]
  exact hcov i hi hin

theorem CompileRenderCommands.passBody_covered (n : Nat) (s : CompileState) (p : RenderPass)
    (h : s.Covered n) : (CompileRenderCommands.passBody s p).Covered n := by
  unfold CompileRenderCommands.passBody
  split
  · obtain ⟨hlen, hcov⟩ := h
    refine ⟨hlen, ?_⟩
    intro i hi hin
    simp only at hi ⊢
    by_cases hic : i = s.currentList
    · right
      simp [hic]
    · rcases hcov i (by omega) hin with hne | hmem
      · exact Or.inl hne
      · right
        simp only [List.map_append, List.mem_append]
        exact Or.inl hmem
  · exact h

theorem CompileRenderCommands.cameraBody_covered (n : Nat) (s : CompileState)
    (g : CameraRenderPassGroup) (h : s.Covered n) :
    (CompileRenderCommands.cameraBody s g).Covered n := by
  unfold CompileRenderCommands.cameraBody
  split
  · exact List.foldl_preserves _ _ (CompileRenderCommands.passBody_covered n) _ _
      (h.write _ _)
  · exact h

theorem CompileRenderCommands.targetBody_covered (n : Nat) (s : CompileState)
    (g : TargetRenderPassGroup) (h : s.Covered n) :
    (CompileRenderCommands.targetBody s g).Covered n := by
  unfold CompileRenderCommands.targetBody
  have hbegin : AddBeginCommand g (s.renderCommandBuffer.readList s.currentList) ≠ [] := by
    unfold AddBeginCommand
    split <;> simp [RenderCommandList.AddBeginWithTargetGroupCommand,
      RenderCommandList.AddBeginCommand]
  have h₁ := h.takeSlot _ hbegin (s.listAccesses ++ [(s.currentList, ListUse.beginCommand)])
  have h₂ := List.foldl_preserves _ _ (CompileRenderCommands.cameraBody_covered n)
    g.GetRenderCameraGroups _ h₁
  exact h₂.takeSlot _ (by simp [RenderCommandList.AddEndCommand]) _

theorem CompileRenderCommands.schedule_covered
    (targetRenderPassGroups : List TargetRenderPassGroup) (renderDynamicMeshes : List Nat)
    (preRenderCommandList postRenderCommandList : RenderCommandList) :
    (CompileRenderCommands.schedule targetRenderPassGroups renderDynamicMeshes
        preRenderCommandList postRenderCommandList).Covered
      (CalcNumRenderCommandLists targetRenderPassGroups preRenderCommandList
        postRenderCommandList) := by
  unfold CompileRenderCommands.schedule
  have h₀ : CompileState.Covered
      (CalcNumRenderCommandLists targetRenderPassGroups preRenderCommandList
        postRenderCommandList)
      ⟨RenderCommandBuffer.new (CalcNumRenderCommandLists targetRenderPassGroups
        preRenderCommandList postRenderCommandList) renderDynamicMeshes, [], 0, []⟩ :=
    ⟨by simp [RenderCommandBuffer.new], fun i hi _ => absurd hi (by simp)⟩
  have hnonempty : ∀ l : RenderCommandList, l.GetOrderedList.length > 0 → l ≠ [] := by
    intro l hl hnil
    simp [hnil, RenderCommandList.GetOrderedList] at hl
  simp only
  by_cases hpre : preRenderCommandList.GetOrderedList.length > 0
  · rw [if_pos hpre]
    have h₁ := List.foldl_preserves _ _ (CompileRenderCommands.targetBody_covered _)
      targetRenderPassGroups _
      (h₀.takeSlot preRenderCommandList (hnonempty _ hpre)
        ([] ++ [(0, ListUse.preRenderCommandList)]))
    by_cases hpost : postRenderCommandList.GetOrderedList.length > 0
    · rw [if_pos hpost]
      exact h₁.takeSlot postRenderCommandList (hnonempty _ hpost) _
    · rw [if_neg hpost]
      exact h₁
  · rw [if_neg hpre]
    have h₁ := List.foldl_preserves _ _ (CompileRenderCommands.targetBody_covered _)
      targetRenderPassGroups _ h₀
    by_cases hpost : postRenderCommandList.GetOrderedList.length > 0
    · rw [if_pos hpost]
      exact h₁.takeSlot postRenderCommandList (hnonempty _ hpost) _
    · rw [if_neg hpost]
      exact h₁

/-- A successful task writes a non-empty list to its own slot and nothing else. -/
theorem Task.run_ok (CS_ENABLE_DEBUG : Bool) (b b' : RenderCommandBuffer) (task : Task)
    (h : task.run CS_ENABLE_DEBUG b = Except.ok b') :
    ∃ l : RenderCommandList, l ≠ [] ∧ b' = b.writeList task.renderCommandList l := by
  unfold Task.run at h
  cases hc : CompileRenderCommandsForPass CS_ENABLE_DEBUG task.renderPass
      (b.readList task.renderCommandList) with
  | error message =>
    rw [hc] at h
    exact absurd h (by simp)
  | ok l =>
    rw [hc] at h
    injection h with h
    obtain ⟨light, rest, _, hout, _, _, _⟩ := CompileRenderCommandsForPass_shape _ _ _ _ hc
    exact ⟨l, by simp [hout], h.symm⟩

/-- When all tasks have run, the buffer has the same length, and every list that held a
command or was the list of a task holds a command. -/
theorem ProcessChildTasks_ok (CS_ENABLE_DEBUG : Bool) (tasks : List Task)
    (b b' : RenderCommandBuffer) (h : ProcessChildTasks CS_ENABLE_DEBUG tasks b = Except.ok b') :
    b'.m_renderCommandLists.length = b.m_renderCommandLists.length
    ∧ ∀ i, i < b.m_renderCommandLists.length →
        (b.readList i ≠ [] ∨ i ∈ tasks.map Task.renderCommandList) → b'.readList i ≠ [] := by
  induction tasks generalizing b with
  | nil =>
    simp only [ProcessChildTasks] at h
    injection h with h
    subst h
    exact ⟨rfl, fun i _ hi => by simpa using hi⟩
  | cons t ts ih =>
    simp only [ProcessChildTasks] at h
    cases hrun : t.run CS_ENABLE_DEBUG b with
    | error message =>
      rw [hrun] at h
      exact absurd h (by simp)
    | ok b₁ =>
      rw [hrun] at h
      simp only at h
      obtain ⟨l, hl, hb₁⟩ := Task.run_ok _ _ _ _ hrun
      obtain ⟨hlen, hne⟩ := ih b₁ h
      have hlen₁ : b₁.m_renderCommandLists.length = b.m_renderCommandLists.length := by
        rw [hb₁, RenderCommandBuffer.length_writeList]
      refine ⟨by rw [hlen, hlen₁], ?_⟩
      intro i hi hcov
      apply hne i (by omega)
      by_cases hit : i = t.renderCommandList
      · left
        rw [hb₁, hit, RenderCommandBuffer.readList_writeList_self _ _ _ (by omega)]
        exact hl
      · rcases hcov with hcov | hcov
        · left
          rw [hb₁, RenderCommandBuffer.readList_writeList_ne _ _ _ _ (Ne.symm hit)]
          exact hcov
        · right
          simp only [List.map_cons, List.mem_cons] at hcov
          rcases hcov with hcov | hcov
          · exact absurd hcov hit
          · exact hcov

/-- The tasks all return in a release build, and in a debug build when the assertions
hold of every pass they compile. -/
theorem ProcessChildTasks_returns (CS_ENABLE_DEBUG : Bool) (tasks : List Task)
    (b : RenderCommandBuffer)
    (h : CS_ENABLE_DEBUG = false ∨ ∀ t ∈ tasks, t.renderPass.assertionsHold = true) :
    ∃ b', ProcessChildTasks CS_ENABLE_DEBUG tasks b = Except.ok b' := by
  induction tasks generalizing b with
  | nil => exact ⟨b, rfl⟩
  | cons t ts ih =>
    have ht : CS_ENABLE_DEBUG = false ∨ t.renderPass.assertionsHold = true := by
      rcases h with h | h
      · exact Or.inl h
      · exact Or.inr (h t (List.mem_cons_self _ _))
    have hts : CS_ENABLE_DEBUG = false ∨ ∀ t ∈ ts, t.renderPass.assertionsHold = true := by
      rcases h with h | h
      · exact Or.inl h
      · exact Or.inr (fun u hu => h u (List.mem_cons_of_mem _ hu))
    obtain ⟨l, hl⟩ := CompileRenderCommandsForPass_returns CS_ENABLE_DEBUG t.renderPass
      (b.readList t.renderCommandList) ht
    obtain ⟨b', hb'⟩ := ih (b.writeList t.renderCommandList l) hts
    refine ⟨b', ?_⟩
    simp only [ProcessChildTasks, Task.run, hl]
    exact hb'

/-! ## The orchestrator: theorems -/

/-- Claim C2. For every input of `CompileRenderCommands`, with `n` the count returned by
`CalcNumRenderCommandLists`: the buffer has `n` lists, every index passed to
`GetRenderCommandList` (the access that injects apply-camera included) is below `n`, and
the cursor `currentList` equals `n` at the end. -/
theorem CompileRenderCommands_indices_in_range
    (targetRenderPassGroups : List TargetRenderPassGroup) (renderDynamicMeshes : List Nat)
    (preRenderCommandList postRenderCommandList : RenderCommandList) :
    (CompileRenderCommands.schedule targetRenderPassGroups renderDynamicMeshes
        preRenderCommandList postRenderCommandList).renderCommandBuffer.GetNumSlots
      = CalcNumRenderCommandLists targetRenderPassGroups preRenderCommandList
          postRenderCommandList
    ∧ (∀ a ∈ (CompileRenderCommands.schedule targetRenderPassGroups renderDynamicMeshes
        preRenderCommandList postRenderCommandList).listAccesses,
        a.1 < CalcNumRenderCommandLists targetRenderPassGroups preRenderCommandList
          postRenderCommandList)
    ∧ (CompileRenderCommands.schedule targetRenderPassGroups renderDynamicMeshes
        preRenderCommandList postRenderCommandList).currentList
      = CalcNumRenderCommandLists targetRenderPassGroups preRenderCommandList
          postRenderCommandList := by
  obtain ⟨hcur, _, hb, _, _⟩ := CompileRenderCommands.schedule_slots targetRenderPassGroups
    renderDynamicMeshes preRenderCommandList postRenderCommandList
  exact ⟨(CompileRenderCommands.schedule_covered targetRenderPassGroups renderDynamicMeshes
    preRenderCommandList postRenderCommandList).1, hb, hcur⟩

/-- Witness of claim C2: the sample target group with a pre-list takes five lists, and
the six accesses are to the indices 0, 1, 2, 2, 3, 4. -/
theorem CompileRenderCommands_indices_in_range_witness :
    (CompileRenderCommands.schedule [sampleTargetGroup] [] [RenderCommand.End]
        []).renderCommandBuffer.GetNumSlots = 5
    ∧ (∀ a ∈ [(0, ListUse.preRenderCommandList), (1, ListUse.beginCommand),
          (2, ListUse.applyCameraCommand), (2, ListUse.renderPassTask),
          (3, ListUse.renderPassTask), (4, ListUse.endCommand)], a.1 < 5)
    ∧ (CompileRenderCommands.schedule [sampleTargetGroup] [] [RenderCommand.End]
        []).currentList = 5 :=
  CompileRenderCommands_indices_in_range [sampleTargetGroup] [] [RenderCommand.End] []

/-- Claim C3. In `CompileRenderCommands`, with `n` the list count: the indices taken
with `currentList++` by the producers (pre-list, begin, render pass task, end, post-list)
are exactly `0, ..., n - 1`, once each; the scheduled tasks hold the indices taken for
render pass tasks, so no two tasks have the same list, and any other access to the list
of a task is the apply-camera injection: no task shares its list with a begin, end, pre
or post producer. -/
theorem CompileRenderCommands_slots_disjoint
    (targetRenderPassGroups : List TargetRenderPassGroup) (renderDynamicMeshes : List Nat)
    (preRenderCommandList postRenderCommandList : RenderCommandList) :
    claimedIndices (CompileRenderCommands.schedule targetRenderPassGroups
        renderDynamicMeshes preRenderCommandList postRenderCommandList).listAccesses
      = List.range (CalcNumRenderCommandLists targetRenderPassGroups preRenderCommandList
          postRenderCommandList)
    ∧ (CompileRenderCommands.schedule targetRenderPassGroups renderDynamicMeshes
        preRenderCommandList postRenderCommandList).tasks.map Task.renderCommandList
      = passTaskIndices (CompileRenderCommands.schedule targetRenderPassGroups
          renderDynamicMeshes preRenderCommandList postRenderCommandList).listAccesses
    ∧ ((CompileRenderCommands.schedule targetRenderPassGroups renderDynamicMeshes
        preRenderCommandList postRenderCommandList).tasks.map Task.renderCommandList).Nodup
    ∧ ∀ t ∈ (CompileRenderCommands.schedule targetRenderPassGroups renderDynamicMeshes
          preRenderCommandList postRenderCommandList).tasks,
        ∀ a ∈ (CompileRenderCommands.schedule targetRenderPassGroups renderDynamicMeshes
          preRenderCommandList postRenderCommandList).listAccesses,
        a.1 = t.renderCommandList →
          a.2 = ListUse.renderPassTask ∨ a.2 = ListUse.applyCameraCommand := by
  obtain ⟨_, hcl, _, hp, _⟩ := CompileRenderCommands.schedule_slots targetRenderPassGroups
    renderDynamicMeshes preRenderCommandList postRenderCommandList
  generalize CompileRenderCommands.schedule targetRenderPassGroups renderDynamicMeshes
    preRenderCommandList postRenderCommandList = s at hcl hp ⊢
  have hnodup : ((s.listAccesses.filter
      (fun a => decide (a.2 ≠ ListUse.applyCameraCommand))).map Prod.fst).Nodup := by
    have := List.nodup_range (CalcNumRenderCommandLists targetRenderPassGroups
      preRenderCommandList postRenderCommandList)
    rw [← hcl] at this
    exact this
  have hsub : (passTaskIndices s.listAccesses).Sublist (claimedIndices s.listAccesses) := by
    unfold passTaskIndices claimedIndices
    apply List.Sublist.map
    have hfilter : s.listAccesses.filter (fun a => decide (a.2 = ListUse.renderPassTask))
        = (s.listAccesses.filter (fun a => decide (a.2 ≠ ListUse.applyCameraCommand))).filter
            (fun a => decide (a.2 = ListUse.renderPassTask)) := by
      rw [List.filter_filter]
      apply List.filter_congr
      intro a _
      cases h : a.2 <;> simp
    rw [hfilter]
    exact List.filter_sublist _
  refine ⟨hcl, hp, ?_, ?_⟩
  · rw [hp]
    exact hsub.nodup hnodup
  · intro t ht a ha hat
    by_cases hcam : a.2 = ListUse.applyCameraCommand
    · exact Or.inr hcam
    · left
      have hmem : t.renderCommandList ∈ passTaskIndices s.listAccesses := by
        rw [← hp]
        exact List.mem_map_of_mem _ ht
      unfold passTaskIndices at hmem
      obtain ⟨b, hb, hbt⟩ := List.mem_map.1 hmem
      rw [List.mem_filter] at hb
      have hbpass : b.2 = ListUse.renderPassTask := by simpa using hb.2
      have ha' : a ∈ s.listAccesses.filter
          (fun a => decide (a.2 ≠ ListUse.applyCameraCommand)) := by
        rw [List.mem_filter]
        exact ⟨ha, by simpa using hcam⟩
      have hb' : b ∈ s.listAccesses.filter
          (fun a => decide (a.2 ≠ ListUse.applyCameraCommand)) := by
        rw [List.mem_filter]
        exact ⟨hb.1, by simp [hbpass]⟩
      have hab : a = b := List.inj_on_of_nodup_map hnodup ha' hb' (by rw [hat, hbt])
      rw [hab]
      exact hbpass

/-- Witness of claim C3: in the sample scene the producers take the lists 0 to 4 and
the two tasks hold the lists 2 and 3. -/
theorem CompileRenderCommands_slots_disjoint_witness :
    claimedIndices (CompileRenderCommands.schedule [sampleTargetGroup] [] [RenderCommand.End]
        []).listAccesses = [0, 1, 2, 3, 4]
    ∧ (CompileRenderCommands.schedule [sampleTargetGroup] [] [RenderCommand.End]
        []).tasks.map Task.renderCommandList = [2, 3]
    ∧ ([2, 3] : List Nat).Nodup
    ∧ ∀ t ∈ (CompileRenderCommands.schedule [sampleTargetGroup] [] [RenderCommand.End]
          []).tasks,
        ∀ a ∈ (CompileRenderCommands.schedule [sampleTargetGroup] [] [RenderCommand.End]
          []).listAccesses,
        a.1 = t.renderCommandList →
          a.2 = ListUse.renderPassTask ∨ a.2 = ListUse.applyCameraCommand :=
  CompileRenderCommands_slots_disjoint [sampleTargetGroup] [] [RenderCommand.End] []

/-- Claim C4. For every input of `CompileRenderCommands`, the returned buffer has as
many lists as `CalcNumRenderCommandLists` counts and every one of them contains at least
one command. The function returns always in a release build, and in a debug build when
the assertions of the pass compiler hold of every pass with objects. -/
theorem CompileRenderCommands_no_unused_slots (CS_ENABLE_DEBUG : Bool)
    (targetRenderPassGroups : List TargetRenderPassGroup) (renderDynamicMeshes : List Nat)
    (preRenderCommandList postRenderCommandList : RenderCommandList) :
    (CS_ENABLE_DEBUG = false
        ∨ (∀ g ∈ targetRenderPassGroups, ∀ p ∈ g.passesWithObjects,
            p.assertionsHold = true) →
      ∃ b, CompileRenderCommands CS_ENABLE_DEBUG targetRenderPassGroups renderDynamicMeshes
        preRenderCommandList postRenderCommandList = Except.ok b)
    ∧ ∀ b, CompileRenderCommands CS_ENABLE_DEBUG targetRenderPassGroups renderDynamicMeshes
        preRenderCommandList postRenderCommandList = Except.ok b →
      b.m_renderCommandLists.length
          = CalcNumRenderCommandLists targetRenderPassGroups preRenderCommandList
              postRenderCommandList
        ∧ ∀ l ∈ b.m_renderCommandLists, l ≠ [] := by
  obtain ⟨hcur, _, _, _, hr⟩ := CompileRenderCommands.schedule_slots targetRenderPassGroups
    renderDynamicMeshes preRenderCommandList postRenderCommandList
  obtain ⟨hlen, hcov⟩ := CompileRenderCommands.schedule_covered targetRenderPassGroups
    renderDynamicMeshes preRenderCommandList postRenderCommandList
  unfold CompileRenderCommands
  generalize CompileRenderCommands.schedule targetRenderPassGroups renderDynamicMeshes
    preRenderCommandList postRenderCommandList = s at hcur hr hlen hcov ⊢
  generalize CalcNumRenderCommandLists targetRenderPassGroups preRenderCommandList
    postRenderCommandList = n at hcur hlen hcov ⊢
  simp only
  refine ⟨?_, ?_⟩
  · intro h
    split
    · apply ProcessChildTasks_returns
      rcases h with h | h
      · exact Or.inl h
      · right
        intro t ht
        have hmem : t.renderPass ∈
            (targetRenderPassGroups.map TargetRenderPassGroup.passesWithObjects).flatten := by
          rw [← hr]
          exact List.mem_map_of_mem _ ht
        obtain ⟨ps, hps, hp⟩ := List.mem_flatten.1 hmem
        obtain ⟨g, hg, hgp⟩ := List.mem_map.1 hps
        exact h g hg t.renderPass (by rw [hgp]; exact hp)
    · exact ⟨_, rfl⟩
  · intro b hb
    have hall : b.m_renderCommandLists.length = n ∧ ∀ i, i < n → b.readList i ≠ [] := by
      split at hb
      · obtain ⟨hl, hne⟩ := ProcessChildTasks_ok _ _ _ _ hb
        refine ⟨by rw [hl, hlen], ?_⟩
        intro i hi
        exact hne i (by omega) (hcov i (by omega) hi)
      · rename_i hnotasks
        injection hb with hb
        subst hb
        refine ⟨hlen, ?_⟩
        intro i hi
        rcases hcov i (by omega) hi with hne | hmem
        · exact hne
        · have : s.tasks = [] := List.length_eq_zero.1 (by omega)
          rw [this] at hmem
          exact absurd hmem (by simp)
    refine ⟨hall.1, ?_⟩
    intro l hl
    obtain ⟨i, hi, hil⟩ := (RenderCommandBuffer.mem_lists_iff b l).1 hl
    rw [← hil]
    exact hall.2 i (by omega)

/-- Witness of claim C4: the sample scene compiles, in a debug build, to the sample
buffer of five non-empty lists. -/
theorem CompileRenderCommands_no_unused_slots_witness :
    (∃ b, CompileRenderCommands true [sampleTargetGroup] [] [RenderCommand.End] []
      = Except.ok b)
    ∧ CompileRenderCommands true [sampleTargetGroup] [] [RenderCommand.End] []
      = Except.ok sampleBuffer
    ∧ sampleBuffer.m_renderCommandLists.length
        = CalcNumRenderCommandLists [sampleTargetGroup] [RenderCommand.End] []
    ∧ ∀ l ∈ sampleBuffer.m_renderCommandLists, l ≠ [] :=
  ⟨(CompileRenderCommands_no_unused_slots true [sampleTargetGroup] []
      [RenderCommand.End] []).1 (Or.inr (by decide)),
   rfl,
   (CompileRenderCommands_no_unused_slots true [sampleTargetGroup] []
      [RenderCommand.End] []).2 sampleBuffer rfl⟩

/-! ## The pass compiler: independence of the list it is given -/

theorem AddApplyLightCommand_prepend (CS_ENABLE_DEBUG : Bool) (renderPass : RenderPass)
    (l : RenderCommandList) :
    AddApplyLightCommand CS_ENABLE_DEBUG renderPass l
      = (AddApplyLightCommand CS_ENABLE_DEBUG renderPass []).map (fun out => l ++ out) := by
  unfold AddApplyLightCommand
  cases renderPass.GetLightType
  · simp [Except.map, RenderCommandList.AddApplyAmbientLightCommand]
  · simp [Except.map, RenderCommandList.AddApplyAmbientLightCommand]
  · cases ht : renderPass.GetDirectionalLight.GetShadowMapTarget with
    | none => simp [ht, Except.map, RenderCommandList.AddApplyDirectionalLightCommand]
    | some target =>
      cases CS_ENABLE_DEBUG <;> cases hq : target.GetDepthTarget <;>
        simp [ht, Except.map, RenderCommandList.AddApplyDirectionalLightCommand, CS_ASSERT, hq]
  · simp [Except.map, RenderCommandList.AddApplyPointLightCommand]

theorem CompileRenderCommandsForPass.body_prepend (l : RenderCommandList) (s : PassLoopState)
    (o : RenderPassObject) :
    CompileRenderCommandsForPass.body
        ⟨s.currentMaterial, s.currentStaticMesh, s.currentDynamicMesh, l ++ s.renderCommandList⟩ o
      = ⟨(CompileRenderCommandsForPass.body s o).currentMaterial,
          (CompileRenderCommandsForPass.body s o).currentStaticMesh,
          (CompileRenderCommandsForPass.body s o).currentDynamicMesh,
          l ++ (CompileRenderCommandsForPass.body s o).renderCommandList⟩ := by
  unfold CompileRenderCommandsForPass.body
  by_cases hm : o.GetRenderMaterial = s.currentMaterial <;> cases o.GetType <;>
    simp only [hm, ne_eq, not_true_eq_false, not_false_eq_true, if_true, if_false] <;>
    split_ifs <;>
    simp [RenderCommandList.AddApplyMaterialCommand, RenderCommandList.AddApplyMeshCommand,
      RenderCommandList.AddApplyDynamicMeshCommand, RenderCommandList.AddRenderInstanceCommand]

theorem CompileRenderCommandsForPass.loop_prepend (l : RenderCommandList)
    (objects : List RenderPassObject) (s : PassLoopState) :
    (objects.foldl CompileRenderCommandsForPass.body
        ⟨s.currentMaterial, s.currentStaticMesh, s.currentDynamicMesh,
          l ++ s.renderCommandList⟩).renderCommandList
      = l ++ (objects.foldl CompileRenderCommandsForPass.body s).renderCommandList := by
  induction objects generalizing s with
  | nil => rfl
  | cons o os ih =>
    rw [List.foldl_cons, List.foldl_cons, CompileRenderCommandsForPass.body_prepend]
    exact ih (CompileRenderCommandsForPass.body s o)

theorem CompileRenderCommandsForPass_prepend (CS_ENABLE_DEBUG : Bool) (renderPass : RenderPass)
    (l : RenderCommandList) :
    CompileRenderCommandsForPass CS_ENABLE_DEBUG renderPass l
      = (CompileRenderCommandsForPass CS_ENABLE_DEBUG renderPass []).map
          (fun out => l ++ out) := by
  unfold CompileRenderCommandsForPass
  rw [AddApplyLightCommand_prepend]
  cases AddApplyLightCommand CS_ENABLE_DEBUG renderPass [] with
  | error message => rfl
  | ok lit =>
    simp only [Except.map]
    cases CS_ASSERT CS_ENABLE_DEBUG (decide (renderPass.GetRenderPassObjects.length > 0))
        "Cannot compile a pass with no objects." with
    | error message => rfl
    | ok u =>
      simp only [Except.map]
      have := CompileRenderCommandsForPass.loop_prepend l renderPass.GetRenderPassObjects
        ⟨none, none, none, lit⟩
      simp only at this
      rw [this]

theorem AddApplyLightCommand_release_of_ok (CS_ENABLE_DEBUG : Bool) (renderPass : RenderPass)
    (l lit : RenderCommandList)
    (h : AddApplyLightCommand CS_ENABLE_DEBUG renderPass l = Except.ok lit) :
    AddApplyLightCommand false renderPass l = Except.ok lit := by
  cases CS_ENABLE_DEBUG
  · exact h
  · unfold AddApplyLightCommand at h ⊢
    cases hl : renderPass.GetLightType <;> simp only [hl] at h ⊢
    · exact h
    · exact h
    · cases ht : renderPass.GetDirectionalLight.GetShadowMapTarget with
      | none =>
        simp only [ht] at h ⊢
        exact h
      | some target =>
        simp only [ht] at h ⊢
        cases hq : target.GetDepthTarget with
        | none => simp [CS_ASSERT, hq] at h
        | some texture =>
          simp only [CS_ASSERT, hq, Option.isSome] at h ⊢
          simpa using h
    · exact h

theorem CompileRenderCommandsForPass_release_of_ok (CS_ENABLE_DEBUG : Bool)
    (renderPass : RenderPass) (l out : RenderCommandList)
    (h : CompileRenderCommandsForPass CS_ENABLE_DEBUG renderPass l = Except.ok out) :
    CompileRenderCommandsForPass false renderPass l = Except.ok out := by
  obtain ⟨lit, hlit, _, hout⟩ := (CompileRenderCommandsForPass_ok_iff _ _ _ _).1 h
  exact (CompileRenderCommandsForPass_ok_iff _ _ _ _).2
    ⟨lit, AddApplyLightCommand_release_of_ok _ _ _ _ hlit, Or.inl rfl, hout⟩

/-- A successful pass compilation returns the list it was given followed by the
commands the pass compiles to, whatever the list and the build. -/
theorem CompileRenderCommandsForPass_ok_compiled (CS_ENABLE_DEBUG : Bool)
    (renderPass : RenderPass) (l out : RenderCommandList)
    (h : CompileRenderCommandsForPass CS_ENABLE_DEBUG renderPass l = Except.ok out) :
    out = l ++ compiledPass renderPass := by
  have hrel := CompileRenderCommandsForPass_release_of_ok _ _ _ _ h
  rw [CompileRenderCommandsForPass_prepend] at hrel
  unfold compiledPass
  cases h0 : CompileRenderCommandsForPass false renderPass [] with
  | error message =>
    rw [h0] at hrel
    simp [Except.map] at hrel
  | ok app =>
    rw [h0] at hrel
    simp only [Except.map, Except.ok.injEq] at hrel
    exact hrel.symm

/-- Whether the pass compiler fails, and with which message, does not depend on the
list it is given. -/
theorem CompileRenderCommandsForPass_error_iff (CS_ENABLE_DEBUG : Bool)
    (renderPass : RenderPass) (l : RenderCommandList) (message : String) :
    CompileRenderCommandsForPass CS_ENABLE_DEBUG renderPass l = Except.error message
      ↔ CompileRenderCommandsForPass CS_ENABLE_DEBUG renderPass [] = Except.error message := by
  rw [CompileRenderCommandsForPass_prepend]
  cases CompileRenderCommandsForPass CS_ENABLE_DEBUG renderPass [] <;> simp [Except.map]

/-- The pass compiler fails in a debug build only, and for a pass with objects the
failed assertion is the one on the shadow map target. -/
theorem CompileRenderCommandsForPass_error_message (CS_ENABLE_DEBUG : Bool)
    (renderPass : RenderPass) (l : RenderCommandList) (message : String)
    (hobjects : renderPass.GetRenderPassObjects.length > 0)
    (h : CompileRenderCommandsForPass CS_ENABLE_DEBUG renderPass l = Except.error message) :
    CS_ENABLE_DEBUG = true ∧ message = "Shadow map target must have depth texture." := by
  unfold CompileRenderCommandsForPass at h
  cases hlight : AddApplyLightCommand CS_ENABLE_DEBUG renderPass l with
  | error m =>
    rw [hlight] at h
    simp only [Except.error.injEq] at h
    obtain ⟨hd, hdir, target, ht, hq⟩ := AddApplyLightCommand_error _ _ _ _ hlight
    refine ⟨hd, ?_⟩
    subst hd
    unfold AddApplyLightCommand at hlight
    simp [hdir, ht, hq, CS_ASSERT] at hlight
    rw [← h, ← hlight]
  | ok lit =>
    rw [hlight] at h
    cases CS_ENABLE_DEBUG <;> simp [CS_ASSERT, hobjects] at h

/-! ## The orchestrator: the layout of the buffer -/

theorem RenderCommandBuffer.readList_at_cursor (b : RenderCommandBuffer)
    (filled : List RenderCommandList) (m : Nat)
    (h : b.m_renderCommandLists = filled ++ List.replicate m []) :
    b.readList filled.length = [] := by
  unfold RenderCommandBuffer.readList
  rw [h, List.getD_eq_getElem?_getD, List.getElem?_append_right (Nat.le_refl _)]
  cases m <;> simp [List.replicate_succ]

theorem RenderCommandBuffer.writeList_at_cursor (b : RenderCommandBuffer)
    (filled : List RenderCommandList) (m : Nat) (l : RenderCommandList)
    (h : b.m_renderCommandLists = filled ++ List.replicate (m + 1) []) :
    (b.writeList filled.length l).m_renderCommandLists
      = filled ++ [l] ++ List.replicate m [] := by
  unfold RenderCommandBuffer.writeList
  simp [h, List.replicate_succ, List.set_append]

theorem slotTasks_append (start : Nat) (a b : List Slot) :
    slotTasks start (a ++ b) = slotTasks start a ++ slotTasks (start + a.length) b := by
  induction a generalizing start with
  | nil => simp [slotTasks]
  | cons x xs ih =>
    have hstart : start + 1 + xs.length = start + (xs.length + 1) := by omega
    rw [List.cons_append, slotTasks, slotTasks, ih, List.length_cons, List.append_assoc, hstart]

theorem CompileState.Fills.unchanged (s : CompileState) : s.Fills s [] := by
  refine ⟨rfl, by simp [slotTasks], rfl, ?_⟩
  intro filled m h _ _
  simpa using h

theorem CompileState.Fills.append {s t u : CompileState} {a b : List Slot}
    (h₁ : s.Fills t a) (h₂ : t.Fills u b) : s.Fills u (a ++ b) := by
  obtain ⟨hc₁, ht₁, hm₁, hb₁⟩ := h₁
  obtain ⟨hc₂, ht₂, hm₂, hb₂⟩ := h₂
  refine ⟨by simp only [List.length_append]; omega, ?_, by rw [hm₂, hm₁], ?_⟩
  · rw [ht₂, ht₁, hc₁, slotTasks_append, List.append_assoc]
  · intro filled m h hlen hle
    rw [List.length_append] at hle
    have h₁ := hb₁ filled m h hlen (by omega)
    have h₂ := hb₂ (filled ++ a.map Slot.framing) (m - a.length) h₁
      (by rw [List.length_append, List.length_map, hlen, hc₁]) (by omega)
    have hsub : m - a.length - b.length = m - (a.length + b.length) := by omega
    rw [h₂, List.map_append, List.length_append, hsub]
    simp only [List.append_assoc]

/-- Writing a framing list to the list at `currentList++`: the new content is computed
from the old one, which is empty. -/
theorem CompileState.Fills.frame (s : CompileState)
    (f : RenderCommandList → RenderCommandList) (accesses : List (Nat × ListUse)) :
    s.Fills
      ⟨s.renderCommandBuffer.writeList s.currentList
          (f (s.renderCommandBuffer.readList s.currentList)),
        s.tasks, s.currentList + 1, accesses⟩
      [⟨f [], none⟩] := by
  refine ⟨rfl, by simp [slotTasks], rfl, ?_⟩
  intro filled m h hlen hle
  obtain ⟨k, rfl⟩ : ∃ k, m = k + 1 := ⟨m - 1, by simp at hle; omega⟩
  simp only
  rw [← hlen, RenderCommandBuffer.readList_at_cursor _ _ _ h,
    RenderCommandBuffer.writeList_at_cursor _ _ _ _ h]
  simp

theorem CompileRenderCommands.passes_fold (passes : List RenderPass) (s : CompileState) :
    (passes.foldl CompileRenderCommands.passBody s).renderCommandBuffer = s.renderCommandBuffer
    ∧ (passes.foldl CompileRenderCommands.passBody s).currentList
        = s.currentList + (passes.filter RenderPass.hasObjects).length
    ∧ (passes.foldl CompileRenderCommands.passBody s).tasks
        = s.tasks ++ slotTasks s.currentList
            ((passes.filter RenderPass.hasObjects).map (fun q => (⟨[], some q⟩ : Slot))) := by
  induction passes generalizing s with
  | nil => simp [slotTasks]
  | cons p ps ih =>
    rw [List.foldl_cons]
    obtain ⟨hb, hc, ht⟩ := ih (CompileRenderCommands.passBody s p)
    rw [hb, hc, ht]
    unfold CompileRenderCommands.passBody
    by_cases h : p.GetRenderPassObjects.length > 0
    · have hp : p.hasObjects = true := (RenderPass.hasObjects_iff p).2 h
      simp only [h, if_true, List.filter_cons, hp, List.length_cons, List.map_cons, slotTasks,
        List.append_assoc, List.singleton_append]
      refine ⟨trivial, by omega, trivial⟩
    · have hp : p.hasObjects = false := by
        cases hq : p.hasObjects
        · rfl
        · exact absurd ((RenderPass.hasObjects_iff p).1 hq) h
      simp [h, List.filter_cons, hp]

theorem CompileRenderCommands.cameraBody_fills (s : CompileState)
    (g : CameraRenderPassGroup) :
    s.Fills (CompileRenderCommands.cameraBody s g) g.slots := by
  unfold CompileRenderCommands.cameraBody
  by_cases hc : ContainsRenderPassObject g = true
  · simp only [hc, if_true]
    have hk : 0 < (g.GetRenderPasses.filter RenderPass.hasObjects).length :=
      (ContainsRenderPassObject.loop_iff _).1 hc
    obtain ⟨hb, hcur, ht⟩ := CompileRenderCommands.passes_fold g.GetRenderPasses
      ⟨s.renderCommandBuffer.writeList s.currentList
          ((s.renderCommandBuffer.readList s.currentList).AddApplyCameraCommand
            (Vector3.GetTranslation g.GetCamera.GetWorldMatrix)
            g.GetCamera.GetViewProjectionMatrix),
        s.tasks, s.currentList,
        s.listAccesses ++ [(s.currentList, ListUse.applyCameraCommand)]⟩
    unfold CameraRenderPassGroup.slots CameraRenderPassGroup.passesWithObjects
    cases hf : g.GetRenderPasses.filter RenderPass.hasObjects with
    | nil => simp [hf] at hk
    | cons p ps =>
      rw [hf] at hcur ht
      refine ⟨by rw [hcur]; simp, ?_, by rw [hb]; rfl, ?_⟩
      · rw [ht]
        simp [slotTasks]
      · intro filled m h hlen hle
        simp only [List.length_cons, List.length_map] at hle
        obtain ⟨k, rfl⟩ : ∃ k, m = k + 1 := ⟨m - 1, by omega⟩
        rw [hb]
        simp only
        rw [← hlen, RenderCommandBuffer.readList_at_cursor _ _ _ h,
          RenderCommandBuffer.writeList_at_cursor _ _ _ _ h]
        have hsplit : List.replicate k ([] : RenderCommandList)
            = List.replicate ps.length [] ++ List.replicate (k - ps.length) [] := by
          rw [List.append_replicate_replicate]
          congr 1
          omega
        have hmap : (ps.map (fun q => (⟨[], some q⟩ : Slot))).map Slot.framing
            = List.replicate ps.length [] := by
          rw [List.map_map]
          exact List.eq_replicate_iff.2 ⟨by simp, by simp⟩
        simp only [List.map_cons, hmap, List.length_cons, List.length_map,
          RenderCommandList.AddApplyCameraCommand, CameraRenderPassGroup.applyCameraCommand,
          List.nil_append]
        rw [hsplit]
        simp
  · have hk : g.GetRenderPasses.filter RenderPass.hasObjects = [] := by
      have := (ContainsRenderPassObject.loop_iff g.GetRenderPasses).not.1 hc
      exact List.length_eq_zero.1 (by omega)
    simp only [hc]
    unfold CameraRenderPassGroup.slots CameraRenderPassGroup.passesWithObjects
    rw [hk]
    exact CompileState.Fills.unchanged s

theorem CompileRenderCommands.cameras_fill (groups : List CameraRenderPassGroup)
    (s : CompileState) :
    s.Fills (groups.foldl CompileRenderCommands.cameraBody s)
      (groups.map CameraRenderPassGroup.slots).flatten := by
  induction groups generalizing s with
  | nil => exact CompileState.Fills.unchanged s
  | cons g gs ih =>
    rw [List.foldl_cons, List.map_cons, List.flatten_cons]
    exact (CompileRenderCommands.cameraBody_fills s g).append
      (ih (CompileRenderCommands.cameraBody s g))

theorem CompileRenderCommands.targetBody_fills (s : CompileState)
    (g : TargetRenderPassGroup) :
    s.Fills (CompileRenderCommands.targetBody s g) g.slots := by
  unfold CompileRenderCommands.targetBody TargetRenderPassGroup.slots
    TargetRenderPassGroup.passSlots
  have h₁ := CompileState.Fills.frame s (AddBeginCommand g)
    (s.listAccesses ++ [(s.currentList, ListUse.beginCommand)])
  have h₂ := h₁.append (CompileRenderCommands.cameras_fill g.GetRenderCameraGroups _)
  exact h₂.append (CompileState.Fills.frame _ RenderCommandList.AddEndCommand _)

theorem CompileRenderCommands.targets_fill (groups : List TargetRenderPassGroup)
    (s : CompileState) :
    s.Fills (groups.foldl CompileRenderCommands.targetBody s)
      (groups.map TargetRenderPassGroup.slots).flatten := by
  induction groups generalizing s with
  | nil => exact CompileState.Fills.unchanged s
  | cons g gs ih =>
    rw [List.foldl_cons, List.map_cons, List.flatten_cons]
    exact (CompileRenderCommands.targetBody_fills s g).append
      (ih (CompileRenderCommands.targetBody s g))

theorem CompileRenderCommands.schedule_fills
    (targetRenderPassGroups : List TargetRenderPassGroup) (renderDynamicMeshes : List Nat)
    (preRenderCommandList postRenderCommandList : RenderCommandList) :
    CompileState.Fills
      ⟨RenderCommandBuffer.new (CalcNumRenderCommandLists targetRenderPassGroups
        preRenderCommandList postRenderCommandList) renderDynamicMeshes, [], 0, []⟩
      (CompileRenderCommands.schedule targetRenderPassGroups renderDynamicMeshes
        preRenderCommandList postRenderCommandList)
      (sceneSlots targetRenderPassGroups preRenderCommandList postRenderCommandList) := by
  unfold sceneSlots
  generalize hinit : (⟨RenderCommandBuffer.new (CalcNumRenderCommandLists
    targetRenderPassGroups preRenderCommandList postRenderCommandList) renderDynamicMeshes,
      [], 0, []⟩ : CompileState) = s₀
  have hsched : CompileRenderCommands.schedule targetRenderPassGroups renderDynamicMeshes
        preRenderCommandList postRenderCommandList
      = (fun s₂ : CompileState =>
          if postRenderCommandList.GetOrderedList.length > 0 then
            (⟨s₂.renderCommandBuffer.writeList s₂.currentList postRenderCommandList, s₂.tasks,
              s₂.currentList + 1,
              s₂.listAccesses ++ [(s₂.currentList, ListUse.postRenderCommandList)]⟩
              : CompileState)
          else s₂)
        (targetRenderPassGroups.foldl CompileRenderCommands.targetBody
          (if preRenderCommandList.GetOrderedList.length > 0 then
            (⟨s₀.renderCommandBuffer.writeList s₀.currentList preRenderCommandList, s₀.tasks,
              s₀.currentList + 1,
              s₀.listAccesses ++ [(s₀.currentList, ListUse.preRenderCommandList)]⟩
              : CompileState)
          else s₀)) := by
    rw [← hinit]
    rfl
  rw [hsched]
  have hpre : s₀.Fills
      (if preRenderCommandList.GetOrderedList.length > 0 then
        (⟨s₀.renderCommandBuffer.writeList s₀.currentList preRenderCommandList, s₀.tasks,
          s₀.currentList + 1,
          s₀.listAccesses ++ [(s₀.currentList, ListUse.preRenderCommandList)]⟩ : CompileState)
      else s₀)
      (if preRenderCommandList ≠ [] then [⟨preRenderCommandList, none⟩] else []) := by
    cases hp : preRenderCommandList with
    | nil => simpa [RenderCommandList.GetOrderedList] using CompileState.Fills.unchanged s₀
    | cons c cs =>
      simpa [RenderCommandList.GetOrderedList] using
        CompileState.Fills.frame s₀ (fun _ => c :: cs)
          (s₀.listAccesses ++ [(s₀.currentList, ListUse.preRenderCommandList)])
  have htargets := hpre.append (CompileRenderCommands.targets_fill targetRenderPassGroups _)
  generalize targetRenderPassGroups.foldl CompileRenderCommands.targetBody _ = s₂ at htargets ⊢
  have hpost : s₂.Fills
      (if postRenderCommandList.GetOrderedList.length > 0 then
        (⟨s₂.renderCommandBuffer.writeList s₂.currentList postRenderCommandList, s₂.tasks,
          s₂.currentList + 1,
          s₂.listAccesses ++ [(s₂.currentList, ListUse.postRenderCommandList)]⟩ : CompileState)
      else s₂)
      (if postRenderCommandList ≠ [] then [⟨postRenderCommandList, none⟩] else []) := by
    cases hp : postRenderCommandList with
    | nil => simpa [RenderCommandList.GetOrderedList] using CompileState.Fills.unchanged s₂
    | cons c cs =>
      simpa [RenderCommandList.GetOrderedList] using
        CompileState.Fills.frame s₂ (fun _ => c :: cs)
          (s₂.listAccesses ++ [(s₂.currentList, ListUse.postRenderCommandList)])
  exact htargets.append hpost

/-- The state of `CompileRenderCommands` when the walk is done: the buffer holds the
framing commands of the slots of the frame, and the tasks are those of the slots. -/
theorem CompileRenderCommands.schedule_layout
    (targetRenderPassGroups : List TargetRenderPassGroup) (renderDynamicMeshes : List Nat)
    (preRenderCommandList postRenderCommandList : RenderCommandList) :
    (CompileRenderCommands.schedule targetRenderPassGroups renderDynamicMeshes
        preRenderCommandList postRenderCommandList).renderCommandBuffer
      = ⟨(sceneSlots targetRenderPassGroups preRenderCommandList postRenderCommandList).map
          Slot.framing, renderDynamicMeshes⟩
    ∧ (CompileRenderCommands.schedule targetRenderPassGroups renderDynamicMeshes
        preRenderCommandList postRenderCommandList).tasks
      = slotTasks 0 (sceneSlots targetRenderPassGroups preRenderCommandList
          postRenderCommandList)
    ∧ (sceneSlots targetRenderPassGroups preRenderCommandList postRenderCommandList).length
      = CalcNumRenderCommandLists targetRenderPassGroups preRenderCommandList
          postRenderCommandList := by
  obtain ⟨hcur, ht, hm, hb⟩ := CompileRenderCommands.schedule_fills targetRenderPassGroups
    renderDynamicMeshes preRenderCommandList postRenderCommandList
  have hn := (CompileRenderCommands.schedule_slots targetRenderPassGroups renderDynamicMeshes
    preRenderCommandList postRenderCommandList).1
  rw [hn] at hcur
  simp only [Nat.zero_add, List.nil_append] at hcur ht
  have hlists := hb [] (CalcNumRenderCommandLists targetRenderPassGroups preRenderCommandList
    postRenderCommandList) (by simp [RenderCommandBuffer.new]) rfl (by omega)
  refine ⟨?_, ht, hcur.symm⟩
  generalize CompileRenderCommands.schedule targetRenderPassGroups renderDynamicMeshes
    preRenderCommandList postRenderCommandList = s at hlists hm ⊢
  cases hbuf : s.renderCommandBuffer with
  | mk lists meshes =>
    rw [hbuf] at hlists hm
    simp only [RenderCommandBuffer.new] at hm
    simp only [List.nil_append, ← hcur, Nat.sub_self, List.replicate_zero,
      List.append_nil] at hlists
    rw [hlists, hm]

/-- Running the tasks of a run of slots, in the order of the slots, on a buffer that
holds their framing commands: every slot ends with its final content. -/
theorem ProcessChildTasks_slots (CS_ENABLE_DEBUG : Bool) (slots : List Slot)
    (filled : List RenderCommandList) (meshes : List Nat) (b : RenderCommandBuffer)
    (h : ProcessChildTasks CS_ENABLE_DEBUG (slotTasks filled.length slots)
      ⟨filled ++ slots.map Slot.framing, meshes⟩ = Except.ok b) :
    b = ⟨filled ++ slots.map Slot.final, meshes⟩ := by
  induction slots generalizing filled with
  | nil =>
    simp only [slotTasks, ProcessChildTasks, Except.ok.injEq] at h
    rw [← h]
    simp
  | cons slot rest ih =>
    obtain ⟨framing, pass⟩ := slot
    cases pass with
    | none =>
      simp only [slotTasks, List.nil_append] at h
      have := ih (filled ++ [framing]) (by simpa using h)
      simpa [Slot.final] using this
    | some p =>
      simp only [slotTasks, List.singleton_append, ProcessChildTasks] at h
      cases hrun : Task.run CS_ENABLE_DEBUG ⟨filled ++ List.map Slot.framing (⟨framing, some p⟩ :: rest), meshes⟩
          ⟨p, filled.length⟩ with
      | error message =>
        rw [hrun] at h
        exact absurd h (by simp)
      | ok b₁ =>
        rw [hrun] at h
        simp only at h
        unfold Task.run at hrun
        simp only [RenderCommandBuffer.readList, List.map_cons, List.getD_eq_getElem?_getD,
          List.getElem?_append_right (Nat.le_refl _), Nat.sub_self, List.getElem?_cons_zero,
          Option.getD_some] at hrun
        cases hc : CompileRenderCommandsForPass CS_ENABLE_DEBUG p framing with
        | error message =>
          rw [hc] at hrun
          exact absurd hrun (by simp)
        | ok out =>
          rw [hc] at hrun
          simp only [Except.ok.injEq] at hrun
          have hout := CompileRenderCommandsForPass_ok_compiled _ _ _ _ hc
          have hb₁ : b₁ = ⟨(filled ++ [out]) ++ rest.map Slot.framing, meshes⟩ := by
            rw [← hrun]
            simp [RenderCommandBuffer.writeList, List.set_append]
          rw [hb₁] at h
          have := ih (filled ++ [out]) (by simpa using h)
          rw [this, hout]
          simp [Slot.final]

theorem CompileRenderCommands_eq_process (CS_ENABLE_DEBUG : Bool)
    (targetRenderPassGroups : List TargetRenderPassGroup) (renderDynamicMeshes : List Nat)
    (preRenderCommandList postRenderCommandList : RenderCommandList) :
    CompileRenderCommands CS_ENABLE_DEBUG targetRenderPassGroups renderDynamicMeshes
        preRenderCommandList postRenderCommandList
      = ProcessChildTasks CS_ENABLE_DEBUG
          (CompileRenderCommands.schedule targetRenderPassGroups renderDynamicMeshes
            preRenderCommandList postRenderCommandList).tasks
          (CompileRenderCommands.schedule targetRenderPassGroups renderDynamicMeshes
            preRenderCommandList postRenderCommandList).renderCommandBuffer := by
  unfold CompileRenderCommands
  simp only
  split
  · rfl
  · rename_i h
    have : (CompileRenderCommands.schedule targetRenderPassGroups renderDynamicMeshes
        preRenderCommandList postRenderCommandList).tasks = [] :=
      List.length_eq_zero.1 (by omega)
    rw [this]
    rfl

/-- The buffer `CompileRenderCommands` returns is the layout of the frame: the final
contents of its slots, in order, and the dynamic meshes. -/
theorem CompileRenderCommands_layout (CS_ENABLE_DEBUG : Bool)
    (targetRenderPassGroups : List TargetRenderPassGroup) (renderDynamicMeshes : List Nat)
    (preRenderCommandList postRenderCommandList : RenderCommandList) (b : RenderCommandBuffer)
    (h : CompileRenderCommands CS_ENABLE_DEBUG targetRenderPassGroups renderDynamicMeshes
      preRenderCommandList postRenderCommandList = Except.ok b) :
    b = ⟨(sceneSlots targetRenderPassGroups preRenderCommandList postRenderCommandList).map
      Slot.final, renderDynamicMeshes⟩ := by
  obtain ⟨hbuf, htasks, _⟩ := CompileRenderCommands.schedule_layout targetRenderPassGroups
    renderDynamicMeshes preRenderCommandList postRenderCommandList
  rw [CompileRenderCommands_eq_process, hbuf, htasks] at h
  have := ProcessChildTasks_slots CS_ENABLE_DEBUG
    (sceneSlots targetRenderPassGroups preRenderCommandList postRenderCommandList) []
    renderDynamicMeshes b (by simpa using h)
  simpa using this

theorem CompileRenderCommands.schedule_tasks_have_objects
    (targetRenderPassGroups : List TargetRenderPassGroup) (renderDynamicMeshes : List Nat)
    (preRenderCommandList postRenderCommandList : RenderCommandList) (t : Task)
    (ht : t ∈ (CompileRenderCommands.schedule targetRenderPassGroups renderDynamicMeshes
      preRenderCommandList postRenderCommandList).tasks) :
    t.renderPass.GetRenderPassObjects.length > 0
    ∧ ∃ g ∈ targetRenderPassGroups, t.renderPass ∈ g.passesWithObjects := by
  have hr := (CompileRenderCommands.schedule_slots targetRenderPassGroups renderDynamicMeshes
    preRenderCommandList postRenderCommandList).2.2.2.2
  have hmem : t.renderPass ∈
      (targetRenderPassGroups.map TargetRenderPassGroup.passesWithObjects).flatten := by
    rw [← hr]
    exact List.mem_map_of_mem _ ht
  obtain ⟨ps, hps, hp⟩ := List.mem_flatten.1 hmem
  obtain ⟨g, hg, hgp⟩ := List.mem_map.1 hps
  subst hgp
  refine ⟨?_, g, hg, hp⟩
  unfold TargetRenderPassGroup.passesWithObjects at hp
  exact (RenderPass.hasObjects_iff _).1 (List.mem_filter.1 hp).2

/-- The orchestrator returns in a release build, and in a debug build when the
assertions of the pass compiler hold of every pass with objects. -/
theorem CompileRenderCommands_returns (CS_ENABLE_DEBUG : Bool)
    (targetRenderPassGroups : List TargetRenderPassGroup) (renderDynamicMeshes : List Nat)
    (preRenderCommandList postRenderCommandList : RenderCommandList)
    (h : CS_ENABLE_DEBUG = false
      ∨ ∀ g ∈ targetRenderPassGroups, ∀ p ∈ g.passesWithObjects, p.assertionsHold = true) :
    ∃ b, CompileRenderCommands CS_ENABLE_DEBUG targetRenderPassGroups renderDynamicMeshes
      preRenderCommandList postRenderCommandList = Except.ok b := by
  rw [CompileRenderCommands_eq_process]
  apply ProcessChildTasks_returns
  rcases h with h | h
  · exact Or.inl h
  · right
    intro t ht
    obtain ⟨_, g, hg, hp⟩ := CompileRenderCommands.schedule_tasks_have_objects _ _ _ _ t ht
    exact h g hg _ hp

theorem CameraRenderPassGroup.slots_count (g : CameraRenderPassGroup) :
    g.slots.length = g.passesWithObjects.length := by
  unfold CameraRenderPassGroup.slots
  cases g.passesWithObjects <;> simp

theorem CameraRenderPassGroup.slots_renderPass (g : CameraRenderPassGroup) :
    g.slots.map Slot.renderPass = g.passesWithObjects.map some := by
  unfold CameraRenderPassGroup.slots
  cases g.passesWithObjects <;> simp

theorem TargetRenderPassGroup.passesWithObjects_eq (g : TargetRenderPassGroup) :
    g.passesWithObjects
      = (g.GetRenderCameraGroups.map CameraRenderPassGroup.passesWithObjects).flatten := by
  unfold TargetRenderPassGroup.passesWithObjects TargetRenderPassGroup.allRenderPasses
  induction g.GetRenderCameraGroups with
  | nil => rfl
  | cons c cs ih =>
    simp only [List.map_cons, List.flatten_cons, List.filter_append, ih]
    rfl

theorem TargetRenderPassGroup.passSlots_renderPass (g : TargetRenderPassGroup) :
    g.passSlots.map Slot.renderPass = g.passesWithObjects.map some := by
  rw [TargetRenderPassGroup.passesWithObjects_eq]
  unfold TargetRenderPassGroup.passSlots
  induction g.GetRenderCameraGroups with
  | nil => rfl
  | cons c cs ih =>
    simp only [List.map_cons, List.flatten_cons, List.map_append, ih,
      CameraRenderPassGroup.slots_renderPass]

theorem TargetRenderPassGroup.passSlots_length (g : TargetRenderPassGroup) :
    g.passSlots.length = g.numPassesWithObjects := by
  have h := congrArg List.length (TargetRenderPassGroup.passSlots_renderPass g)
  simpa [TargetRenderPassGroup.numPassesWithObjects,
    TargetRenderPassGroup.passesWithObjects] using h

theorem TargetRenderPassGroup.slots_length (g : TargetRenderPassGroup) :
    g.slots.length = 2 + g.numPassesWithObjects := by
  unfold TargetRenderPassGroup.slots
  simp only [List.length_append, List.length_singleton,
    TargetRenderPassGroup.passSlots_length]
  omega

theorem targetSlots_length (groups : List TargetRenderPassGroup) :
    (groups.map TargetRenderPassGroup.slots).flatten.length
      = (groups.map (fun g => 2 + g.numPassesWithObjects)).sum := by
  induction groups with
  | nil => rfl
  | cons g gs ih =>
    simp only [List.map_cons, List.flatten_cons, List.length_append, List.sum_cons, ih,
      TargetRenderPassGroup.slots_length]

theorem List.getElem?_append_middle {α : Type} (a b c : List α) (i : Nat) (h : i < b.length) :
    (a ++ b ++ c)[a.length + i]? = b[i]? := by
  rw [List.append_assoc, List.getElem?_append_right (by omega)]
  simp only [Nat.add_sub_cancel_left]
  rw [List.getElem?_append_left h]

theorem AddBeginCommand_eq (targetRenderPassGroup : TargetRenderPassGroup)
    (renderCommandList : RenderCommandList) :
    AddBeginCommand targetRenderPassGroup renderCommandList
      = renderCommandList ++
        [match targetRenderPassGroup.GetRenderTargetGroup with
          | some renderTargetGroup =>
            RenderCommand.BeginWithTargetGroup (some renderTargetGroup)
              targetRenderPassGroup.GetClearColour
          | none =>
            RenderCommand.Begin targetRenderPassGroup.GetResolution
              targetRenderPassGroup.GetClearColour] := by
  unfold AddBeginCommand
  cases h : targetRenderPassGroup.GetRenderTargetGroup <;>
    simp [RenderCommandList.AddBeginWithTargetGroupCommand, RenderCommandList.AddBeginCommand]

/-- When all tasks return, the pass of each of them compiles, into any list, to that
list followed by the commands of the pass. -/
theorem ProcessChildTasks_ok_compiles (CS_ENABLE_DEBUG : Bool) (tasks : List Task)
    (b b' : RenderCommandBuffer)
    (h : ProcessChildTasks CS_ENABLE_DEBUG tasks b = Except.ok b') :
    ∀ t ∈ tasks, ∀ l : RenderCommandList,
      CompileRenderCommandsForPass CS_ENABLE_DEBUG t.renderPass l
        = Except.ok (l ++ compiledPass t.renderPass) := by
  induction tasks generalizing b with
  | nil => intro t ht; simp at ht
  | cons u us ih =>
    simp only [ProcessChildTasks] at h
    cases hrun : u.run CS_ENABLE_DEBUG b with
    | error message =>
      rw [hrun] at h
      exact absurd h (by simp)
    | ok b₁ =>
      rw [hrun] at h
      intro t ht l
      rcases List.mem_cons.1 ht with ht | ht
      · subst ht
        unfold Task.run at hrun
        cases hc : CompileRenderCommandsForPass CS_ENABLE_DEBUG t.renderPass
            (b.readList t.renderCommandList) with
        | error message =>
          rw [hc] at hrun
          exact absurd hrun (by simp)
        | ok out =>
          cases hl : CompileRenderCommandsForPass CS_ENABLE_DEBUG t.renderPass l with
          | error message =>
            rw [CompileRenderCommandsForPass_error_iff] at hl
            rw [← CompileRenderCommandsForPass_error_iff _ _ (b.readList t.renderCommandList)]
              at hl
            rw [hl] at hc
            exact absurd hc (by simp)
          | ok out' =>
            rw [CompileRenderCommandsForPass_ok_compiled _ _ _ _ hl]
      · exact ih b₁ h t ht l

/-- Every pass with objects of the frame compiles when the orchestrator returns. -/
theorem CompileRenderCommands_ok_compiles (CS_ENABLE_DEBUG : Bool)
    (targetRenderPassGroups : List TargetRenderPassGroup) (renderDynamicMeshes : List Nat)
    (preRenderCommandList postRenderCommandList : RenderCommandList) (b : RenderCommandBuffer)
    (h : CompileRenderCommands CS_ENABLE_DEBUG targetRenderPassGroups renderDynamicMeshes
      preRenderCommandList postRenderCommandList = Except.ok b)
    (g : TargetRenderPassGroup) (hg : g ∈ targetRenderPassGroups)
    (p : RenderPass) (hp : p ∈ g.passesWithObjects) (l : RenderCommandList) :
    CompileRenderCommandsForPass CS_ENABLE_DEBUG p l = Except.ok (l ++ compiledPass p) := by
  rw [CompileRenderCommands_eq_process] at h
  have hr := (CompileRenderCommands.schedule_slots targetRenderPassGroups renderDynamicMeshes
    preRenderCommandList postRenderCommandList).2.2.2.2
  have hmem : p ∈ (CompileRenderCommands.schedule targetRenderPassGroups renderDynamicMeshes
      preRenderCommandList postRenderCommandList).tasks.map Task.renderPass := by
    rw [hr]
    exact List.mem_flatten.2 ⟨_, List.mem_map_of_mem _ hg, hp⟩
  obtain ⟨t, ht, htp⟩ := List.mem_map.1 hmem
  rw [← htp]
  exact ProcessChildTasks_ok_compiles _ _ _ _ h t ht l

/-- The lists of the buffer, for a frame whose target groups are `before ++ g :: after`:
what is before the lists of `g`, the lists of `g`, what is after them. -/
theorem CompileRenderCommands_layout_at (CS_ENABLE_DEBUG : Bool)
    (before : List TargetRenderPassGroup) (g : TargetRenderPassGroup)
    (after : List TargetRenderPassGroup) (renderDynamicMeshes : List Nat)
    (preRenderCommandList postRenderCommandList : RenderCommandList) (b : RenderCommandBuffer)
    (h : CompileRenderCommands CS_ENABLE_DEBUG (before ++ g :: after) renderDynamicMeshes
      preRenderCommandList postRenderCommandList = Except.ok b) :
    ∃ front back : List RenderCommandList,
      b.m_renderCommandLists = front ++ g.slots.map Slot.final ++ back
      ∧ front.length = (if preRenderCommandList ≠ [] then 1 else 0)
          + (before.map (fun g => 2 + g.numPassesWithObjects)).sum := by
  have hb := CompileRenderCommands_layout _ _ _ _ _ _ h
  refine ⟨((if preRenderCommandList ≠ [] then [(⟨preRenderCommandList, none⟩ : Slot)] else [])
      ++ (before.map TargetRenderPassGroup.slots).flatten).map Slot.final,
    ((after.map TargetRenderPassGroup.slots).flatten
      ++ (if postRenderCommandList ≠ [] then [(⟨postRenderCommandList, none⟩ : Slot)]
          else [])).map Slot.final, ?_, ?_⟩
  · rw [hb]
    simp [sceneSlots]
  · rw [List.length_map, List.length_append, targetSlots_length]
    split <;> simp

/-! ## The orchestrator: framing and layout theorems -/

/-- Claim C13. For every scene, with a non-empty pre-list of K commands and an empty
post-list, list 0 of the buffer `CompileRenderCommands` returns is the pre-list (its K
commands in order), and the buffer has one list for the pre-list plus those of the
target groups, none for the post-list. The function returns always in a release build,
and in a debug build when the assertions hold of every pass with objects. -/
theorem CompileRenderCommands_pre_list_first (CS_ENABLE_DEBUG : Bool)
    (targetRenderPassGroups : List TargetRenderPassGroup) (renderDynamicMeshes : List Nat)
    (preRenderCommandList postRenderCommandList : RenderCommandList)
    (hpre : preRenderCommandList ≠ []) (hpost : postRenderCommandList = []) :
    (CS_ENABLE_DEBUG = false
        ∨ (∀ g ∈ targetRenderPassGroups, ∀ p ∈ g.passesWithObjects,
            p.assertionsHold = true) →
      ∃ b, CompileRenderCommands CS_ENABLE_DEBUG targetRenderPassGroups renderDynamicMeshes
        preRenderCommandList postRenderCommandList = Except.ok b)
    ∧ ∀ b, CompileRenderCommands CS_ENABLE_DEBUG targetRenderPassGroups renderDynamicMeshes
        preRenderCommandList postRenderCommandList = Except.ok b →
      b.m_renderCommandLists[0]? = some preRenderCommandList
      ∧ b.m_renderCommandLists.length
          = 1 + (targetRenderPassGroups.map (fun g => 2 + g.numPassesWithObjects)).sum := by
  refine ⟨CompileRenderCommands_returns _ _ _ _ _, ?_⟩
  intro b h
  have hs : sceneSlots targetRenderPassGroups preRenderCommandList postRenderCommandList
      = ⟨preRenderCommandList, none⟩
        :: (targetRenderPassGroups.map TargetRenderPassGroup.slots).flatten := by
    simp [sceneSlots, hpre, hpost]
  rw [CompileRenderCommands_layout _ _ _ _ _ _ h, hs]
  refine ⟨by simp [Slot.final], ?_⟩
  simp only [List.map_cons, List.length_cons, List.length_map, targetSlots_length]
  omega

/-- Claim C14. For every scene and every non-empty post-list, the list at the last
index, count - 1, of the buffer `CompileRenderCommands` returns is the post-list; when
the post-list is empty the buffer has no list for it: only one for a non-empty pre-list
and those of the target groups. -/
theorem CompileRenderCommands_post_list_last (CS_ENABLE_DEBUG : Bool)
    (targetRenderPassGroups : List TargetRenderPassGroup) (renderDynamicMeshes : List Nat)
    (preRenderCommandList postRenderCommandList : RenderCommandList) :
    (CS_ENABLE_DEBUG = false
        ∨ (∀ g ∈ targetRenderPassGroups, ∀ p ∈ g.passesWithObjects,
            p.assertionsHold = true) →
      ∃ b, CompileRenderCommands CS_ENABLE_DEBUG targetRenderPassGroups renderDynamicMeshes
        preRenderCommandList postRenderCommandList = Except.ok b)
    ∧ ∀ b, CompileRenderCommands CS_ENABLE_DEBUG targetRenderPassGroups renderDynamicMeshes
        preRenderCommandList postRenderCommandList = Except.ok b →
      (postRenderCommandList ≠ [] →
        b.m_renderCommandLists.length
            = CalcNumRenderCommandLists targetRenderPassGroups preRenderCommandList
                postRenderCommandList
        ∧ b.m_renderCommandLists[CalcNumRenderCommandLists targetRenderPassGroups
            preRenderCommandList postRenderCommandList - 1]? = some postRenderCommandList)
      ∧ (postRenderCommandList = [] →
        b.m_renderCommandLists.length
          = (if preRenderCommandList ≠ [] then 1 else 0)
            + (targetRenderPassGroups.map (fun g => 2 + g.numPassesWithObjects)).sum) := by
  refine ⟨CompileRenderCommands_returns _ _ _ _ _, ?_⟩
  intro b h
  have hlen := (CompileRenderCommands.schedule_layout targetRenderPassGroups
    renderDynamicMeshes preRenderCommandList postRenderCommandList).2.2
  rw [CompileRenderCommands_layout _ _ _ _ _ _ h]
  refine ⟨?_, ?_⟩
  · intro hpost
    refine ⟨by rw [List.length_map, hlen], ?_⟩
    rw [← hlen]
    have hs : sceneSlots targetRenderPassGroups preRenderCommandList postRenderCommandList
        = ((if preRenderCommandList ≠ [] then [(⟨preRenderCommandList, none⟩ : Slot)] else [])
            ++ (targetRenderPassGroups.map TargetRenderPassGroup.slots).flatten)
          ++ [⟨postRenderCommandList, none⟩] := by
      simp [sceneSlots, hpost]
    rw [hs, List.length_append, List.length_singleton, Nat.add_sub_cancel, List.map_append,
      List.getElem?_append_right (by rw [List.length_map]), List.length_map, Nat.sub_self]
    simp [Slot.final]
  · intro hpost
    rw [List.length_map, hlen, CalcNumRenderCommandLists_closed, hpost]
    simp

/-- Claim C15. For every target render pass group, `AddBeginCommand` appends exactly
one command: begin-with-target-group (render target group, clear colour) if the group
has a render target group, otherwise begin (resolution, clear colour). -/
theorem AddBeginCommand_appends_one (targetRenderPassGroup : TargetRenderPassGroup)
    (renderCommandList : RenderCommandList) :
    AddBeginCommand targetRenderPassGroup renderCommandList
      = renderCommandList ++
        [match targetRenderPassGroup.GetRenderTargetGroup with
          | some renderTargetGroup =>
            RenderCommand.BeginWithTargetGroup (some renderTargetGroup)
              targetRenderPassGroup.GetClearColour
          | none =>
            RenderCommand.Begin targetRenderPassGroup.GetResolution
              targetRenderPassGroup.GetClearColour] :=
  AddBeginCommand_eq targetRenderPassGroup renderCommandList

/-- Witness of claim C13: the sample scene with the pre-list `[End]`. -/
theorem CompileRenderCommands_pre_list_first_witness :
    (∃ b, CompileRenderCommands true [sampleTargetGroup] [] [RenderCommand.End] []
      = Except.ok b)
    ∧ (sampleBuffer.m_renderCommandLists[0]? = some [RenderCommand.End]
      ∧ sampleBuffer.m_renderCommandLists.length
          = 1 + ([sampleTargetGroup].map (fun g => 2 + g.numPassesWithObjects)).sum) :=
  ⟨(CompileRenderCommands_pre_list_first true [sampleTargetGroup] [] [RenderCommand.End] []
      (by decide) rfl).1 (Or.inr (by decide)),
   (CompileRenderCommands_pre_list_first true [sampleTargetGroup] [] [RenderCommand.End] []
      (by decide) rfl).2 sampleBuffer rfl⟩

/-- Witness of claim C14: the sample scene with the post-list `[End]`, whose buffer has
four lists, the last of them the post-list. -/
theorem CompileRenderCommands_post_list_last_witness :
    (∃ b, CompileRenderCommands true [sampleTargetGroup] [] [] [RenderCommand.End]
      = Except.ok b)
    ∧ samplePostBuffer.m_renderCommandLists.length
        = CalcNumRenderCommandLists [sampleTargetGroup] [] [RenderCommand.End]
    ∧ samplePostBuffer.m_renderCommandLists[CalcNumRenderCommandLists [sampleTargetGroup]
        [] [RenderCommand.End] - 1]? = some [RenderCommand.End] :=
  ⟨(CompileRenderCommands_post_list_last true [sampleTargetGroup] [] []
      [RenderCommand.End]).1 (Or.inr (by decide)),
   ((CompileRenderCommands_post_list_last true [sampleTargetGroup] [] []
      [RenderCommand.End]).2 samplePostBuffer rfl).1 (by decide)⟩

theorem CameraRenderPassGroup.slots_framing (g : CameraRenderPassGroup) (slot : Slot)
    (h : slot ∈ g.slots) : slot.framing = [] ∨ slot.framing = [g.applyCameraCommand] := by
  unfold CameraRenderPassGroup.slots at h
  cases hp : g.passesWithObjects with
  | nil => simp [hp] at h
  | cons first rest =>
    simp only [hp, List.mem_cons, List.mem_map] at h
    rcases h with h | ⟨q, _, h⟩
    · right
      rw [h]
    · left
      rw [← h]

/-- The slot of the `i`-th pass with objects of a target group: it is compiled into a
list that is empty or holds the apply-camera command of one of the camera groups. -/
theorem TargetRenderPassGroup.passSlots_get (g : TargetRenderPassGroup) (i : Nat)
    (p : RenderPass) (h : g.passesWithObjects[i]? = some p) :
    ∃ injected : RenderCommandList,
      (injected = [] ∨ ∃ c ∈ g.GetRenderCameraGroups, injected = [c.applyCameraCommand])
      ∧ g.passSlots[i]? = some ⟨injected, some p⟩ := by
  have hmap := congrArg (fun l => l[i]?) (TargetRenderPassGroup.passSlots_renderPass g)
  simp only [List.getElem?_map, h, Option.map_some'] at hmap
  cases hs : g.passSlots[i]? with
  | none => simp [hs] at hmap
  | some slot =>
    rw [hs] at hmap
    simp only [Option.map_some', Option.some.injEq] at hmap
    have hmem : slot ∈ g.passSlots := List.getElem?_mem hs
    unfold TargetRenderPassGroup.passSlots at hmem
    obtain ⟨slots, hslots, hslot⟩ := List.mem_flatten.1 hmem
    obtain ⟨c, hc, rfl⟩ := List.mem_map.1 hslots
    refine ⟨slot.framing, ?_, ?_⟩
    · rcases CameraRenderPassGroup.slots_framing c slot hslot with hf | hf
      · exact Or.inl hf
      · exact Or.inr ⟨c, hc, hf⟩
    · obtain ⟨framing, pass⟩ := slot
      simp only at hmap
      rw [hmap]

/-- Claim C16. Buffer layout: for the target group `g` after the groups `before`, with
`p` passes with objects, let `b_k` be one for a non-empty pre-list plus, for every group
of `before`, two plus its number of passes with objects. In the buffer
`CompileRenderCommands` returns, the list at `b_k` is the single begin command of `g`,
the list at `b_k + 1 + i` holds the commands compiled from the `i`-th pass with objects
of `g` (after the apply-camera command of its camera group if one was injected there),
and the list at `b_k + p + 1` is one end command. -/
theorem CompileRenderCommands_target_layout (CS_ENABLE_DEBUG : Bool)
    (before : List TargetRenderPassGroup) (g : TargetRenderPassGroup)
    (after : List TargetRenderPassGroup) (renderDynamicMeshes : List Nat)
    (preRenderCommandList postRenderCommandList : RenderCommandList) :
    (CS_ENABLE_DEBUG = false
        ∨ (∀ g' ∈ before ++ g :: after, ∀ p ∈ g'.passesWithObjects,
            p.assertionsHold = true) →
      ∃ b, CompileRenderCommands CS_ENABLE_DEBUG (before ++ g :: after) renderDynamicMeshes
        preRenderCommandList postRenderCommandList = Except.ok b)
    ∧ ∀ b, CompileRenderCommands CS_ENABLE_DEBUG (before ++ g :: after) renderDynamicMeshes
        preRenderCommandList postRenderCommandList = Except.ok b →
      b.m_renderCommandLists[(if preRenderCommandList ≠ [] then 1 else 0)
          + (before.map (fun g => 2 + g.numPassesWithObjects)).sum]?
        = some [match g.GetRenderTargetGroup with
            | some renderTargetGroup =>
              RenderCommand.BeginWithTargetGroup (some renderTargetGroup) g.GetClearColour
            | none => RenderCommand.Begin g.GetResolution g.GetClearColour]
      ∧ (∀ (i : Nat) (p : RenderPass), g.passesWithObjects[i]? = some p →
          ∃ injected : RenderCommandList,
            (injected = []
              ∨ ∃ c ∈ g.GetRenderCameraGroups, injected = [c.applyCameraCommand])
            ∧ CompileRenderCommandsForPass CS_ENABLE_DEBUG p injected
                = Except.ok (injected ++ compiledPass p)
            ∧ b.m_renderCommandLists[(if preRenderCommandList ≠ [] then 1 else 0)
                + (before.map (fun g => 2 + g.numPassesWithObjects)).sum + 1 + i]?
              = some (injected ++ compiledPass p))
      ∧ b.m_renderCommandLists[(if preRenderCommandList ≠ [] then 1 else 0)
          + (before.map (fun g => 2 + g.numPassesWithObjects)).sum
          + g.numPassesWithObjects + 1]?
        = some [RenderCommand.End] := by
  refine ⟨CompileRenderCommands_returns _ _ _ _ _, ?_⟩
  intro b h
  obtain ⟨front, back, hlists, hfront⟩ := CompileRenderCommands_layout_at _ _ _ _ _ _ _ _ h
  rw [hlists, ← hfront]
  have hslots : g.slots.map Slot.final
      = [AddBeginCommand g []] ++ g.passSlots.map Slot.final ++ [[RenderCommand.End]] := by
    simp [TargetRenderPassGroup.slots, Slot.final]
  have hlen : (g.slots.map Slot.final).length = 2 + g.numPassesWithObjects := by
    rw [List.length_map, TargetRenderPassGroup.slots_length]
  refine ⟨?_, ?_, ?_⟩
  · rw [← Nat.add_zero front.length, List.getElem?_append_middle _ _ _ _ (by omega), hslots,
      AddBeginCommand_eq]
    simp
  · intro i p hp
    obtain ⟨injected, hinjected, hslot⟩ := TargetRenderPassGroup.passSlots_get g i p hp
    refine ⟨injected, hinjected, ?_, ?_⟩
    · have hmem : p ∈ g.passesWithObjects := List.getElem?_mem hp
      exact CompileRenderCommands_ok_compiles _ _ _ _ _ _ h g (by simp) p hmem injected
    · have hi : i < g.numPassesWithObjects := by
        have := (List.getElem?_eq_some_iff.1 hp).1
        simpa [TargetRenderPassGroup.numPassesWithObjects,
          TargetRenderPassGroup.passesWithObjects] using this
      rw [Nat.add_assoc, List.getElem?_append_middle _ _ _ _ (by omega), hslots,
        List.append_assoc, List.getElem?_append_right (by simp)]
      simp only [List.length_singleton, Nat.add_sub_cancel_left]
      rw [List.getElem?_append_left
        (by rw [List.length_map, TargetRenderPassGroup.passSlots_length]; exact hi),
        List.getElem?_map, hslot]
      simp [Slot.final]
  · rw [Nat.add_assoc, List.getElem?_append_middle _ _ _ _ (by omega), hslots,
      List.getElem?_append_right
        (by simp [TargetRenderPassGroup.passSlots_length])]
    simp [TargetRenderPassGroup.passSlots_length]

/-- Witness of claim C16: the sample scene with the pre-list `[End]`; the begin command
is at index 1, the second pass with objects (index 1 among them) at 3, the end command
at 4. -/
theorem CompileRenderCommands_target_layout_witness :
    (∃ b, CompileRenderCommands true [sampleTargetGroup] [] [RenderCommand.End] []
      = Except.ok b)
    ∧ (sampleBuffer.m_renderCommandLists[1]? = some [RenderCommand.Begin ⟨640, 480⟩ ⟨1⟩]
      ∧ (∃ injected : RenderCommandList,
            (injected = []
              ∨ ∃ c ∈ sampleTargetGroup.GetRenderCameraGroups,
                  injected = [c.applyCameraCommand])
            ∧ CompileRenderCommandsForPass true
                (samplePass RenderPass.LightType.k_point none sampleDynamicObjects) injected
                = Except.ok (injected ++ compiledPass
                    (samplePass RenderPass.LightType.k_point none sampleDynamicObjects))
            ∧ sampleBuffer.m_renderCommandLists[1 + 1 + 1]?
              = some (injected ++ compiledPass
                  (samplePass RenderPass.LightType.k_point none sampleDynamicObjects)))
      ∧ sampleBuffer.m_renderCommandLists[4]? = some [RenderCommand.End]) :=
  ⟨(CompileRenderCommands_target_layout true [] sampleTargetGroup [] []
      [RenderCommand.End] []).1 (Or.inr (by decide)),
   ((CompileRenderCommands_target_layout true [] sampleTargetGroup [] []
      [RenderCommand.End] []).2 sampleBuffer rfl).1,
   ((CompileRenderCommands_target_layout true [] sampleTargetGroup [] []
      [RenderCommand.End] []).2 sampleBuffer rfl).2.1 1
      (samplePass RenderPass.LightType.k_point none sampleDynamicObjects) rfl,
   ((CompileRenderCommands_target_layout true [] sampleTargetGroup [] []
      [RenderCommand.End] []).2 sampleBuffer rfl).2.2⟩

/-! ## The orchestrator: camera groups -/

theorem compiledPass_shape (p : RenderPass) :
    ∃ (light : RenderCommand) (more : List RenderCommand),
      compiledPass p = light :: more ∧ light.isLight = true
      ∧ ∀ c ∈ more, c.isObjectCommand = true := by
  obtain ⟨out, hout⟩ := CompileRenderCommandsForPass_returns false p [] (Or.inl rfl)
  obtain ⟨light, more, _, hshape, hlight, hobj, _⟩ :=
    CompileRenderCommandsForPass_shape _ _ _ _ hout
  refine ⟨light, more, ?_, hlight, hobj⟩
  unfold compiledPass
  rw [hout, hshape]
  rfl

theorem compiledPass_no_camera (p : RenderPass) :
    ∀ x ∈ compiledPass p, x.isApplyCamera = false := by
  obtain ⟨light, more, hp, hlight, hobj⟩ := compiledPass_shape p
  rw [hp]
  intro x hx
  rcases List.mem_cons.1 hx with hx | hx
  · subst hx
    cases x <;> simp_all [RenderCommand.isLight, RenderCommand.isApplyCamera]
  · have := hobj x hx
    cases x <;> simp_all [RenderCommand.isObjectCommand, RenderCommand.isApplyCamera]

theorem cameraSlots_length (groups : List CameraRenderPassGroup) :
    (groups.map CameraRenderPassGroup.slots).flatten.length
      = (groups.map (fun c => c.passesWithObjects.length)).sum := by
  induction groups with
  | nil => rfl
  | cons c cs ih =>
    simp only [List.map_cons, List.flatten_cons, List.length_append, List.sum_cons, ih,
      CameraRenderPassGroup.slots_count]

/-- The lists of the buffer, for a frame with the camera group `c` in the target group
after `before`: what is before the lists of `c`, the lists of `c`, what is after. -/
theorem CompileRenderCommands_layout_at_camera (CS_ENABLE_DEBUG : Bool)
    (before after : List TargetRenderPassGroup)
    (renderTargetGroup : Option RenderTargetGroup) (resolution : Integer2)
    (clearColour : Colour) (camerasBefore : List CameraRenderPassGroup)
    (c : CameraRenderPassGroup) (camerasAfter : List CameraRenderPassGroup)
    (renderDynamicMeshes : List Nat)
    (preRenderCommandList postRenderCommandList : RenderCommandList) (b : RenderCommandBuffer)
    (h : CompileRenderCommands CS_ENABLE_DEBUG
      (before ++ ⟨renderTargetGroup, resolution, clearColour,
        camerasBefore ++ c :: camerasAfter⟩ :: after) renderDynamicMeshes
      preRenderCommandList postRenderCommandList = Except.ok b) :
    ∃ front back : List RenderCommandList,
      b.m_renderCommandLists = front ++ c.slots.map Slot.final ++ back
      ∧ front.length = (if preRenderCommandList ≠ [] then 1 else 0)
          + (before.map (fun g => 2 + g.numPassesWithObjects)).sum + 1
          + (camerasBefore.map (fun c => c.passesWithObjects.length)).sum := by
  obtain ⟨front, back, hlists, hfront⟩ := CompileRenderCommands_layout_at _ _ _ _ _ _ _ _ h
  refine ⟨front ++ [AddBeginCommand ⟨renderTargetGroup, resolution, clearColour,
        camerasBefore ++ c :: camerasAfter⟩ []]
      ++ ((camerasBefore.map CameraRenderPassGroup.slots).flatten).map Slot.final,
    ((camerasAfter.map CameraRenderPassGroup.slots).flatten).map Slot.final
      ++ [[RenderCommand.End]] ++ back, ?_, ?_⟩
  · rw [hlists]
    simp [TargetRenderPassGroup.slots, TargetRenderPassGroup.passSlots, Slot.final]
  · simp only [List.length_append, List.length_singleton, List.length_map, hfront,
      cameraSlots_length]

/-- Claim C12. For every camera render pass group with at least one object (its passes
with objects are `first :: rest`), the buffer `CompileRenderCommands` returns holds the
apply-camera command of the group (camera world translation and view-projection matrix)
as the first command of the list of `first`, before the light command of that pass; the
lists of the passes of `rest` are the commands compiled from them, and the commands
compiled from a pass contain no apply-camera command: the group gets exactly one. -/
theorem CompileRenderCommands_apply_camera (CS_ENABLE_DEBUG : Bool)
    (before after : List TargetRenderPassGroup)
    (renderTargetGroup : Option RenderTargetGroup) (resolution : Integer2)
    (clearColour : Colour) (camerasBefore : List CameraRenderPassGroup)
    (c : CameraRenderPassGroup) (camerasAfter : List CameraRenderPassGroup)
    (renderDynamicMeshes : List Nat)
    (preRenderCommandList postRenderCommandList : RenderCommandList)
    (first : RenderPass) (rest : List RenderPass)
    (hpasses : c.passesWithObjects = first :: rest) :
    (CS_ENABLE_DEBUG = false
        ∨ (∀ g' ∈ before ++ ⟨renderTargetGroup, resolution, clearColour,
              camerasBefore ++ c :: camerasAfter⟩ :: after,
            ∀ p ∈ g'.passesWithObjects, p.assertionsHold = true) →
      ∃ b, CompileRenderCommands CS_ENABLE_DEBUG
        (before ++ ⟨renderTargetGroup, resolution, clearColour,
          camerasBefore ++ c :: camerasAfter⟩ :: after) renderDynamicMeshes
        preRenderCommandList postRenderCommandList = Except.ok b)
    ∧ ∀ b, CompileRenderCommands CS_ENABLE_DEBUG
        (before ++ ⟨renderTargetGroup, resolution, clearColour,
          camerasBefore ++ c :: camerasAfter⟩ :: after) renderDynamicMeshes
        preRenderCommandList postRenderCommandList = Except.ok b →
      b.m_renderCommandLists[(if preRenderCommandList ≠ [] then 1 else 0)
          + (before.map (fun g => 2 + g.numPassesWithObjects)).sum + 1
          + (camerasBefore.map (fun c => c.passesWithObjects.length)).sum]?
        = some (RenderCommand.ApplyCamera (Vector3.GetTranslation c.GetCamera.GetWorldMatrix)
            c.GetCamera.GetViewProjectionMatrix :: compiledPass first)
      ∧ (∃ (light : RenderCommand) (more : List RenderCommand),
          compiledPass first = light :: more ∧ light.isLight = true)
      ∧ (∀ (i : Nat) (q : RenderPass), rest[i]? = some q →
          b.m_renderCommandLists[(if preRenderCommandList ≠ [] then 1 else 0)
              + (before.map (fun g => 2 + g.numPassesWithObjects)).sum + 1
              + (camerasBefore.map (fun c => c.passesWithObjects.length)).sum + 1 + i]?
            = some (compiledPass q))
      ∧ (∀ q ∈ first :: rest,
          (∀ l, CompileRenderCommandsForPass CS_ENABLE_DEBUG q l
            = Except.ok (l ++ compiledPass q))
          ∧ ∀ x ∈ compiledPass q, x.isApplyCamera = false) := by
  refine ⟨CompileRenderCommands_returns _ _ _ _ _, ?_⟩
  intro b h
  obtain ⟨front, back, hlists, hfront⟩ :=
    CompileRenderCommands_layout_at_camera _ _ _ _ _ _ _ _ _ _ _ _ _ h
  have hslots : c.slots.map Slot.final
      = (c.applyCameraCommand :: compiledPass first) :: rest.map compiledPass := by
    unfold CameraRenderPassGroup.slots
    rw [hpasses]
    simp [Slot.final, Function.comp_def]
  rw [hlists, ← hfront, hslots]
  refine ⟨?_, ?_, ?_, ?_⟩
  · rw [← Nat.add_zero front.length, List.getElem?_append_middle _ _ _ _ (by simp)]
    simp [CameraRenderPassGroup.applyCameraCommand]
  · obtain ⟨light, more, hp, hlight, _⟩ := compiledPass_shape first
    exact ⟨light, more, hp, hlight⟩
  · intro i q hq
    have hi : i < rest.length := (List.getElem?_eq_some_iff.1 hq).1
    rw [Nat.add_assoc, List.getElem?_append_middle _ _ _ _ (by simp; omega),
      Nat.add_comm 1 i, List.getElem?_cons_succ, List.getElem?_map, hq]
    rfl
  · intro q hq
    refine ⟨?_, compiledPass_no_camera q⟩
    intro l
    refine CompileRenderCommands_ok_compiles _ _ _ _ _ _ h
      ⟨renderTargetGroup, resolution, clearColour, camerasBefore ++ c :: camerasAfter⟩
      (by simp) q ?_ l
    rw [TargetRenderPassGroup.passesWithObjects_eq]
    simp only [List.map_append, List.map_cons, List.flatten_append, List.flatten_cons,
      List.mem_append, hpasses]
    exact Or.inr (Or.inl hq)

/-- Witness of claim C12: the first camera group of the sample scene; its apply-camera
command opens list 2, list 3 is the second pass. -/
theorem CompileRenderCommands_apply_camera_witness :
    (∃ b, CompileRenderCommands true [sampleTargetGroup] [] [RenderCommand.End] []
      = Except.ok b)
    ∧ (sampleBuffer.m_renderCommandLists[2]?
        = some (RenderCommand.ApplyCamera (Vector3.GetTranslation (Matrix4.value 30))
            (Matrix4.value 31)
            :: compiledPass (samplePass RenderPass.LightType.k_none none
                sampleCoalescingObjects))
      ∧ (∃ (light : RenderCommand) (more : List RenderCommand),
          compiledPass (samplePass RenderPass.LightType.k_none none sampleCoalescingObjects)
            = light :: more ∧ light.isLight = true)
      ∧ sampleBuffer.m_renderCommandLists[2 + 1 + 0]?
          = some (compiledPass (samplePass RenderPass.LightType.k_point none
              sampleDynamicObjects))
      ∧ ((∀ l, CompileRenderCommandsForPass true
              (samplePass RenderPass.LightType.k_point none sampleDynamicObjects) l
            = Except.ok (l ++ compiledPass
                (samplePass RenderPass.LightType.k_point none sampleDynamicObjects)))
          ∧ ∀ x ∈ compiledPass (samplePass RenderPass.LightType.k_point none
              sampleDynamicObjects), x.isApplyCamera = false)) :=
  ⟨(CompileRenderCommands_apply_camera true [] [] none ⟨640, 480⟩ ⟨1⟩ [] sampleCameraGroup
      [sampleEmptyCameraGroup] [] [RenderCommand.End] []
      (samplePass RenderPass.LightType.k_none none sampleCoalescingObjects)
      [samplePass RenderPass.LightType.k_point none sampleDynamicObjects] rfl).1
      (Or.inr (by decide)),
   ((CompileRenderCommands_apply_camera true [] [] none ⟨640, 480⟩ ⟨1⟩ [] sampleCameraGroup
      [sampleEmptyCameraGroup] [] [RenderCommand.End] []
      (samplePass RenderPass.LightType.k_none none sampleCoalescingObjects)
      [samplePass RenderPass.LightType.k_point none sampleDynamicObjects] rfl).2
      sampleBuffer rfl).1,
   ((CompileRenderCommands_apply_camera true [] [] none ⟨640, 480⟩ ⟨1⟩ [] sampleCameraGroup
      [sampleEmptyCameraGroup] [] [RenderCommand.End] []
      (samplePass RenderPass.LightType.k_none none sampleCoalescingObjects)
      [samplePass RenderPass.LightType.k_point none sampleDynamicObjects] rfl).2
      sampleBuffer rfl).2.1,
   ((CompileRenderCommands_apply_camera true [] [] none ⟨640, 480⟩ ⟨1⟩ [] sampleCameraGroup
      [sampleEmptyCameraGroup] [] [RenderCommand.End] []
      (samplePass RenderPass.LightType.k_none none sampleCoalescingObjects)
      [samplePass RenderPass.LightType.k_point none sampleDynamicObjects] rfl).2
      sampleBuffer rfl).2.2.1 0
      (samplePass RenderPass.LightType.k_point none sampleDynamicObjects) rfl,
   ((CompileRenderCommands_apply_camera true [] [] none ⟨640, 480⟩ ⟨1⟩ [] sampleCameraGroup
      [sampleEmptyCameraGroup] [] [RenderCommand.End] []
      (samplePass RenderPass.LightType.k_none none sampleCoalescingObjects)
      [samplePass RenderPass.LightType.k_point none sampleDynamicObjects] rfl).2
      sampleBuffer rfl).2.2.2
      (samplePass RenderPass.LightType.k_point none sampleDynamicObjects) (by simp)⟩

theorem CompileRenderCommands.cameraBody_empty (s : CompileState) (c : CameraRenderPassGroup)
    (hempty : ∀ p ∈ c.GetRenderPasses, p.GetRenderPassObjects = []) :
    CompileRenderCommands.cameraBody s c = s
    ∧ c.GetRenderPasses.filter RenderPass.hasObjects = [] := by
  have hfilter : c.GetRenderPasses.filter RenderPass.hasObjects = [] := by
    rw [List.filter_eq_nil_iff]
    intro p hp
    simp [RenderPass.hasObjects, hempty p hp]
  refine ⟨?_, hfilter⟩
  have hc : ¬ ContainsRenderPassObject c = true := by
    intro hc
    have := (ContainsRenderPassObject.loop_iff _).1 hc
    rw [hfilter] at this
    exact absurd this (by simp)
  unfold CompileRenderCommands.cameraBody
  simp only [hc]
  rfl

/-- Claim C11. A camera render pass group in which every pass has zero objects
contributes nothing: for every scene, `CompileRenderCommands` takes the same lists (the
same count, the same accesses, none for the group and no apply-camera command) and
returns the same result as for the scene with that camera group removed. -/
theorem CompileRenderCommands_empty_camera_group (CS_ENABLE_DEBUG : Bool)
    (before after : List TargetRenderPassGroup)
    (renderTargetGroup : Option RenderTargetGroup) (resolution : Integer2)
    (clearColour : Colour) (camerasBefore : List CameraRenderPassGroup)
    (c : CameraRenderPassGroup) (camerasAfter : List CameraRenderPassGroup)
    (renderDynamicMeshes : List Nat)
    (preRenderCommandList postRenderCommandList : RenderCommandList)
    (hempty : ∀ p ∈ c.GetRenderPasses, p.GetRenderPassObjects = []) :
    CalcNumRenderCommandLists
        (before ++ ⟨renderTargetGroup, resolution, clearColour,
          camerasBefore ++ c :: camerasAfter⟩ :: after)
        preRenderCommandList postRenderCommandList
      = CalcNumRenderCommandLists
          (before ++ ⟨renderTargetGroup, resolution, clearColour,
            camerasBefore ++ camerasAfter⟩ :: after)
          preRenderCommandList postRenderCommandList
    ∧ CompileRenderCommands.schedule
        (before ++ ⟨renderTargetGroup, resolution, clearColour,
          camerasBefore ++ c :: camerasAfter⟩ :: after)
        renderDynamicMeshes preRenderCommandList postRenderCommandList
      = CompileRenderCommands.schedule
          (before ++ ⟨renderTargetGroup, resolution, clearColour,
            camerasBefore ++ camerasAfter⟩ :: after)
          renderDynamicMeshes preRenderCommandList postRenderCommandList
    ∧ CompileRenderCommands CS_ENABLE_DEBUG
        (before ++ ⟨renderTargetGroup, resolution, clearColour,
          camerasBefore ++ c :: camerasAfter⟩ :: after)
        renderDynamicMeshes preRenderCommandList postRenderCommandList
      = CompileRenderCommands CS_ENABLE_DEBUG
          (before ++ ⟨renderTargetGroup, resolution, clearColour,
            camerasBefore ++ camerasAfter⟩ :: after)
          renderDynamicMeshes preRenderCommandList postRenderCommandList := by
  have hcount : CalcNumRenderCommandLists
        (before ++ ⟨renderTargetGroup, resolution, clearColour,
          camerasBefore ++ c :: camerasAfter⟩ :: after)
        preRenderCommandList postRenderCommandList
      = CalcNumRenderCommandLists
          (before ++ ⟨renderTargetGroup, resolution, clearColour,
            camerasBefore ++ camerasAfter⟩ :: after)
          preRenderCommandList postRenderCommandList := by
    rw [CalcNumRenderCommandLists_closed, CalcNumRenderCommandLists_closed]
    simp [TargetRenderPassGroup.numPassesWithObjects, TargetRenderPassGroup.allRenderPasses,
      (CompileRenderCommands.cameraBody_empty ⟨⟨[], []⟩, [], 0, []⟩ c hempty).2]
  have htarget : ∀ s : CompileState,
      CompileRenderCommands.targetBody s ⟨renderTargetGroup, resolution, clearColour,
          camerasBefore ++ c :: camerasAfter⟩
        = CompileRenderCommands.targetBody s ⟨renderTargetGroup, resolution, clearColour,
            camerasBefore ++ camerasAfter⟩ := by
    intro s
    unfold CompileRenderCommands.targetBody AddBeginCommand
    simp only [List.foldl_append, List.foldl_cons,
      (CompileRenderCommands.cameraBody_empty _ c hempty).1]
  have hschedule : CompileRenderCommands.schedule
        (before ++ ⟨renderTargetGroup, resolution, clearColour,
          camerasBefore ++ c :: camerasAfter⟩ :: after)
        renderDynamicMeshes preRenderCommandList postRenderCommandList
      = CompileRenderCommands.schedule
          (before ++ ⟨renderTargetGroup, resolution, clearColour,
            camerasBefore ++ camerasAfter⟩ :: after)
          renderDynamicMeshes preRenderCommandList postRenderCommandList := by
    unfold CompileRenderCommands.schedule
    simp only [hcount, List.foldl_append, List.foldl_cons, htarget]
  refine ⟨hcount, hschedule, ?_⟩
  unfold CompileRenderCommands
  rw [hschedule]

/-- Witness of claim C11: the second camera group of the sample scene has one pass
without objects; the scene compiles as the scene without this group does. -/
theorem CompileRenderCommands_empty_camera_group_witness :
    CalcNumRenderCommandLists [sampleTargetGroup] [RenderCommand.End] []
      = CalcNumRenderCommandLists [⟨none, ⟨640, 480⟩, ⟨1⟩, [sampleCameraGroup]⟩]
          [RenderCommand.End] []
    ∧ CompileRenderCommands.schedule [sampleTargetGroup] [] [RenderCommand.End] []
      = CompileRenderCommands.schedule [⟨none, ⟨640, 480⟩, ⟨1⟩, [sampleCameraGroup]⟩] []
          [RenderCommand.End] []
    ∧ CompileRenderCommands true [sampleTargetGroup] [] [RenderCommand.End] []
      = CompileRenderCommands true [⟨none, ⟨640, 480⟩, ⟨1⟩, [sampleCameraGroup]⟩] []
          [RenderCommand.End] [] :=
  CompileRenderCommands_empty_camera_group true [] [] none ⟨640, 480⟩ ⟨1⟩ [sampleCameraGroup]
    sampleEmptyCameraGroup [] [] [RenderCommand.End] [] (by decide)

/-! ## The orchestrator: tasks -/

/-- A task appends the commands of its pass to its own list, or fails as the pass
compiler fails on an empty list. -/
theorem Task.run_eq (CS_ENABLE_DEBUG : Bool) (b : RenderCommandBuffer) (t : Task) :
    t.run CS_ENABLE_DEBUG b
      = (CompileRenderCommandsForPass CS_ENABLE_DEBUG t.renderPass []).map
          (fun appended =>
            b.writeList t.renderCommandList (b.readList t.renderCommandList ++ appended)) := by
  unfold Task.run
  rw [CompileRenderCommandsForPass_prepend]
  cases CompileRenderCommandsForPass CS_ENABLE_DEBUG t.renderPass [] <;> rfl

theorem ProcessChildTasks_cons (CS_ENABLE_DEBUG : Bool) (t : Task) (ts : List Task)
    (b : RenderCommandBuffer) :
    ProcessChildTasks CS_ENABLE_DEBUG (t :: ts) b
      = (t.run CS_ENABLE_DEBUG b).bind (ProcessChildTasks CS_ENABLE_DEBUG ts) := by
  simp only [ProcessChildTasks]
  cases t.run CS_ENABLE_DEBUG b <;> rfl

theorem RenderCommandBuffer.writeList_comm (b : RenderCommandBuffer) (i j : Nat)
    (l l' : RenderCommandList) (h : i ≠ j) :
    (b.writeList i l).writeList j l' = (b.writeList j l').writeList i l := by
  unfold RenderCommandBuffer.writeList
  simp only [RenderCommandBuffer.mk.injEq, and_true]
  exact List.set_comm _ _ _ h

/-- Two tasks with different lists, each of a pass with objects, can run in either
order: the buffer, or the failure, is the same. -/
theorem Task.run_comm (CS_ENABLE_DEBUG : Bool) (x y : Task) (b : RenderCommandBuffer)
    (hne : x.renderCommandList ≠ y.renderCommandList)
    (hx : x.renderPass.GetRenderPassObjects.length > 0)
    (hy : y.renderPass.GetRenderPassObjects.length > 0) :
    (x.run CS_ENABLE_DEBUG b).bind (y.run CS_ENABLE_DEBUG)
      = (y.run CS_ENABLE_DEBUG b).bind (x.run CS_ENABLE_DEBUG) := by
  rw [Task.run_eq _ b x, Task.run_eq _ b y]
  cases hcx : CompileRenderCommandsForPass CS_ENABLE_DEBUG x.renderPass [] with
  | error mx =>
    cases hcy : CompileRenderCommandsForPass CS_ENABLE_DEBUG y.renderPass [] with
    | error my =>
      have h₁ := (CompileRenderCommandsForPass_error_message _ _ _ _ hx hcx).2
      have h₂ := (CompileRenderCommandsForPass_error_message _ _ _ _ hy hcy).2
      simp [Except.map, Except.bind, h₁, h₂]
    | ok ay =>
      simp only [Except.map, Except.bind]
      rw [Task.run_eq, hcx]
      rfl
  | ok ax =>
    cases hcy : CompileRenderCommandsForPass CS_ENABLE_DEBUG y.renderPass [] with
    | error my =>
      simp only [Except.map, Except.bind]
      rw [Task.run_eq, hcy]
      rfl
    | ok ay =>
      simp only [Except.map, Except.bind]
      rw [Task.run_eq, Task.run_eq, hcx, hcy]
      simp only [Except.map, Except.ok.injEq]
      rw [RenderCommandBuffer.readList_writeList_ne _ _ _ _ hne,
        RenderCommandBuffer.readList_writeList_ne _ _ _ _ (Ne.symm hne),
        RenderCommandBuffer.writeList_comm _ _ _ _ _ hne]

theorem Except.bind_bind {ε α β γ : Type} (x : Except ε α) (f : α → Except ε β)
    (g : β → Except ε γ) : (x.bind f).bind g = x.bind (fun a => (f a).bind g) := by
  cases x <;> rfl

/-- The tasks of a list can run in any order, when they have different lists and
their passes have objects. -/
theorem ProcessChildTasks_perm (CS_ENABLE_DEBUG : Bool) {l₁ l₂ : List Task}
    (h : l₁.Perm l₂) :
    (l₁.map Task.renderCommandList).Nodup →
    (∀ t ∈ l₁, t.renderPass.GetRenderPassObjects.length > 0) →
    ∀ b, ProcessChildTasks CS_ENABLE_DEBUG l₁ b = ProcessChildTasks CS_ENABLE_DEBUG l₂ b := by
  induction h with
  | nil => intro _ _ b; rfl
  | cons x _ ih =>
    intro hnodup hobj b
    rw [ProcessChildTasks_cons, ProcessChildTasks_cons]
    have hrest := ih (List.nodup_cons.1 hnodup).2 (fun t ht => hobj t (List.mem_cons_of_mem _ ht))
    congr 1
    funext b₁
    exact hrest b₁
  | swap x y l =>
    intro hnodup hobj b
    have hcons : ∀ (t : Task) (ts : List Task),
        ProcessChildTasks CS_ENABLE_DEBUG (t :: ts)
          = fun b => (t.run CS_ENABLE_DEBUG b).bind (ProcessChildTasks CS_ENABLE_DEBUG ts) :=
      fun t ts => funext (ProcessChildTasks_cons CS_ENABLE_DEBUG t ts)
    rw [ProcessChildTasks_cons, ProcessChildTasks_cons, hcons x l, hcons y l]
    have hne : y.renderCommandList ≠ x.renderCommandList := by
      intro heq
      have := (List.nodup_cons.1 hnodup).1
      simp [heq] at this
    rw [← Except.bind_bind (y.run CS_ENABLE_DEBUG b) (x.run CS_ENABLE_DEBUG)
        (ProcessChildTasks CS_ENABLE_DEBUG l),
      ← Except.bind_bind (x.run CS_ENABLE_DEBUG b) (y.run CS_ENABLE_DEBUG)
        (ProcessChildTasks CS_ENABLE_DEBUG l),
      Task.run_comm _ y x b hne (hobj y (by simp)) (hobj x (by simp))]
  | trans h₁ _ ih₁ ih₂ =>
    intro hnodup hobj b
    rw [ih₁ hnodup hobj b]
    exact ih₂ ((h₁.map _).nodup_iff.1 hnodup) (fun t ht => hobj t (h₁.mem_iff.2 ht)) b

theorem slotTasks_indices (start : Nat) (slots : List Slot) :
    ((slotTasks start slots).map Task.renderCommandList).Sublist
      (List.range' start slots.length) := by
  induction slots generalizing start with
  | nil => simp [slotTasks]
  | cons slot rest ih =>
    obtain ⟨framing, pass⟩ := slot
    rw [List.length_cons, List.range'_succ]
    cases pass with
    | none =>
      simp only [slotTasks, List.nil_append]
      exact List.Sublist.cons _ (ih (start + 1))
    | some p =>
      simp only [slotTasks, List.singleton_append, List.map_cons]
      exact List.Sublist.cons₂ _ (ih (start + 1))

theorem CompileRenderCommands.schedule_tasks_nodup
    (targetRenderPassGroups : List TargetRenderPassGroup) (renderDynamicMeshes : List Nat)
    (preRenderCommandList postRenderCommandList : RenderCommandList) :
    ((CompileRenderCommands.schedule targetRenderPassGroups renderDynamicMeshes
      preRenderCommandList postRenderCommandList).tasks.map Task.renderCommandList).Nodup := by
  rw [(CompileRenderCommands.schedule_layout targetRenderPassGroups renderDynamicMeshes
    preRenderCommandList postRenderCommandList).2.1]
  exact (slotTasks_indices 0 _).nodup (List.nodup_range' _ _)

/-- Claim C17. The buffer `CompileRenderCommands` produces does not depend on the order
in which the scheduled tasks run: running them in any order, for example reversed, on
the buffer laid out by the walk gives the result of running them in submission order,
the same lists at the same indices (or the same failure). -/
theorem CompileRenderCommands_task_order_irrelevant (CS_ENABLE_DEBUG : Bool)
    (targetRenderPassGroups : List TargetRenderPassGroup) (renderDynamicMeshes : List Nat)
    (preRenderCommandList postRenderCommandList : RenderCommandList) :
    (∀ tasks : List Task,
      tasks.Perm (CompileRenderCommands.schedule targetRenderPassGroups renderDynamicMeshes
        preRenderCommandList postRenderCommandList).tasks →
      ProcessChildTasks CS_ENABLE_DEBUG tasks
          (CompileRenderCommands.schedule targetRenderPassGroups renderDynamicMeshes
            preRenderCommandList postRenderCommandList).renderCommandBuffer
        = CompileRenderCommands CS_ENABLE_DEBUG targetRenderPassGroups renderDynamicMeshes
            preRenderCommandList postRenderCommandList)
    ∧ ProcessChildTasks CS_ENABLE_DEBUG
          (CompileRenderCommands.schedule targetRenderPassGroups renderDynamicMeshes
            preRenderCommandList postRenderCommandList).tasks.reverse
          (CompileRenderCommands.schedule targetRenderPassGroups renderDynamicMeshes
            preRenderCommandList postRenderCommandList).renderCommandBuffer
        = CompileRenderCommands CS_ENABLE_DEBUG targetRenderPassGroups renderDynamicMeshes
            preRenderCommandList postRenderCommandList := by
  have hall : ∀ tasks : List Task,
      tasks.Perm (CompileRenderCommands.schedule targetRenderPassGroups renderDynamicMeshes
        preRenderCommandList postRenderCommandList).tasks →
      ProcessChildTasks CS_ENABLE_DEBUG tasks
          (CompileRenderCommands.schedule targetRenderPassGroups renderDynamicMeshes
            preRenderCommandList postRenderCommandList).renderCommandBuffer
        = CompileRenderCommands CS_ENABLE_DEBUG targetRenderPassGroups renderDynamicMeshes
            preRenderCommandList postRenderCommandList := by
    intro tasks hperm
    rw [CompileRenderCommands_eq_process]
    refine (ProcessChildTasks_perm CS_ENABLE_DEBUG hperm.symm
      (CompileRenderCommands.schedule_tasks_nodup _ _ _ _)
      (fun t ht => (CompileRenderCommands.schedule_tasks_have_objects _ _ _ _ t ht).1) _).symm
  exact ⟨hall, hall _ (List.reverse_perm _)⟩

/-- Witness of claim C17: the two tasks of the sample scene, run in reversed order, give
the sample buffer. -/
theorem CompileRenderCommands_task_order_irrelevant_witness :
    ProcessChildTasks true
        [⟨samplePass RenderPass.LightType.k_point none sampleDynamicObjects, 3⟩,
          ⟨samplePass RenderPass.LightType.k_none none sampleCoalescingObjects, 2⟩]
        (CompileRenderCommands.schedule [sampleTargetGroup] [] [RenderCommand.End]
          []).renderCommandBuffer
      = Except.ok sampleBuffer :=
  (CompileRenderCommands_task_order_irrelevant true [sampleTargetGroup] []
    [RenderCommand.End] []).1
    [⟨samplePass RenderPass.LightType.k_point none sampleDynamicObjects, 3⟩,
      ⟨samplePass RenderPass.LightType.k_none none sampleCoalescingObjects, 2⟩]
    (List.Perm.swap _ _ [])

theorem RenderCommandBuffer.lists_writeList_ne (b : RenderCommandBuffer) (i j : Nat)
    (l : RenderCommandList) (h : j ≠ i) :
    (b.writeList i l).m_renderCommandLists[j]? = b.m_renderCommandLists[j]? := by
  simp [RenderCommandBuffer.writeList, List.getElem?_set, Ne.symm h]

/-- Claim C18. `CompileRenderCommandsForPass` is append-only on the list it is given and
touches no other list: for every pass and every initial content of the list, the result
is the initial content followed by what the pass compiles to (the same for every initial
content); and the task that runs it on the list at `index` of a buffer leaves the number
of lists, the dynamic meshes and every other list unchanged, and keeps the content of
its own list as a prefix. -/
theorem CompileRenderCommandsForPass_append_only (CS_ENABLE_DEBUG : Bool)
    (renderPass : RenderPass) (renderCommandList : RenderCommandList) :
    (CS_ENABLE_DEBUG = false ∨ renderPass.assertionsHold = true →
      ∃ out, CompileRenderCommandsForPass CS_ENABLE_DEBUG renderPass renderCommandList
        = Except.ok out)
    ∧ (∀ out, CompileRenderCommandsForPass CS_ENABLE_DEBUG renderPass renderCommandList
        = Except.ok out →
      ∃ appended : List RenderCommand, out = renderCommandList ++ appended
        ∧ CompileRenderCommandsForPass CS_ENABLE_DEBUG renderPass [] = Except.ok appended)
    ∧ ∀ (b b' : RenderCommandBuffer) (index : Nat),
        Task.run CS_ENABLE_DEBUG b ⟨renderPass, index⟩ = Except.ok b' →
        b'.m_renderCommandLists.length = b.m_renderCommandLists.length
        ∧ b'.m_renderDynamicMeshes = b.m_renderDynamicMeshes
        ∧ (∀ j, j ≠ index → b'.m_renderCommandLists[j]? = b.m_renderCommandLists[j]?)
        ∧ ∀ initial, b.m_renderCommandLists[index]? = some initial →
            ∃ appended : List RenderCommand,
              b'.m_renderCommandLists[index]? = some (initial ++ appended) := by
  refine ⟨CompileRenderCommandsForPass_returns _ _ _, ?_, ?_⟩
  · intro out h
    rw [CompileRenderCommandsForPass_prepend] at h
    cases h0 : CompileRenderCommandsForPass CS_ENABLE_DEBUG renderPass [] with
    | error message =>
      rw [h0] at h
      simp [Except.map] at h
    | ok appended =>
      rw [h0] at h
      simp only [Except.map, Except.ok.injEq] at h
      exact ⟨appended, h.symm, rfl⟩
  · intro b b' index h
    rw [Task.run_eq] at h
    cases h0 : CompileRenderCommandsForPass CS_ENABLE_DEBUG renderPass [] with
    | error message =>
      rw [h0] at h
      simp [Except.map] at h
    | ok appended =>
      rw [h0] at h
      simp only [Except.map, Except.ok.injEq] at h
      subst h
      refine ⟨RenderCommandBuffer.length_writeList _ _ _, rfl,
        fun j hj => RenderCommandBuffer.lists_writeList_ne _ _ _ _ hj, ?_⟩
      intro initial hinitial
      refine ⟨appended, ?_⟩
      have hlt : index < b.m_renderCommandLists.length :=
        (List.getElem?_eq_some_iff.1 hinitial).1
      simp [RenderCommandBuffer.writeList, RenderCommandBuffer.readList,
        List.getD_eq_getElem?_getD, List.getElem?_set, hlt, hinitial]

/-- Witness of claim C18: the pass of two dynamic objects compiled, in a debug build,
into a list that holds an apply-camera command, at index 1 of a buffer of two lists:
list 0 is unchanged, list 1 keeps the apply-camera command in front. -/
theorem CompileRenderCommandsForPass_append_only_witness :
    (∃ out, CompileRenderCommandsForPass true
        (samplePass RenderPass.LightType.k_point none sampleDynamicObjects) sampleCameraList
      = Except.ok out)
    ∧ (∃ appended : List RenderCommand,
        sampleCameraList
            ++ compiledPass (samplePass RenderPass.LightType.k_point none sampleDynamicObjects)
          = sampleCameraList ++ appended
        ∧ CompileRenderCommandsForPass true
            (samplePass RenderPass.LightType.k_point none sampleDynamicObjects) []
          = Except.ok appended)
    ∧ ((sampleTwoListBuffer.writeList 1 (sampleCameraList
          ++ compiledPass (samplePass RenderPass.LightType.k_point none
              sampleDynamicObjects))).m_renderCommandLists.length
        = sampleTwoListBuffer.m_renderCommandLists.length
      ∧ (sampleTwoListBuffer.writeList 1 (sampleCameraList
          ++ compiledPass (samplePass RenderPass.LightType.k_point none
              sampleDynamicObjects))).m_renderDynamicMeshes
        = sampleTwoListBuffer.m_renderDynamicMeshes
      ∧ (sampleTwoListBuffer.writeList 1 (sampleCameraList
            ++ compiledPass (samplePass RenderPass.LightType.k_point none
                sampleDynamicObjects))).m_renderCommandLists[0]?
          = sampleTwoListBuffer.m_renderCommandLists[0]?
      ∧ ∃ appended : List RenderCommand,
            (sampleTwoListBuffer.writeList 1 (sampleCameraList
              ++ compiledPass (samplePass RenderPass.LightType.k_point none
                  sampleDynamicObjects))).m_renderCommandLists[1]?
            = some (sampleCameraList ++ appended)) :=
  ⟨(CompileRenderCommandsForPass_append_only true
      (samplePass RenderPass.LightType.k_point none sampleDynamicObjects)
      sampleCameraList).1 (Or.inr rfl),
   (CompileRenderCommandsForPass_append_only true
      (samplePass RenderPass.LightType.k_point none sampleDynamicObjects)
      sampleCameraList).2.1 _ rfl,
   ((CompileRenderCommandsForPass_append_only true
      (samplePass RenderPass.LightType.k_point none sampleDynamicObjects)
      sampleCameraList).2.2 sampleTwoListBuffer _ 1 rfl).1,
   ((CompileRenderCommandsForPass_append_only true
      (samplePass RenderPass.LightType.k_point none sampleDynamicObjects)
      sampleCameraList).2.2 sampleTwoListBuffer _ 1 rfl).2.1,
   ((CompileRenderCommandsForPass_append_only true
      (samplePass RenderPass.LightType.k_point none sampleDynamicObjects)
      sampleCameraList).2.2 sampleTwoListBuffer _ 1 rfl).2.2.1 0 (by decide),
   ((CompileRenderCommandsForPass_append_only true
      (samplePass RenderPass.LightType.k_point none sampleDynamicObjects)
      sampleCameraList).2.2 sampleTwoListBuffer _ 1 rfl).2.2.2 sampleCameraList rfl⟩

theorem ProcessChildTasks_error (CS_ENABLE_DEBUG : Bool) (tasks : List Task)
    (b : RenderCommandBuffer) (message : String)
    (h : ProcessChildTasks CS_ENABLE_DEBUG tasks b = Except.error message) :
    ∃ t ∈ tasks, CompileRenderCommandsForPass CS_ENABLE_DEBUG t.renderPass []
      = Except.error message := by
  induction tasks generalizing b with
  | nil => simp [ProcessChildTasks] at h
  | cons t ts ih =>
    rw [ProcessChildTasks_cons, Task.run_eq] at h
    cases h0 : CompileRenderCommandsForPass CS_ENABLE_DEBUG t.renderPass [] with
    | error m =>
      rw [h0] at h
      simp only [Except.map, Except.bind, Except.error.injEq] at h
      exact ⟨t, List.mem_cons_self _ _, by rw [h0, h]⟩
    | ok appended =>
      rw [h0] at h
      simp only [Except.map, Except.bind] at h
      obtain ⟨u, hu, hc⟩ := ih _ h
      exact ⟨u, List.mem_cons_of_mem _ hu, hc⟩

/-- Claim C19. `CompileRenderCommands` never schedules the compilation of a render pass
with zero objects: for every scene, the pass of every task it creates has at least one
object, so no task fails with `Cannot compile a pass with no objects.`, and neither does
`CompileRenderCommands`. -/
theorem CompileRenderCommands_never_schedules_empty_pass (CS_ENABLE_DEBUG : Bool)
    (targetRenderPassGroups : List TargetRenderPassGroup) (renderDynamicMeshes : List Nat)
    (preRenderCommandList postRenderCommandList : RenderCommandList) :
    (∀ t ∈ (CompileRenderCommands.schedule targetRenderPassGroups renderDynamicMeshes
        preRenderCommandList postRenderCommandList).tasks,
      t.renderPass.GetRenderPassObjects.length > 0
      ∧ ∀ l : RenderCommandList,
          CompileRenderCommandsForPass CS_ENABLE_DEBUG t.renderPass l
            ≠ Except.error "Cannot compile a pass with no objects.")
    ∧ CompileRenderCommands CS_ENABLE_DEBUG targetRenderPassGroups renderDynamicMeshes
        preRenderCommandList postRenderCommandList
      ≠ Except.error "Cannot compile a pass with no objects." := by
  have htask : ∀ t ∈ (CompileRenderCommands.schedule targetRenderPassGroups
      renderDynamicMeshes preRenderCommandList postRenderCommandList).tasks,
      t.renderPass.GetRenderPassObjects.length > 0
      ∧ ∀ l : RenderCommandList,
          CompileRenderCommandsForPass CS_ENABLE_DEBUG t.renderPass l
            ≠ Except.error "Cannot compile a pass with no objects." := by
    intro t ht
    have hobj := (CompileRenderCommands.schedule_tasks_have_objects _ _ _ _ t ht).1
    refine ⟨hobj, ?_⟩
    intro l hl
    have := (CompileRenderCommandsForPass_error_message _ _ _ _ hobj hl).2
    exact absurd this (by decide)
  refine ⟨htask, ?_⟩
  intro h
  rw [CompileRenderCommands_eq_process] at h
  obtain ⟨t, ht, hc⟩ := ProcessChildTasks_error _ _ _ _ h
  exact (htask t ht).2 [] hc

/-- Witness of claim C19: the task of list 2 of the sample scene, which has two passes
without objects, holds the pass of four objects. -/
theorem CompileRenderCommands_never_schedules_empty_pass_witness :
    ((samplePass RenderPass.LightType.k_none none
          sampleCoalescingObjects).GetRenderPassObjects.length > 0
      ∧ ∀ l : RenderCommandList,
          CompileRenderCommandsForPass true
              (samplePass RenderPass.LightType.k_none none sampleCoalescingObjects) l
            ≠ Except.error "Cannot compile a pass with no objects.")
    ∧ CompileRenderCommands true [sampleTargetGroup] [] [RenderCommand.End] []
      ≠ Except.error "Cannot compile a pass with no objects." :=
  ⟨(CompileRenderCommands_never_schedules_empty_pass true [sampleTargetGroup] []
      [RenderCommand.End] []).1
      ⟨samplePass RenderPass.LightType.k_none none sampleCoalescingObjects, 2⟩ (by decide),
   (CompileRenderCommands_never_schedules_empty_pass true [sampleTargetGroup] []
      [RenderCommand.End] []).2⟩

/-! ## UTF-8 strings: theorems -/

/-- Claim C20, the code at failing inputs. The string of the single two-byte character
U+00E9 (bytes C3 A9): `substr(0, 1)` returns the lead byte C3 alone, where the claim
gives both bytes. The string `a`, U+00E9, `b`: `substr(2, 1)` returns the trail byte A9
followed by `b`, where the claim gives `b` alone. -/
theorem CUTF8String_substr_splits_characters :
    ((CUTF8String.fromCodePoints [0xC3, 0xA9]).substr 0 1).mCodePoints = [0xC3]
    ∧ CUTF8String.specSubstr [0xC3, 0xA9] 0 1 = [0xC3, 0xA9]
    ∧ ((CUTF8String.fromCodePoints [0x61, 0xC3, 0xA9, 0x62]).substr 2 1).mCodePoints
        = [0xA9, 0x62]
    ∧ CUTF8String.specSubstr [0x61, 0xC3, 0xA9, 0x62] 2 1 = [0x62] := by
  decide

/-! ## The pass compiler: the commands of each object -/

theorem CompileRenderCommandsForPass.body_eq_emitted (s : PassLoopState)
    (o : RenderPassObject) :
    (CompileRenderCommandsForPass.body s o).renderCommandList
      = s.renderCommandList ++ CompileRenderCommandsForPass.emitted s o := by
  have h := CompileRenderCommandsForPass.body_prepend s.renderCommandList
    ⟨s.currentMaterial, s.currentStaticMesh, s.currentDynamicMesh, []⟩ o
  simp only [List.append_nil] at h
  have hs : (⟨s.currentMaterial, s.currentStaticMesh, s.currentDynamicMesh,
      s.renderCommandList⟩ : PassLoopState) = s := rfl
  rw [hs] at h
  rw [h]
  rfl

/-- The trackers after an iteration do not depend on the list being written. -/
theorem CompileRenderCommandsForPass.body_trackers (l : RenderCommandList)
    (s : PassLoopState) (o : RenderPassObject) :
    (CompileRenderCommandsForPass.body
        ⟨s.currentMaterial, s.currentStaticMesh, s.currentDynamicMesh, l⟩ o).currentMaterial
      = (CompileRenderCommandsForPass.body s o).currentMaterial
    ∧ (CompileRenderCommandsForPass.body
        ⟨s.currentMaterial, s.currentStaticMesh, s.currentDynamicMesh, l⟩ o).currentStaticMesh
      = (CompileRenderCommandsForPass.body s o).currentStaticMesh
    ∧ (CompileRenderCommandsForPass.body
        ⟨s.currentMaterial, s.currentStaticMesh, s.currentDynamicMesh, l⟩ o).currentDynamicMesh
      = (CompileRenderCommandsForPass.body s o).currentDynamicMesh := by
  unfold CompileRenderCommandsForPass.body
  by_cases hm : o.GetRenderMaterial = s.currentMaterial <;> cases o.GetType <;>
    simp only [hm, ne_eq, not_true_eq_false, not_false_eq_true, if_true, if_false] <;>
    split_ifs <;> simp

theorem CompileRenderCommandsForPass.objectCommands_trackers (objects : List RenderPassObject)
    (s t : PassLoopState) (hm : s.currentMaterial = t.currentMaterial)
    (hs : s.currentStaticMesh = t.currentStaticMesh)
    (hd : s.currentDynamicMesh = t.currentDynamicMesh) :
    CompileRenderCommandsForPass.objectCommands s objects
      = CompileRenderCommandsForPass.objectCommands t objects := by
  induction objects generalizing s t with
  | nil => rfl
  | cons o os ih =>
    simp only [CompileRenderCommandsForPass.objectCommands,
      CompileRenderCommandsForPass.emitted, hm, hs, hd]
    congr 1
    have h₁ := CompileRenderCommandsForPass.body_trackers s.renderCommandList t o
    have hst : (⟨t.currentMaterial, t.currentStaticMesh, t.currentDynamicMesh,
        s.renderCommandList⟩ : PassLoopState) = s := by
      rw [← hm, ← hs, ← hd]
    rw [hst] at h₁
    exact ih _ _ h₁.1 h₁.2.1 h₁.2.2

theorem CompileRenderCommandsForPass.loop_eq_objectCommands (objects : List RenderPassObject)
    (s : PassLoopState) :
    (objects.foldl CompileRenderCommandsForPass.body s).renderCommandList
      = s.renderCommandList
        ++ (CompileRenderCommandsForPass.objectCommands s objects).flatten := by
  induction objects generalizing s with
  | nil => simp [CompileRenderCommandsForPass.objectCommands]
  | cons o os ih =>
    rw [List.foldl_cons, ih, CompileRenderCommandsForPass.body_eq_emitted]
    simp [CompileRenderCommandsForPass.objectCommands]

theorem CompileRenderCommandsForPass.objectCommands_append (a b : List RenderPassObject)
    (s : PassLoopState) :
    CompileRenderCommandsForPass.objectCommands s (a ++ b)
      = CompileRenderCommandsForPass.objectCommands s a
        ++ CompileRenderCommandsForPass.objectCommands
            (a.foldl CompileRenderCommandsForPass.body s) b := by
  induction a generalizing s with
  | nil => rfl
  | cons o os ih =>
    rw [List.cons_append]
    simp only [CompileRenderCommandsForPass.objectCommands, List.foldl_cons, ih, List.cons_append]

theorem CompileRenderCommandsForPass.objectCommands_length (objects : List RenderPassObject)
    (s : PassLoopState) :
    (CompileRenderCommandsForPass.objectCommands s objects).length = objects.length := by
  induction objects generalizing s with
  | nil => rfl
  | cons o os ih => simp [CompileRenderCommandsForPass.objectCommands, ih]

/-- The commands of the object that follows `before ++ [prev]`: those of one iteration
from the state the loop is in after `prev`. -/
theorem CompileRenderCommandsForPass.objectCommands_at (before : List RenderPassObject)
    (prev o : RenderPassObject) (after : List RenderPassObject) (s : PassLoopState) :
    (CompileRenderCommandsForPass.objectCommands s (before ++ prev :: o :: after))[
        before.length + 1]?
      = some (CompileRenderCommandsForPass.emitted
          ((before ++ [prev]).foldl CompileRenderCommandsForPass.body s) o) := by
  have hsplit : before ++ prev :: o :: after = (before ++ [prev]) ++ o :: after := by simp
  rw [hsplit, CompileRenderCommandsForPass.objectCommands_append,
    List.getElem?_append_right
      (by rw [CompileRenderCommandsForPass.objectCommands_length]; simp)]
  simp [CompileRenderCommandsForPass.objectCommands_length,
    CompileRenderCommandsForPass.objectCommands]

/-- A successful pass compilation returns the list it was given, the light command, and
the commands of the objects, object by object. -/
theorem CompileRenderCommandsForPass_objectCommands (CS_ENABLE_DEBUG : Bool)
    (renderPass : RenderPass) (renderCommandList out : RenderCommandList)
    (h : CompileRenderCommandsForPass CS_ENABLE_DEBUG renderPass renderCommandList
      = Except.ok out) :
    ∃ light : RenderCommand, light.isLight = true
      ∧ out = renderCommandList ++ light
          :: (CompileRenderCommandsForPass.objectCommands
              (CompileRenderCommandsForPass.initial []) renderPass.GetRenderPassObjects).flatten := by
  obtain ⟨lit, hlit, _, hout⟩ := (CompileRenderCommandsForPass_ok_iff _ _ _ _).1 h
  obtain ⟨light, hlight, hisLight⟩ := AddApplyLightCommand_ok _ _ _ _ hlit
  refine ⟨light, hisLight, ?_⟩
  rw [hout, CompileRenderCommandsForPass.loop_eq_objectCommands, hlight,
    CompileRenderCommandsForPass.objectCommands_trackers renderPass.GetRenderPassObjects
      ⟨none, none, none, renderCommandList ++ [light]⟩
      (CompileRenderCommandsForPass.initial []) rfl rfl rfl]
  simp

/-- The commands of one iteration, in closed form: an apply-material command when the
material differs from the tracked one, a mesh command when the mesh differs from the
tracked one of its type (the static tracker being null after a material change), and
the render-instance command. -/
theorem CompileRenderCommandsForPass.emitted_eq (s : PassLoopState) (o : RenderPassObject) :
    CompileRenderCommandsForPass.emitted s o
      = (if o.GetRenderMaterial ≠ s.currentMaterial
          then [RenderCommand.ApplyMaterial o.GetRenderMaterial] else [])
        ++ (match o.GetType with
            | RenderPassObject.Type.k_static =>
              if o.GetRenderMesh
                  ≠ (if o.GetRenderMaterial ≠ s.currentMaterial then none
                      else s.currentStaticMesh)
                then [RenderCommand.ApplyMesh o.GetRenderMesh] else []
            | RenderPassObject.Type.k_dynamic =>
              if o.GetRenderDynamicMesh ≠ s.currentDynamicMesh
                then [RenderCommand.ApplyDynamicMesh o.GetRenderDynamicMesh] else [])
        ++ [RenderCommand.RenderInstance o.GetWorldMatrix] := by
  unfold CompileRenderCommandsForPass.emitted CompileRenderCommandsForPass.body
  by_cases hm : o.GetRenderMaterial = s.currentMaterial <;> cases o.GetType <;>
    simp only [hm, ne_eq, not_true_eq_false, not_false_eq_true, if_true, if_false] <;>
    split_ifs <;>
    simp [RenderCommandList.AddApplyMaterialCommand, RenderCommandList.AddApplyMeshCommand,
      RenderCommandList.AddApplyDynamicMeshCommand, RenderCommandList.AddRenderInstanceCommand]

/-- After an iteration the material tracker holds the material of the object. -/
theorem CompileRenderCommandsForPass.body_currentMaterial (s : PassLoopState)
    (o : RenderPassObject) :
    (CompileRenderCommandsForPass.body s o).currentMaterial = o.GetRenderMaterial := by
  unfold CompileRenderCommandsForPass.body
  by_cases hm : o.GetRenderMaterial = s.currentMaterial <;> cases o.GetType <;>
    simp only [hm, ne_eq, not_true_eq_false, not_false_eq_true, if_true, if_false] <;>
    split_ifs <;> simp [hm]

/-- After the iteration of a static object the static tracker holds its mesh. -/
theorem CompileRenderCommandsForPass.body_currentStaticMesh (s : PassLoopState)
    (o : RenderPassObject) (ht : o.GetType = RenderPassObject.Type.k_static) :
    (CompileRenderCommandsForPass.body s o).currentStaticMesh = o.GetRenderMesh := by
  unfold CompileRenderCommandsForPass.body
  by_cases hm : o.GetRenderMaterial = s.currentMaterial <;>
    simp only [ht, hm, ne_eq, not_true_eq_false, not_false_eq_true, if_true, if_false] <;>
    split_ifs with h <;> simp_all

/-- After the iteration of a dynamic object the dynamic tracker holds its mesh. -/
theorem CompileRenderCommandsForPass.body_currentDynamicMesh (s : PassLoopState)
    (o : RenderPassObject) (ht : o.GetType = RenderPassObject.Type.k_dynamic) :
    (CompileRenderCommandsForPass.body s o).currentDynamicMesh = o.GetRenderDynamicMesh := by
  unfold CompileRenderCommandsForPass.body
  by_cases hm : o.GetRenderMaterial = s.currentMaterial <;>
    simp only [ht, hm, ne_eq, not_true_eq_false, not_false_eq_true, if_true, if_false] <;>
    split_ifs with h <;> simp_all

/-- An iteration keeps the invariant that at most one of the two mesh trackers is set. -/
theorem CompileRenderCommandsForPass.body_one_tracker (s : PassLoopState)
    (o : RenderPassObject)
    (h : s.currentStaticMesh = none ∨ s.currentDynamicMesh = none) :
    (CompileRenderCommandsForPass.body s o).currentStaticMesh = none
      ∨ (CompileRenderCommandsForPass.body s o).currentDynamicMesh = none := by
  unfold CompileRenderCommandsForPass.body
  by_cases hm : o.GetRenderMaterial = s.currentMaterial <;> cases o.GetType <;>
    simp only [hm, ne_eq, not_true_eq_false, not_false_eq_true, if_true, if_false] <;>
    split_ifs with h₁ <;> simp_all

theorem CompileRenderCommandsForPass.loop_one_tracker (objects : List RenderPassObject)
    (s : PassLoopState)
    (h : s.currentStaticMesh = none ∨ s.currentDynamicMesh = none) :
    (objects.foldl CompileRenderCommandsForPass.body s).currentStaticMesh = none
      ∨ (objects.foldl CompileRenderCommandsForPass.body s).currentDynamicMesh = none := by
  induction objects generalizing s with
  | nil => exact h
  | cons o os ih => exact ih _ (CompileRenderCommandsForPass.body_one_tracker s o h)

/-- The state after a prefix that ends with `prev` is the iteration of `prev` from a
state in which at most one mesh tracker is set. -/
theorem CompileRenderCommandsForPass.loop_snoc (before : List RenderPassObject)
    (prev : RenderPassObject) (s : PassLoopState) :
    (before ++ [prev]).foldl CompileRenderCommandsForPass.body s
      = CompileRenderCommandsForPass.body
          (before.foldl CompileRenderCommandsForPass.body s) prev := by
  rw [List.foldl_append]; rfl

/-! ## Claims on the commands of each object -/

/-- The apply-material commands of the object loop: the first object has one exactly
when its material is not null, a later object exactly when its material differs from
that of the object before it. -/
theorem CompileRenderCommandsForPass.objectCommands_material
    (objects : List RenderPassObject) :
    (∀ o rest, objects = o :: rest →
      ∃ group, (CompileRenderCommandsForPass.objectCommands
          (CompileRenderCommandsForPass.initial []) objects)[0]? = some group
        ∧ group.filter RenderCommand.isApplyMaterial
          = if o.GetRenderMaterial ≠ none
              then [RenderCommand.ApplyMaterial o.GetRenderMaterial] else [])
    ∧ (∀ before prev o after, objects = before ++ prev :: o :: after →
      ∃ group, (CompileRenderCommandsForPass.objectCommands
          (CompileRenderCommandsForPass.initial []) objects)[before.length + 1]? = some group
        ∧ group.filter RenderCommand.isApplyMaterial
          = if o.GetRenderMaterial ≠ prev.GetRenderMaterial
              then [RenderCommand.ApplyMaterial o.GetRenderMaterial] else []) := by
  constructor
  · intro o rest hobjects
    refine ⟨CompileRenderCommandsForPass.emitted (CompileRenderCommandsForPass.initial []) o,
      by rw [hobjects]; simp [CompileRenderCommandsForPass.objectCommands], ?_⟩
    rw [CompileRenderCommandsForPass.emitted_eq]
    cases o.GetType <;>
      simp only [CompileRenderCommandsForPass.initial] <;> split_ifs <;>
      simp [RenderCommand.isApplyMaterial, List.filter]
  · intro before prev o after hobjects
    refine ⟨_, by rw [hobjects, CompileRenderCommandsForPass.objectCommands_at], ?_⟩
    rw [CompileRenderCommandsForPass.emitted_eq, CompileRenderCommandsForPass.loop_snoc,
      CompileRenderCommandsForPass.body_currentMaterial]
    cases o.GetType <;> simp only [] <;> split_ifs <;>
      simp [RenderCommand.isApplyMaterial, List.filter]

/-- Claim C24. A pass compilation returns when its assertions hold or are compiled out,
and what it returns is the given list, the light command and the commands of the objects,
object by object, in which the first object has an apply-material command exactly when
its material is not null, and a later object has one exactly when its material differs
from the material of the object before it; no object has more than one, and the
command names the material of the object. -/
theorem CompileRenderCommandsForPass_apply_material (CS_ENABLE_DEBUG : Bool)
    (renderPass : RenderPass) (renderCommandList : RenderCommandList) :
    ((CS_ENABLE_DEBUG = false ∨ renderPass.assertionsHold = true) →
      ∃ out, CompileRenderCommandsForPass CS_ENABLE_DEBUG renderPass renderCommandList
        = Except.ok out)
    ∧ ∀ out, CompileRenderCommandsForPass CS_ENABLE_DEBUG renderPass renderCommandList
        = Except.ok out →
      (∃ light : RenderCommand, light.isLight = true
        ∧ out = renderCommandList ++ light
            :: (CompileRenderCommandsForPass.objectCommands
                (CompileRenderCommandsForPass.initial [])
                renderPass.GetRenderPassObjects).flatten)
      ∧ (∀ o rest, renderPass.GetRenderPassObjects = o :: rest →
        ∃ group, (CompileRenderCommandsForPass.objectCommands
            (CompileRenderCommandsForPass.initial [])
            renderPass.GetRenderPassObjects)[0]? = some group
          ∧ group.filter RenderCommand.isApplyMaterial
            = if o.GetRenderMaterial ≠ none
                then [RenderCommand.ApplyMaterial o.GetRenderMaterial] else [])
      ∧ (∀ before prev o after,
        renderPass.GetRenderPassObjects = before ++ prev :: o :: after →
        ∃ group, (CompileRenderCommandsForPass.objectCommands
            (CompileRenderCommandsForPass.initial [])
            renderPass.GetRenderPassObjects)[before.length + 1]? = some group
          ∧ group.filter RenderCommand.isApplyMaterial
            = if o.GetRenderMaterial ≠ prev.GetRenderMaterial
                then [RenderCommand.ApplyMaterial o.GetRenderMaterial] else []) :=
  ⟨CompileRenderCommandsForPass_returns _ _ _, fun out h =>
    ⟨CompileRenderCommandsForPass_objectCommands _ _ _ out h,
      CompileRenderCommandsForPass.objectCommands_material _⟩⟩

/-- Witness of claim C24: in the sample pass of four static objects with materials
1, 1, 1, 2 the third object has no apply-material command and the fourth has the one
of material 2. -/
theorem CompileRenderCommandsForPass_apply_material_witness :
    (∃ group, (CompileRenderCommandsForPass.objectCommands
          (CompileRenderCommandsForPass.initial []) sampleCoalescingObjects)[2]? = some group
        ∧ group.filter RenderCommand.isApplyMaterial = [])
    ∧ (∃ group, (CompileRenderCommandsForPass.objectCommands
          (CompileRenderCommandsForPass.initial []) sampleCoalescingObjects)[3]? = some group
        ∧ group.filter RenderCommand.isApplyMaterial
          = [RenderCommand.ApplyMaterial (some 2)]) := by
  have h := (CompileRenderCommandsForPass_apply_material true
    (samplePass RenderPass.LightType.k_none none sampleCoalescingObjects) []).2 _ rfl
  exact ⟨h.2.2 [sampleStaticObject 1 10 0] (sampleStaticObject 1 10 1)
      (sampleStaticObject 1 11 2) [sampleStaticObject 2 11 3] rfl,
    h.2.2 [sampleStaticObject 1 10 0, sampleStaticObject 1 10 1] (sampleStaticObject 1 11 2)
      (sampleStaticObject 2 11 3) [] rfl⟩

/-- The apply-mesh commands of a loop over static objects whose materials and meshes are
not null. -/
theorem CompileRenderCommandsForPass.objectCommands_mesh
    (objects : List RenderPassObject)
    (hstatic : ∀ o ∈ objects, o.GetType = RenderPassObject.Type.k_static
      ∧ o.GetRenderMaterial ≠ none ∧ o.GetRenderMesh ≠ none) :
    (∀ o rest, objects = o :: rest →
      ∃ group, (CompileRenderCommandsForPass.objectCommands
          (CompileRenderCommandsForPass.initial []) objects)[0]? = some group
        ∧ group.filter RenderCommand.isApplyMesh
          = [RenderCommand.ApplyMesh o.GetRenderMesh])
    ∧ (∀ before prev o after, objects = before ++ prev :: o :: after →
      ∃ group, (CompileRenderCommandsForPass.objectCommands
          (CompileRenderCommandsForPass.initial []) objects)[before.length + 1]? = some group
        ∧ group.filter RenderCommand.isApplyMesh
          = if o.GetRenderMaterial ≠ prev.GetRenderMaterial
                ∨ o.GetRenderMesh ≠ prev.GetRenderMesh
              then [RenderCommand.ApplyMesh o.GetRenderMesh] else []) := by
  constructor
  · intro o rest hobjects
    obtain ⟨ht, hmat, hmesh⟩ := hstatic o (by rw [hobjects]; simp)
    refine ⟨CompileRenderCommandsForPass.emitted (CompileRenderCommandsForPass.initial []) o,
      by rw [hobjects]; simp [CompileRenderCommandsForPass.objectCommands], ?_⟩
    rw [CompileRenderCommandsForPass.emitted_eq]
    simp [ht, hmat, hmesh, CompileRenderCommandsForPass.initial,
      RenderCommand.isApplyMesh, List.filter]
  · intro before prev o after hobjects
    obtain ⟨ht, hmat, hmesh⟩ := hstatic o (by rw [hobjects]; simp)
    obtain ⟨htp, _, _⟩ := hstatic prev (by rw [hobjects]; simp)
    refine ⟨_, by rw [hobjects, CompileRenderCommandsForPass.objectCommands_at], ?_⟩
    rw [CompileRenderCommandsForPass.emitted_eq, CompileRenderCommandsForPass.loop_snoc,
      CompileRenderCommandsForPass.body_currentMaterial,
      CompileRenderCommandsForPass.body_currentStaticMesh _ _ htp]
    simp only [ht]
    by_cases h₁ : o.GetRenderMaterial = prev.GetRenderMaterial
    · by_cases h₂ : o.GetRenderMesh = prev.GetRenderMesh
      · simp [h₁, h₂, RenderCommand.isApplyMesh, List.filter]
      · simp [h₁, h₂, RenderCommand.isApplyMesh, List.filter]
    · simp [h₁, hmesh, RenderCommand.isApplyMesh, List.filter]

/-- Claim C25. For a render pass all of whose objects are static with a material and a
mesh that are not null, the commands of the first object hold exactly one apply-mesh
command, and those of a later object hold one exactly when its material differs from
the material of the object before it or its mesh differs from the mesh of the object
before it, none otherwise; the command names the mesh of the object. The compilation
returns when its assertions hold or are compiled out. -/
theorem CompileRenderCommandsForPass_apply_mesh (CS_ENABLE_DEBUG : Bool)
    (renderPass : RenderPass) (renderCommandList : RenderCommandList)
    (hstatic : ∀ o ∈ renderPass.GetRenderPassObjects,
      o.GetType = RenderPassObject.Type.k_static
        ∧ o.GetRenderMaterial ≠ none ∧ o.GetRenderMesh ≠ none) :
    ((CS_ENABLE_DEBUG = false ∨ renderPass.assertionsHold = true) →
      ∃ out, CompileRenderCommandsForPass CS_ENABLE_DEBUG renderPass renderCommandList
        = Except.ok out)
    ∧ ∀ out, CompileRenderCommandsForPass CS_ENABLE_DEBUG renderPass renderCommandList
        = Except.ok out →
      (∃ light : RenderCommand, light.isLight = true
        ∧ out = renderCommandList ++ light
            :: (CompileRenderCommandsForPass.objectCommands
                (CompileRenderCommandsForPass.initial [])
                renderPass.GetRenderPassObjects).flatten)
      ∧ (∀ o rest, renderPass.GetRenderPassObjects = o :: rest →
        ∃ group, (CompileRenderCommandsForPass.objectCommands
            (CompileRenderCommandsForPass.initial [])
            renderPass.GetRenderPassObjects)[0]? = some group
          ∧ group.filter RenderCommand.isApplyMesh
            = [RenderCommand.ApplyMesh o.GetRenderMesh])
      ∧ (∀ before prev o after,
        renderPass.GetRenderPassObjects = before ++ prev :: o :: after →
        ∃ group, (CompileRenderCommandsForPass.objectCommands
            (CompileRenderCommandsForPass.initial [])
            renderPass.GetRenderPassObjects)[before.length + 1]? = some group
          ∧ group.filter RenderCommand.isApplyMesh
            = if o.GetRenderMaterial ≠ prev.GetRenderMaterial
                  ∨ o.GetRenderMesh ≠ prev.GetRenderMesh
                then [RenderCommand.ApplyMesh o.GetRenderMesh] else []) :=
  ⟨CompileRenderCommandsForPass_returns _ _ _, fun out h =>
    ⟨CompileRenderCommandsForPass_objectCommands _ _ _ out h,
      CompileRenderCommandsForPass.objectCommands_mesh _ hstatic⟩⟩

/-- Witness of claim C25: in the sample pass of four static objects (1, 10), (1, 10),
(1, 11), (2, 11) the second object has no apply-mesh command, and the fourth, whose
material changes while its mesh stays, has the one of mesh 11. -/
theorem CompileRenderCommandsForPass_apply_mesh_witness :
    (∃ group, (CompileRenderCommandsForPass.objectCommands
          (CompileRenderCommandsForPass.initial []) sampleCoalescingObjects)[1]? = some group
        ∧ group.filter RenderCommand.isApplyMesh = [])
    ∧ (∃ group, (CompileRenderCommandsForPass.objectCommands
          (CompileRenderCommandsForPass.initial []) sampleCoalescingObjects)[3]? = some group
        ∧ group.filter RenderCommand.isApplyMesh
          = [RenderCommand.ApplyMesh (some 11)]) := by
  have h := (CompileRenderCommandsForPass_apply_mesh true
    (samplePass RenderPass.LightType.k_none none sampleCoalescingObjects) []
    (by decide)).2 _ rfl
  exact ⟨h.2.2 [] (sampleStaticObject 1 10 0)
      (sampleStaticObject 1 10 1) [sampleStaticObject 1 11 2, sampleStaticObject 2 11 3] rfl,
    h.2.2 [sampleStaticObject 1 10 0, sampleStaticObject 1 10 1] (sampleStaticObject 1 11 2)
      (sampleStaticObject 2 11 3) [] rfl⟩

/-- An object whose type differs from the type of the object before it, both with a mesh
that is not null, has its mesh command right before its render-instance command. -/
theorem CompileRenderCommandsForPass.objectCommands_type_change
    (before : List RenderPassObject) (prev o : RenderPassObject)
    (after : List RenderPassObject) (htype : prev.GetType ≠ o.GetType)
    (hprev : prev.hasMesh = true) (ho : o.hasMesh = true) :
    ∃ group front, (CompileRenderCommandsForPass.objectCommands
        (CompileRenderCommandsForPass.initial [])
        (before ++ prev :: o :: after))[before.length + 1]? = some group
      ∧ group = front ++ [o.meshCommand, RenderCommand.RenderInstance o.GetWorldMatrix] := by
  have hone := CompileRenderCommandsForPass.loop_one_tracker (before ++ [prev])
    (CompileRenderCommandsForPass.initial []) (Or.inl rfl)
  refine ⟨_, if o.GetRenderMaterial ≠ prev.GetRenderMaterial
      then [RenderCommand.ApplyMaterial o.GetRenderMaterial] else [],
    CompileRenderCommandsForPass.objectCommands_at _ _ _ _ _, ?_⟩
  rw [CompileRenderCommandsForPass.emitted_eq]
  rw [CompileRenderCommandsForPass.loop_snoc] at hone ⊢
  rw [CompileRenderCommandsForPass.body_currentMaterial]
  cases hto : o.GetType with
  | k_static =>
    have htp : prev.GetType = RenderPassObject.Type.k_dynamic := by
      cases h : prev.GetType with
      | k_static => exact absurd (h.trans hto.symm) htype
      | k_dynamic => rfl
    have hd := CompileRenderCommandsForPass.body_currentDynamicMesh
      (before.foldl CompileRenderCommandsForPass.body (CompileRenderCommandsForPass.initial []))
      prev htp
    have hdm : prev.GetRenderDynamicMesh ≠ none := by
      simpa [RenderPassObject.hasMesh, htp, Option.isSome_iff_ne_none] using hprev
    have hsm : o.GetRenderMesh ≠ none := by
      simpa [RenderPassObject.hasMesh, hto, Option.isSome_iff_ne_none] using ho
    have hs : (CompileRenderCommandsForPass.body
        (before.foldl CompileRenderCommandsForPass.body
          (CompileRenderCommandsForPass.initial [])) prev).currentStaticMesh = none := by
      rcases hone with h | h
      · exact h
      · rw [hd] at h; exact absurd h hdm
    simp [RenderPassObject.meshCommand, hto, hs, hsm]
  | k_dynamic =>
    have htp : prev.GetType = RenderPassObject.Type.k_static := by
      cases h : prev.GetType with
      | k_static => rfl
      | k_dynamic => exact absurd (h.trans hto.symm) htype
    have hsm := CompileRenderCommandsForPass.body_currentStaticMesh
      (before.foldl CompileRenderCommandsForPass.body (CompileRenderCommandsForPass.initial []))
      prev htp
    have hpm : prev.GetRenderMesh ≠ none := by
      simpa [RenderPassObject.hasMesh, htp, Option.isSome_iff_ne_none] using hprev
    have hdm : o.GetRenderDynamicMesh ≠ none := by
      simpa [RenderPassObject.hasMesh, hto, Option.isSome_iff_ne_none] using ho
    have hd : (CompileRenderCommandsForPass.body
        (before.foldl CompileRenderCommandsForPass.body
          (CompileRenderCommandsForPass.initial [])) prev).currentDynamicMesh = none := by
      rcases hone with h | h
      · rw [hsm] at h; exact absurd h hpm
      · exact h
    simp [RenderPassObject.meshCommand, hto, hd, hdm]

/-- Claim C26. After any number of objects of the object loop at most one of the static
mesh tracker and the dynamic mesh tracker is set; and in what a pass compilation returns,
an object whose type differs from the type of the object before it, both having a mesh
that is not null, has its mesh command right before its render-instance command. The
compilation returns when its assertions hold or are compiled out. -/
theorem CompileRenderCommandsForPass_one_mesh_tracker (CS_ENABLE_DEBUG : Bool)
    (renderPass : RenderPass) (renderCommandList : RenderCommandList) :
    (∀ (n : Nat) (lit : RenderCommandList),
      ((renderPass.GetRenderPassObjects.take n).foldl CompileRenderCommandsForPass.body
          (CompileRenderCommandsForPass.initial lit)).currentStaticMesh = none
        ∨ ((renderPass.GetRenderPassObjects.take n).foldl CompileRenderCommandsForPass.body
          (CompileRenderCommandsForPass.initial lit)).currentDynamicMesh = none)
    ∧ ((CS_ENABLE_DEBUG = false ∨ renderPass.assertionsHold = true) →
      ∃ out, CompileRenderCommandsForPass CS_ENABLE_DEBUG renderPass renderCommandList
        = Except.ok out)
    ∧ ∀ out, CompileRenderCommandsForPass CS_ENABLE_DEBUG renderPass renderCommandList
        = Except.ok out →
      (∃ light : RenderCommand, light.isLight = true
        ∧ out = renderCommandList ++ light
            :: (CompileRenderCommandsForPass.objectCommands
                (CompileRenderCommandsForPass.initial [])
                renderPass.GetRenderPassObjects).flatten)
      ∧ (∀ before prev o after,
        renderPass.GetRenderPassObjects = before ++ prev :: o :: after →
        prev.GetType ≠ o.GetType → prev.hasMesh = true → o.hasMesh = true →
        ∃ group front, (CompileRenderCommandsForPass.objectCommands
            (CompileRenderCommandsForPass.initial [])
            renderPass.GetRenderPassObjects)[before.length + 1]? = some group
          ∧ group
            = front ++ [o.meshCommand, RenderCommand.RenderInstance o.GetWorldMatrix]) :=
  ⟨fun n lit => CompileRenderCommandsForPass.loop_one_tracker _ _ (Or.inl rfl),
    CompileRenderCommandsForPass_returns _ _ _, fun out h =>
    ⟨CompileRenderCommandsForPass_objectCommands _ _ _ out h,
      fun before prev o after hobjects htype hprev ho => by
        rw [hobjects]
        exact CompileRenderCommandsForPass.objectCommands_type_change before prev o after
          htype hprev ho⟩⟩

/-- Witness of claim C26: in the sample pass (static, mesh 10), (dynamic, mesh 20),
(static, mesh 10), all of one material, the third object has the apply-mesh command of
mesh 10 again, right before its render-instance command. -/
theorem CompileRenderCommandsForPass_one_mesh_tracker_witness :
    ∃ group front, (CompileRenderCommandsForPass.objectCommands
        (CompileRenderCommandsForPass.initial []) sampleMixedObjects)[2]? = some group
      ∧ group = front ++ [RenderCommand.ApplyMesh (some 10),
          RenderCommand.RenderInstance (Matrix4.value 2)] :=
  ((CompileRenderCommandsForPass_one_mesh_tracker true
    (samplePass RenderPass.LightType.k_none none sampleMixedObjects) []).2.2 _ rfl).2
      [sampleStaticObject 1 10 0] (sampleDynamicObject 1 20 1) (sampleStaticObject 1 10 2) []
      rfl (by decide) rfl rfl

/-! ## The UTF-8 string: bytes and characters -/

theorem and_0x7F (x : Nat) : x &&& 0x7F = x % 128 :=
  Nat.and_pow_two_sub_one_eq_mod x 7

theorem and_0x3F (x : Nat) : x &&& 0x3F = x % 64 :=
  Nat.and_pow_two_sub_one_eq_mod x 6

theorem and_0x1F (x : Nat) : x &&& 0x1F = x % 32 :=
  Nat.and_pow_two_sub_one_eq_mod x 5

theorem and_0x0F (x : Nat) : x &&& 0x0F = x % 16 :=
  Nat.and_pow_two_sub_one_eq_mod x 4

theorem and_0x07 (x : Nat) : x &&& 0x07 = x % 8 :=
  Nat.and_pow_two_sub_one_eq_mod x 3

theorem shiftLeft_or_of_lt (a b k : Nat) (h : b < 2 ^ k) :
    (a <<< k) ||| b = a * 2 ^ k + b := by
  rw [Nat.shiftLeft_eq, Nat.mul_comm a, Nat.mul_add_lt_is_or h]

theorem or_0x80 : ∀ y, y < 64 → 0x80 ||| y = 128 + y := by decide

theorem or_0xC0 : ∀ y, y < 32 → 0xC0 ||| y = 192 + y := by decide

theorem or_0xE0 : ∀ y, y < 16 → 0xE0 ||| y = 224 + y := by decide

theorem or_0xF0 : ∀ y, y < 8 → 0xF0 ||| y = 240 + y := by decide

set_option maxRecDepth 100000 in
theorem CUTF8String.isLead_iff : ∀ b, b < 256 →
    CUTF8String.isLead b = decide (b < 128 ∨ 192 ≤ b) := by decide

set_option maxRecDepth 100000 in
theorem CUTF8String.toS8_pos : ∀ b, b < 256 →
    decide (CUTF8String.toS8 b > 0) = decide (1 ≤ b ∧ b < 128) := by decide

set_option maxRecDepth 100000 in
theorem CUTF8String.GetCharacter.selector_eq : ∀ b, b < 256 →
    CUTF8String.GetCharacter.selector (CUTF8String.toS8 b) = b / 16 * 16 := by decide

/-- The method `GetCharacter` by the value of the byte it starts at: one code point for
1 .. 0x7F, three for 0xE0 .. 0xEF, four for 0xF0 .. 0xFF, and two for every other byte,
0x00 among them. -/
theorem CUTF8String.GetCharacter_cons (first : Nat) (hfirst : first < 256)
    (rest : List Nat) :
    CUTF8String.GetCharacter (first :: rest)
      = if 1 ≤ first ∧ first < 128 then some (first, 1)
        else if 0xE0 ≤ first ∧ first < 0xF0 then
          match rest with
          | second :: third :: _ =>
            some ((((first &&& 0x0F) <<< 12) ||| ((second &&& 0x3F) <<< 6))
              ||| (third &&& 0x3F), 3)
          | _ => none
        else if 0xF0 ≤ first then
          match rest with
          | second :: third :: fourth :: _ =>
            some (((((first &&& 0x07) <<< 18) ||| ((second &&& 0x3F) <<< 12))
              ||| ((third &&& 0x3F) <<< 6)) ||| (fourth &&& 0x3F), 4)
          | _ => none
        else
          match rest with
          | second :: _ => some (((first &&& 0x1F) <<< 6) ||| (second &&& 0x3F), 2)
          | _ => none := by
  have hpos := CUTF8String.toS8_pos first hfirst
  have hsel := CUTF8String.GetCharacter.selector_eq first hfirst
  have hE : (first / 16 * 16 = 0xE0) ↔ (0xE0 ≤ first ∧ first < 0xF0) := by omega
  have hF : (first / 16 * 16 = 0xF0) ↔ (0xF0 ≤ first) := by omega
  unfold CUTF8String.GetCharacter
  simp only [hsel, hE, hF]
  by_cases h₁ : 1 ≤ first ∧ first < 128
  · have : CUTF8String.toS8 first > 0 := by simpa [h₁] using hpos
    rw [if_pos this, if_pos h₁]
  · have : ¬ CUTF8String.toS8 first > 0 := by simpa [h₁] using hpos
    rw [if_neg this, if_neg h₁]

/-- Claim C27. The method `GetCharacter` at the lead byte 0x00 does not report one code
point: it reports two, and the value it returns is the low six bits of the byte that
follows, which belongs to the next character; when 0x00 is the last byte of the string
the method reads past the end. So `at(0)` of the string of the characters U+0000, U+0041
is 1, and `at(1)` reads past the end. -/
theorem CUTF8String_GetCharacter_zero_lead_byte :
    (∀ second rest, CUTF8String.GetCharacter (0x00 :: second :: rest)
      = some (second &&& 0x3F, 2))
    ∧ CUTF8String.GetCharacter [0x00, 0x41] = some (0x01, 2)
    ∧ CUTF8String.GetCharacter [0x00] = none
    ∧ (CUTF8String.fromChars [0x00, 0x41]).mCodePoints = [0x00, 0x41]
    ∧ (CUTF8String.fromChars [0x00, 0x41]).at 0 = some 0x01
    ∧ (CUTF8String.fromChars [0x00, 0x41]).at 1 = none := by
  refine ⟨fun second rest => ?_, by decide, by decide, by decide, by decide, by decide⟩
  rw [CUTF8String.GetCharacter_cons 0 (by decide)]
  simp

/-- Claim C21. Erasing a character of more than one byte does not remove its bytes: in
the string of the bytes C3 A9 62 (the characters U+00E9 and b) `erase` at the lead byte
C3 leaves the single trail byte A9, where the claim has 62, and `size` is then 0, where
the claim has 1; in the string E2 82 AC 61 62 63 `erase` at the lead byte E2 leaves
82 61 63; and in the string C3 A9 the second `mCodePoints.erase` is at the end of the
code points. A character of one byte is erased as claimed. -/
theorem CUTF8String_erase_multibyte_character :
    CUTF8String.erase (CUTF8String.fromCodePoints [0xC3, 0xA9, 0x62]) 0
      = some ⟨[0xA9], 0, false⟩
    ∧ (CUTF8String.size (CUTF8String.fromCodePoints [0xC3, 0xA9, 0x62])).1 = 2
    ∧ (CUTF8String.size ⟨[0xA9], 0, false⟩).1 = 0
    ∧ CUTF8String.erase (CUTF8String.fromCodePoints [0xE2, 0x82, 0xAC, 0x61, 0x62, 0x63]) 0
      = some ⟨[0x82, 0x61, 0x63], 0, false⟩
    ∧ CUTF8String.erase (CUTF8String.fromCodePoints [0xC3, 0xA9]) 0 = none
    ∧ CUTF8String.erase (CUTF8String.fromCodePoints [0x61, 0xC3, 0xA9, 0x62]) 0
      = some ⟨[0xC3, 0xA9, 0x62], 0, false⟩ := by
  refine ⟨by decide, by decide, by decide, by decide, by decide, by decide⟩

/-- The code points `appendChar` computes for a character, in arithmetic form. -/
theorem CUTF8String.appendChar.cp_eq (c : Nat) :
    CUTF8String.appendChar.cp c
      = if c ≤ 0x7F then [c]
        else if c ≤ 0x7FF then [192 + c / 64, 128 + c % 64]
        else if c ≤ 0xFFFF then [224 + c / 4096, 128 + c / 64 % 64, 128 + c % 64]
        else if c ≤ 0x1FFFFF then
          [240 + c / 262144, 128 + c / 4096 % 64, 128 + c / 64 % 64, 128 + c % 64]
        else [] := by
  unfold CUTF8String.appendChar.cp
  simp only [Nat.shiftRight_eq_div_pow, and_0x7F, and_0x3F, and_0x1F, and_0x0F, and_0x07]
  have h64 : (2 : Nat) ^ 6 = 64 := by norm_num
  have h4096 : (2 : Nat) ^ 12 = 4096 := by norm_num
  have h262144 : (2 : Nat) ^ 18 = 262144 := by norm_num
  simp only [h64, h4096, h262144, pow_zero, Nat.div_one]
  rw [or_0x80 (c % 64) (Nat.mod_lt _ (by norm_num)),
    or_0x80 (c / 64 % 64) (Nat.mod_lt _ (by norm_num)),
    or_0x80 (c / 4096 % 64) (Nat.mod_lt _ (by norm_num)),
    or_0xC0 (c / 64 % 32) (Nat.mod_lt _ (by norm_num)),
    or_0xE0 (c / 4096 % 16) (Nat.mod_lt _ (by norm_num)),
    or_0xF0 (c / 262144 % 8) (Nat.mod_lt _ (by norm_num))]
  split_ifs with h₁ h₂ h₃ h₄
  · congr 1; omega
  · congr 2; omega
  · congr 2; omega
  · congr 2; omega
  · rfl

/-- The method `GetCharacter` reads back a character in 1 .. 0x1FFFFF from the code
points `appendChar` computes for it, whatever follows them. -/
theorem CUTF8String.GetCharacter_appendChar (c : Nat) (hpos : 1 ≤ c) (hmax : c ≤ 0x1FFFFF)
    (rest : List Nat) :
    CUTF8String.GetCharacter (CUTF8String.appendChar.cp c ++ rest)
      = some (c, (CUTF8String.appendChar.cp c).length) := by
  have h64 : (2 : Nat) ^ 6 = 64 := by norm_num
  have h4096 : (2 : Nat) ^ 12 = 4096 := by norm_num
  have h262144 : (2 : Nat) ^ 18 = 262144 := by norm_num
  rw [CUTF8String.appendChar.cp_eq]
  by_cases h₁ : c ≤ 0x7F
  · rw [if_pos h₁, List.singleton_append, CUTF8String.GetCharacter_cons c (by omega),
      if_pos (by omega)]
    rfl
  rw [if_neg h₁]
  by_cases h₂ : c ≤ 0x7FF
  · rw [if_pos h₂, List.cons_append, List.cons_append,
      CUTF8String.GetCharacter_cons _ (by omega),
      if_neg (by omega), if_neg (by omega), if_neg (by omega)]
    simp only [and_0x1F, and_0x3F, List.length_cons, List.length_nil]
    rw [shiftLeft_or_of_lt _ _ 6 (by rw [h64]; exact Nat.mod_lt _ (by norm_num)), h64]
    congr 2
    omega
  rw [if_neg h₂]
  by_cases h₃ : c ≤ 0xFFFF
  · rw [if_pos h₃, List.cons_append, List.cons_append, List.cons_append,
      CUTF8String.GetCharacter_cons _ (by omega),
      if_neg (by omega), if_pos (by omega)]
    simp only [and_0x0F, and_0x3F, List.length_cons, List.length_nil]
    have hmid : ((224 + c / 4096) % 16) <<< 12 ||| ((128 + c / 64 % 64) % 64) <<< 6
        = (((224 + c / 4096) % 16) * 64 + (128 + c / 64 % 64) % 64) <<< 6 := by
      rw [Nat.shiftLeft_eq, Nat.shiftLeft_eq, Nat.shiftLeft_eq, h4096, h64]
      have : (224 + c / 4096) % 16 * 4096
          = 2 ^ 12 * ((224 + c / 4096) % 16) := by rw [h4096]; ring
      rw [this, ← Nat.mul_add_lt_is_or (by rw [h4096]; omega), h4096]
      ring
    rw [hmid, shiftLeft_or_of_lt _ _ 6 (by rw [h64]; exact Nat.mod_lt _ (by norm_num)), h64]
    congr 2
    omega
  rw [if_neg h₃, if_pos hmax, List.cons_append, List.cons_append, List.cons_append,
    List.cons_append, CUTF8String.GetCharacter_cons _ (by omega),
    if_neg (by omega), if_neg (by omega), if_pos (by omega)]
  simp only [and_0x07, and_0x3F, List.length_cons, List.length_nil]
  have hhigh : ((240 + c / 262144) % 8) <<< 18 ||| ((128 + c / 4096 % 64) % 64) <<< 12
      = (((240 + c / 262144) % 8) * 64 + (128 + c / 4096 % 64) % 64) <<< 12 := by
    rw [Nat.shiftLeft_eq, Nat.shiftLeft_eq, Nat.shiftLeft_eq, h4096, h262144]
    have : (240 + c / 262144) % 8 * 262144
        = 2 ^ 18 * ((240 + c / 262144) % 8) := by rw [h262144]; ring
    rw [this, ← Nat.mul_add_lt_is_or (by rw [h262144]; omega), h262144]
    ring
  have hmid : (((240 + c / 262144) % 8) * 64 + (128 + c / 4096 % 64) % 64) <<< 12
        ||| ((128 + c / 64 % 64) % 64) <<< 6
      = ((((240 + c / 262144) % 8) * 64 + (128 + c / 4096 % 64) % 64) * 64
          + (128 + c / 64 % 64) % 64) <<< 6 := by
    rw [Nat.shiftLeft_eq, Nat.shiftLeft_eq, Nat.shiftLeft_eq, h4096, h64]
    have : ((240 + c / 262144) % 8 * 64 + (128 + c / 4096 % 64) % 64) * 4096
        = 2 ^ 12 * ((240 + c / 262144) % 8 * 64 + (128 + c / 4096 % 64) % 64) := by
      rw [h4096]; ring
    rw [this, ← Nat.mul_add_lt_is_or (by rw [h4096]; omega), h4096]
    ring
  rw [hhigh, hmid, shiftLeft_or_of_lt _ _ 6 (by rw [h64]; exact Nat.mod_lt _ (by norm_num)),
    h64]
  congr 2
  omega

/-- The code points of a character up to 0x1FFFFF hold exactly one byte that is not a
trail byte. -/
theorem CUTF8String.numLeadBytes_appendChar (c : Nat) (hmax : c ≤ 0x1FFFFF) :
    CUTF8String.numLeadBytes (CUTF8String.appendChar.cp c) = 1 := by
  have hlead : ∀ b, b < 256 → (b < 128 ∨ 192 ≤ b) → CUTF8String.isLead b = true := by
    intro b hb h
    rw [CUTF8String.isLead_iff b hb]
    exact decide_eq_true h
  have htrail : ∀ b, 128 ≤ b → b < 192 → CUTF8String.isLead b = false := by
    intro b hb h
    rw [CUTF8String.isLead_iff b (by omega)]
    exact decide_eq_false (by omega)
  rw [CUTF8String.appendChar.cp_eq]
  unfold CUTF8String.numLeadBytes
  split_ifs with h₁ h₂ h₃
  · simp [List.filter, hlead c (by omega) (by omega)]
  · simp [List.filter, hlead (192 + c / 64) (by omega) (by omega),
      htrail (128 + c % 64) (by omega) (by omega)]
  · simp [List.filter, hlead (224 + c / 4096) (by omega) (by omega),
      htrail (128 + c / 64 % 64) (by omega) (by omega),
      htrail (128 + c % 64) (by omega) (by omega)]
  · simp [List.filter, hlead (240 + c / 262144) (by omega) (by omega),
      htrail (128 + c / 4096 % 64) (by omega) (by omega),
      htrail (128 + c / 64 % 64) (by omega) (by omega),
      htrail (128 + c % 64) (by omega) (by omega)]

theorem CUTF8String.numLeadBytes_append (a b : List Nat) :
    CUTF8String.numLeadBytes (a ++ b)
      = CUTF8String.numLeadBytes a + CUTF8String.numLeadBytes b := by
  simp [CUTF8String.numLeadBytes]

/-- The loop of `size` adds the number of bytes that are not trail bytes, and marks the
cache valid when the string has a code point. -/
theorem CUTF8String.size.loop_eq (codePoints : List Nat) (state : Nat × Bool) :
    codePoints.foldl CUTF8String.size.body state
      = (state.1 + CUTF8String.numLeadBytes codePoints,
          if codePoints = [] then state.2 else true) := by
  induction codePoints generalizing state with
  | nil => simp [CUTF8String.numLeadBytes]
  | cons b rest ih =>
    rw [List.foldl_cons, ih]
    have hcons : CUTF8String.numLeadBytes (b :: rest)
        = (if CUTF8String.isLead b then 1 else 0) + CUTF8String.numLeadBytes rest := by
      unfold CUTF8String.numLeadBytes
      by_cases hb : CUTF8String.isLead b = true <;> simp [List.filter, hb]; omega
    rw [hcons]
    simp only [CUTF8String.size.body, List.cons_ne_nil, if_false]
    by_cases hrest : rest = [] <;> simp [hrest, Nat.add_assoc]

/-- With a cache that is not valid, `size` returns the number of bytes that are not
trail bytes. -/
theorem CUTF8String.size_of_not_valid (s : CUTF8String)
    (h : s.mbIsLengthCacheValid = false) :
    (CUTF8String.size s).1 = CUTF8String.numLeadBytes s.mCodePoints
      ∧ (CUTF8String.size s).2.mCodePoints = s.mCodePoints
      ∧ (CUTF8String.size s).2.mudwLength = CUTF8String.numLeadBytes s.mCodePoints := by
  unfold CUTF8String.size
  simp [h, CUTF8String.size.loop_eq]

/-- The cache invariant: a cache marked valid holds the number of bytes that are not
trail bytes. -/
theorem CUTF8String.call_cache (s t : CUTF8String) (c : CUTF8String.Call)
    (h : s.mbIsLengthCacheValid = true
      → s.mudwLength = CUTF8String.numLeadBytes s.mCodePoints)
    (hcall : s.call c = some t) :
    t.mbIsLengthCacheValid = true
      → t.mudwLength = CUTF8String.numLeadBytes t.mCodePoints := by
  cases c with
  | size =>
    simp only [CUTF8String.call, Option.some.injEq] at hcall
    subst hcall
    by_cases hv : s.mbIsLengthCacheValid = true
    · have : CUTF8String.size s = (s.mudwLength, s) := by simp [CUTF8String.size, hv]
      rw [this]; exact h
    · have hv : s.mbIsLengthCacheValid = false := by simpa using hv
      obtain ⟨_, hc, hl⟩ := CUTF8String.size_of_not_valid s hv
      intro _
      rw [hl, hc]
  | append other =>
    simp only [CUTF8String.call, Option.some.injEq] at hcall
    subst hcall; intro hv; simp [CUTF8String.append] at hv
  | appendChar inChar =>
    simp only [CUTF8String.call, Option.some.injEq] at hcall
    subst hcall; intro hv; simp [CUTF8String.appendChar] at hv
  | appendCodePoints inChar =>
    simp only [CUTF8String.call, Option.some.injEq] at hcall
    subst hcall; intro hv; simp [CUTF8String.appendCodePoints] at hv
  | erase inpIt =>
    simp only [CUTF8String.call, CUTF8String.erase] at hcall
    intro hv
    split at hcall
    · exact absurd hcall (by simp)
    · split_ifs at hcall
      · split at hcall
        · exact absurd hcall (by simp)
        · simp only [Option.some.injEq] at hcall
          subst hcall; simp at hv
      · simp only [Option.some.injEq] at hcall
        subst hcall; simp at hv
  | clear =>
    simp only [CUTF8String.call, Option.some.injEq] at hcall
    subst hcall; intro hv; simp [CUTF8String.clear] at hv

theorem CUTF8String.calls_cache (calls : List CUTF8String.Call) (s t : CUTF8String)
    (h : s.mbIsLengthCacheValid = true
      → s.mudwLength = CUTF8String.numLeadBytes s.mCodePoints)
    (hcalls : CUTF8String.calls s calls = some t) :
    t.mbIsLengthCacheValid = true
      → t.mudwLength = CUTF8String.numLeadBytes t.mCodePoints := by
  induction calls generalizing s with
  | nil =>
    simp only [CUTF8String.calls, Option.some.injEq] at hcalls
    subst hcalls; exact h
  | cons c rest ih =>
    simp only [CUTF8String.calls] at hcalls
    cases hc : s.call c with
    | none => rw [hc] at hcalls; exact absurd hcalls (by simp)
    | some u =>
      rw [hc] at hcalls
      exact ih u (CUTF8String.call_cache s u c h hc) hcalls

/-- With the cache invariant, `size` returns the number of bytes that are not trail
bytes. -/
theorem CUTF8String.size_of_cache (s : CUTF8String)
    (h : s.mbIsLengthCacheValid = true
      → s.mudwLength = CUTF8String.numLeadBytes s.mCodePoints) :
    (CUTF8String.size s).1 = CUTF8String.numLeadBytes s.mCodePoints := by
  by_cases hv : s.mbIsLengthCacheValid = true
  · have : CUTF8String.size s = (s.mudwLength, s) := by simp [CUTF8String.size, hv]
    rw [this]; exact h hv
  · exact (CUTF8String.size_of_not_valid s (by simpa using hv)).1

/-- A sequence of calls without `erase` is defined. -/
theorem CUTF8String.calls_defined (calls : List CUTF8String.Call) (s : CUTF8String)
    (h : ∀ c ∈ calls, c.isErase = false) :
    ∃ t, CUTF8String.calls s calls = some t := by
  induction calls generalizing s with
  | nil => exact ⟨s, rfl⟩
  | cons c rest ih =>
    have hrest : ∀ c ∈ rest, c.isErase = false := fun c hc => h c (List.mem_cons_of_mem _ hc)
    have hc := h c (List.mem_cons_self _ _)
    cases c with
    | erase inpIt => simp [CUTF8String.Call.isErase] at hc
    | size => exact ih _ hrest
    | append other => exact ih _ hrest
    | appendChar inChar => exact ih _ hrest
    | appendCodePoints inChar => exact ih _ hrest
    | clear => exact ih _ hrest

/-- Claim C22. After every sequence of calls of `size`, `append`, `appendChar`,
`appendCodePoints`, `erase` and `clear` on a constructed string that is defined, a
length cache marked valid holds the number of bytes `b` of the string with
`(b & 0xC0) != 0x80`, and `size` returns that number. A sequence without `erase` is
always defined. -/
theorem CUTF8String_size_counts_lead_bytes (inCodePoints : List Nat)
    (calls : List CUTF8String.Call) :
    (∀ s, CUTF8String.calls (CUTF8String.fromCodePoints inCodePoints) calls = some s →
      (s.mbIsLengthCacheValid = true
        → s.mudwLength = CUTF8String.numLeadBytes s.mCodePoints)
      ∧ (CUTF8String.size s).1 = CUTF8String.numLeadBytes s.mCodePoints)
    ∧ ((∀ c ∈ calls, c.isErase = false) →
      ∃ s, CUTF8String.calls (CUTF8String.fromCodePoints inCodePoints) calls = some s) :=
  ⟨fun s hs =>
    have hcache := CUTF8String.calls_cache calls _ s
      (fun hv => by simp [CUTF8String.fromCodePoints] at hv) hs
    ⟨hcache, CUTF8String.size_of_cache s hcache⟩,
    CUTF8String.calls_defined calls _⟩

/-- Witness of claim C22: on the string of the byte 61 the calls `size`,
`appendChar(0xE9)`, `size`, `erase` at the first byte, `size` leave the bytes C3 A9 with
the cache valid and the length 1, and `size` returns 1. -/
theorem CUTF8String_size_counts_lead_bytes_witness :
    (CUTF8String.size ⟨[0xC3, 0xA9], 1, true⟩).1 = CUTF8String.numLeadBytes [0xC3, 0xA9] :=
  ((CUTF8String_size_counts_lead_bytes [0x61]
    [CUTF8String.Call.size, CUTF8String.Call.appendChar 0xE9, CUTF8String.Call.size,
      CUTF8String.Call.erase 0, CUTF8String.Call.size]).1
    ⟨[0xC3, 0xA9], 1, true⟩ (by decide)).2

/-- The code points of the string `appendChar` builds from a list of characters. -/
theorem CUTF8String.foldl_appendChar (characters : List Nat) (s : CUTF8String) :
    (characters.foldl CUTF8String.appendChar s).mCodePoints
      = s.mCodePoints ++ (characters.map CUTF8String.appendChar.cp).flatten
    ∧ (s.mbIsLengthCacheValid = false →
      (characters.foldl CUTF8String.appendChar s).mbIsLengthCacheValid = false) := by
  induction characters generalizing s with
  | nil => simp
  | cons c rest ih =>
    obtain ⟨h₁, h₂⟩ := ih (s.appendChar c)
    refine ⟨?_, fun _ => h₂ rfl⟩
    rw [List.foldl_cons, h₁]
    simp [CUTF8String.appendChar]

theorem CUTF8String.numLeadBytes_characters (characters : List Nat)
    (h : ∀ c ∈ characters, c ≤ 0x1FFFFF) :
    CUTF8String.numLeadBytes (characters.map CUTF8String.appendChar.cp).flatten
      = characters.length := by
  induction characters with
  | nil => rfl
  | cons c rest ih =>
    rw [List.map_cons, List.flatten_cons, CUTF8String.numLeadBytes_append,
      CUTF8String.numLeadBytes_appendChar c (h c (List.mem_cons_self _ _)),
      ih (fun c hc => h c (List.mem_cons_of_mem _ hc)), List.length_cons]
    omega

/-- The loop of `at` from the start of a character: after `i + 1` iterations it holds
the character `i` places on. -/
theorem CUTF8String.at.loop_characters (mCodePoints : List Nat) (i : Nat) :
    ∀ (characters : List Nat) (udwCodePoint Result : Nat),
      (∀ c ∈ characters, 1 ≤ c ∧ c ≤ 0x1FFFFF) →
      mCodePoints.drop udwCodePoint
        = (characters.map CUTF8String.appendChar.cp).flatten →
      ∀ (hi : i < characters.length),
      CUTF8String.at.loop mCodePoints (i + 1) udwCodePoint Result
        = some (characters.get ⟨i, hi⟩) := by
  induction i with
  | zero =>
    intro characters udwCodePoint Result hrange hdrop hi
    cases characters with
    | nil => exact absurd hi (by simp)
    | cons c rest =>
      obtain ⟨hpos, hmax⟩ := hrange c (List.mem_cons_self _ _)
      rw [List.map_cons, List.flatten_cons] at hdrop
      simp only [CUTF8String.at.loop, hdrop,
        CUTF8String.GetCharacter_appendChar c hpos hmax]
      rfl
  | succ i ih =>
    intro characters udwCodePoint Result hrange hdrop hi
    cases characters with
    | nil => exact absurd hi (by simp)
    | cons c rest =>
      obtain ⟨hpos, hmax⟩ := hrange c (List.mem_cons_self _ _)
      have hdrop₂ := hdrop
      rw [List.map_cons, List.flatten_cons] at hdrop
      have hnext : mCodePoints.drop (udwCodePoint + (CUTF8String.appendChar.cp c).length)
          = (rest.map CUTF8String.appendChar.cp).flatten := by
        rw [← List.drop_drop, hdrop, List.drop_left]
      have hstep : CUTF8String.at.loop mCodePoints (i + 1 + 1) udwCodePoint Result
          = CUTF8String.at.loop mCodePoints (i + 1)
              (udwCodePoint + (CUTF8String.appendChar.cp c).length) c := by
        rw [CUTF8String.at.loop]
        simp only [hdrop, CUTF8String.GetCharacter_appendChar c hpos hmax]
      rw [hstep, ih rest _ c (fun c hc => hrange c (List.mem_cons_of_mem _ hc)) hnext
        (by simpa using hi)]
      rfl

/-- Claim C23. For every list of characters in 1 .. 0x1FFFFF, the string `appendChar`
builds from the empty string by appending them in order has `size()` equal to the
length of the list, and `at(i)` returns the character at place `i` of the list for
every `i` below the length. -/
theorem CUTF8String_appendChar_round_trip (characters : List Nat)
    (hrange : ∀ c ∈ characters, 1 ≤ c ∧ c ≤ 0x1FFFFF) :
    (CUTF8String.size (CUTF8String.fromChars characters)).1 = characters.length
    ∧ ∀ (i : Nat) (hi : i < characters.length),
      (CUTF8String.fromChars characters).at i = some (characters.get ⟨i, hi⟩) := by
  obtain ⟨hcode, hvalid⟩ := CUTF8String.foldl_appendChar characters CUTF8String.empty
  have hcode : (CUTF8String.fromChars characters).mCodePoints
      = (characters.map CUTF8String.appendChar.cp).flatten := by
    rw [CUTF8String.fromChars, hcode]; rfl
  have hvalid : (CUTF8String.fromChars characters).mbIsLengthCacheValid = false :=
    hvalid rfl
  constructor
  · rw [(CUTF8String.size_of_not_valid _ hvalid).1, hcode]
    exact CUTF8String.numLeadBytes_characters characters (fun c hc => (hrange c hc).2)
  · intro i hi
    exact CUTF8String.at.loop_characters _ i characters 0 0 hrange
      (by rw [List.drop_zero, hcode]) hi

/-- Witness of claim C23: the characters U+0041, U+00E9, U+20AC, U+1F600, of one, two,
three and four bytes. -/
theorem CUTF8String_appendChar_round_trip_witness :
    (CUTF8String.size (CUTF8String.fromChars [0x41, 0xE9, 0x20AC, 0x1F600])).1 = 4
    ∧ (CUTF8String.fromChars [0x41, 0xE9, 0x20AC, 0x1F600]).at 2 = some 0x20AC :=
  ⟨(CUTF8String_appendChar_round_trip [0x41, 0xE9, 0x20AC, 0x1F600] (by decide)).1,
    (CUTF8String_appendChar_round_trip [0x41, 0xE9, 0x20AC, 0x1F600] (by decide)).2 2
      (by decide)⟩

/-! ## The material sort predicate -/

theorem Ptr.address_injective (p q : Ptr) (h : p.address = q.address) : p = q := by
  cases p <;> cases q <;> simp_all [Ptr.address]

/-- The predicate holds exactly when the first component is before the second in the
order by material, then static mesh components first, then by mesh. -/
theorem MaterialSortPredicate.SortItem_iff (p1 p2 : RenderComponent) :
    MaterialSortPredicate.SortItem p1 p2 = true ↔ MaterialSortPredicate.before p1 p2 := by
  unfold MaterialSortPredicate.SortItem MaterialSortPredicate.before
  by_cases hm : p1.GetMaterial = p2.GetMaterial
  · cases h₁ : p1.IsStaticMeshComponent <;> cases h₂ : p2.IsStaticMeshComponent <;>
      simp [hm]
  · have hne : p1.GetMaterial.address ≠ p2.GetMaterial.address :=
      fun h => hm (Ptr.address_injective _ _ h)
    simp [hm]

/-- The sort key of a component: the address of the material, 0 for a static mesh
component and 1 for another one, and the address of the mesh of a static mesh component. -/
theorem MaterialSortPredicate.before_iff (p1 p2 : RenderComponent) :
    MaterialSortPredicate.before p1 p2 ↔
      p1.GetMaterial.address < p2.GetMaterial.address
      ∨ (p1.GetMaterial.address = p2.GetMaterial.address
        ∧ ((p1.IsStaticMeshComponent = true ∧ p2.IsStaticMeshComponent = false)
          ∨ (p1.IsStaticMeshComponent = true ∧ p2.IsStaticMeshComponent = true
            ∧ p1.GetMesh.address < p2.GetMesh.address))) := by
  unfold MaterialSortPredicate.before
  constructor
  · rintro (h | ⟨h, h'⟩)
    · exact Or.inl h
    · exact Or.inr ⟨by rw [h], h'⟩
  · rintro (h | ⟨h, h'⟩)
    · exact Or.inl h
    · exact Or.inr ⟨Ptr.address_injective _ _ h, h'⟩

theorem MaterialSortPredicate.SortItem_strict_weak :
    (∀ p, MaterialSortPredicate.SortItem p p = false)
    ∧ (∀ p q, MaterialSortPredicate.SortItem p q = true →
      MaterialSortPredicate.SortItem q p = false)
    ∧ (∀ p q r, MaterialSortPredicate.SortItem p q = true →
      MaterialSortPredicate.SortItem q r = true →
      MaterialSortPredicate.SortItem p r = true)
    ∧ (∀ p q r, MaterialSortPredicate.SortItem p q = false →
      MaterialSortPredicate.SortItem q p = false →
      MaterialSortPredicate.SortItem q r = false →
      MaterialSortPredicate.SortItem r q = false →
      MaterialSortPredicate.SortItem p r = false
        ∧ MaterialSortPredicate.SortItem r p = false) := by
  have hfalse : ∀ p q, MaterialSortPredicate.SortItem p q = false
      ↔ ¬ MaterialSortPredicate.before p q := by
    intro p q
    rw [← MaterialSortPredicate.SortItem_iff]
    simp
  refine ⟨fun p => ?_, fun p q => ?_, fun p q r => ?_, fun p q r => ?_⟩
  · rw [hfalse, MaterialSortPredicate.before_iff]
    cases p.IsStaticMeshComponent <;> simp
  · rw [hfalse, MaterialSortPredicate.SortItem_iff, MaterialSortPredicate.before_iff,
      MaterialSortPredicate.before_iff]
    cases p.IsStaticMeshComponent <;> cases q.IsStaticMeshComponent <;> simp <;> omega
  · rw [MaterialSortPredicate.SortItem_iff, MaterialSortPredicate.SortItem_iff,
      MaterialSortPredicate.SortItem_iff, MaterialSortPredicate.before_iff,
      MaterialSortPredicate.before_iff, MaterialSortPredicate.before_iff]
    cases p.IsStaticMeshComponent <;> cases q.IsStaticMeshComponent <;>
      cases r.IsStaticMeshComponent <;> simp <;> omega
  · rw [hfalse, hfalse, hfalse, hfalse, hfalse, hfalse, MaterialSortPredicate.before_iff,
      MaterialSortPredicate.before_iff, MaterialSortPredicate.before_iff,
      MaterialSortPredicate.before_iff, MaterialSortPredicate.before_iff,
      MaterialSortPredicate.before_iff]
    cases p.IsStaticMeshComponent <;> cases q.IsStaticMeshComponent <;>
      cases r.IsStaticMeshComponent <;> simp <;> omega

/-- Claim C30. The predicate `MaterialSortPredicate::SortItem` is a strict weak
ordering: it is irreflexive, asymmetric and transitive, and incomparability under it is
transitive; and it holds of two components exactly when the first is before the second
by material identity, then with static mesh components before the other components,
then by mesh identity. -/
theorem MaterialSortPredicate_SortItem_strict_weak_ordering :
    (∀ p, MaterialSortPredicate.SortItem p p = false)
    ∧ (∀ p q, MaterialSortPredicate.SortItem p q = true →
      MaterialSortPredicate.SortItem q p = false)
    ∧ (∀ p q r, MaterialSortPredicate.SortItem p q = true →
      MaterialSortPredicate.SortItem q r = true →
      MaterialSortPredicate.SortItem p r = true)
    ∧ (∀ p q r, MaterialSortPredicate.SortItem p q = false →
      MaterialSortPredicate.SortItem q p = false →
      MaterialSortPredicate.SortItem q r = false →
      MaterialSortPredicate.SortItem r q = false →
      MaterialSortPredicate.SortItem p r = false
        ∧ MaterialSortPredicate.SortItem r p = false)
    ∧ (∀ p q, MaterialSortPredicate.SortItem p q = true
      ↔ MaterialSortPredicate.before p q) :=
  ⟨MaterialSortPredicate.SortItem_strict_weak.1,
    MaterialSortPredicate.SortItem_strict_weak.2.1,
    MaterialSortPredicate.SortItem_strict_weak.2.2.1,
    MaterialSortPredicate.SortItem_strict_weak.2.2.2,
    MaterialSortPredicate.SortItem_iff⟩

/-- Witness of claim C30: a static mesh component of material 1 is before a component
of material 1 that is not one, which is before a static mesh component of material 2, so
the first is before the third. -/
theorem MaterialSortPredicate_SortItem_strict_weak_ordering_witness :
    MaterialSortPredicate.SortItem ⟨some 1, true, some 5⟩ ⟨some 2, true, some 3⟩ = true :=
  MaterialSortPredicate_SortItem_strict_weak_ordering.2.2.1
    ⟨some 1, true, some 5⟩ ⟨some 1, false, none⟩ ⟨some 2, true, some 3⟩
    (by decide) (by decide)

/-! ## The dynamic sprite batch: the size of the cache -/

theorem DynamicSpriteBatch.ForceCommandChange_cache (kudwIndicesPerSprite : Nat)
    (b t : DynamicSpriteBatch)
    (h : DynamicSpriteBatch.ForceCommandChange kudwIndicesPerSprite b = some t) :
    t.maSpriteCache = b.maSpriteCache ∧ t.mpLastMaterial = b.mpLastMaterial
      ∧ t.flushes = b.flushes := by
  unfold DynamicSpriteBatch.ForceCommandChange at h
  split_ifs at h
  · split at h
    · exact absurd h (by simp)
    · simp only [Option.some.injEq] at h
      subst h; exact ⟨rfl, rfl, rfl⟩
  · simp only [Option.some.injEq] at h
    subst h; exact ⟨rfl, rfl, rfl⟩

/-- After `ForceRender` the cache is empty; when it was not empty before, its sprites
are those of the one flush made. -/
theorem DynamicSpriteBatch.ForceRender_cache (kudwIndicesPerSprite kudwBufferArrayBounds : Nat)
    (b t : DynamicSpriteBatch)
    (h : DynamicSpriteBatch.ForceRender kudwIndicesPerSprite kudwBufferArrayBounds b
      = some t) :
    t.maSpriteCache = [] ∧ t.mpLastMaterial = b.mpLastMaterial
      ∧ (b.maSpriteCache ≠ [] →
        ∃ f : DynamicSpriteBatch.Flush, t.flushes = b.flushes ++ [f]
          ∧ f.sprites = b.maSpriteCache) := by
  unfold DynamicSpriteBatch.ForceRender at h
  split_ifs at h with hempty
  · split at h
    · exact absurd h (by simp)
    · rename_i u hu
      simp only [Option.some.injEq] at h
      subst h
      obtain ⟨hc, hm, hf⟩ := DynamicSpriteBatch.ForceCommandChange_cache _ _ _ hu
      refine ⟨rfl, hm, fun _ =>
        ⟨⟨u.mudwCurrentRenderSpriteBatch, u.maSpriteCache, u.maRenderCommands⟩, ?_, hc⟩⟩
      simp [DynamicSpriteBatch.BuildAndFlushBatch, hf]
  · simp only [Option.some.injEq] at h
    subst h
    have : b.maSpriteCache = [] := by simpa using hempty
    exact ⟨this, rfl, fun hne => absurd this hne⟩

/-- After `Render` the cache is the sprite given, behind the sprites it held when
these were fewer than the maximum, alone when they were not. -/
theorem DynamicSpriteBatch.Render_cache (kudwIndicesPerSprite kudwBufferArrayBounds : Nat)
    (b t : DynamicSpriteBatch) (inpSprite : SpriteData) (inpTransform : Option Nat)
    (h : DynamicSpriteBatch.Render kudwIndicesPerSprite kudwBufferArrayBounds b inpSprite
      inpTransform = some t) :
    t.maSpriteCache
        = (if b.maSpriteCache.length ≥ kudwMaxSpritesInDynamicBatch then []
            else b.maSpriteCache)
          ++ [DynamicSpriteBatch.Render.cached inpSprite inpTransform]
    ∧ (b.maSpriteCache.length ≥ kudwMaxSpritesInDynamicBatch →
      ∃ f : DynamicSpriteBatch.Flush, t.flushes = b.flushes ++ [f]
        ∧ f.sprites = b.maSpriteCache) := by
  unfold DynamicSpriteBatch.Render at h
  split at h
  · exact absurd h (by simp)
  · rename_i u hu
    split at h
    · exact absurd h (by simp)
    · rename_i v hv
      simp only [Option.some.injEq] at h
      subst h
      have hvc : v.maSpriteCache = u.maSpriteCache ∧ v.flushes = u.flushes := by
        split_ifs at hv
        · obtain ⟨h₁, _, h₂⟩ := DynamicSpriteBatch.ForceCommandChange_cache _ _ _ hv
          exact ⟨h₁, h₂⟩
        · simp only [Option.some.injEq] at hv
          subst hv; exact ⟨rfl, rfl⟩
      simp only [hvc.1, hvc.2]
      by_cases hfull : b.maSpriteCache.length ≥ kudwMaxSpritesInDynamicBatch
      · rw [if_pos hfull] at hu ⊢
        obtain ⟨h₁, _, h₂⟩ := DynamicSpriteBatch.ForceRender_cache _ _ _ _ hu
        refine ⟨by rw [h₁], fun _ => h₂ ?_⟩
        intro hnil
        rw [hnil] at hfull
        exact absurd hfull (by decide)
      · rw [if_neg hfull] at hu ⊢
        simp only [Option.some.injEq] at hu
        subst hu
        exact ⟨rfl, fun h => absurd h hfull⟩

theorem DynamicSpriteBatch.call_cache_bounded
    (kudwIndicesPerSprite kudwBufferArrayBounds : Nat) (b t : DynamicSpriteBatch)
    (c : DynamicSpriteBatch.Call)
    (hb : b.maSpriteCache.length ≤ kudwMaxSpritesInDynamicBatch)
    (h : DynamicSpriteBatch.call kudwIndicesPerSprite kudwBufferArrayBounds b c = some t) :
    t.maSpriteCache.length ≤ kudwMaxSpritesInDynamicBatch := by
  cases c with
  | Render inpSprite inpTransform =>
    rw [(DynamicSpriteBatch.Render_cache _ _ _ _ _ _ h).1]
    split_ifs with hfull
    · simp [kudwMaxSpritesInDynamicBatch]
    · simp only [List.length_append, List.length_singleton]
      omega
  | ForceCommandChange =>
    rw [(DynamicSpriteBatch.ForceCommandChange_cache _ _ _ h).1]; exact hb
  | ForceRender =>
    rw [(DynamicSpriteBatch.ForceRender_cache _ _ _ _ h).1]; simp

theorem DynamicSpriteBatch.calls_cache_bounded
    (kudwIndicesPerSprite kudwBufferArrayBounds : Nat) (calls : List DynamicSpriteBatch.Call)
    (b t : DynamicSpriteBatch)
    (hb : b.maSpriteCache.length ≤ kudwMaxSpritesInDynamicBatch)
    (h : DynamicSpriteBatch.calls kudwIndicesPerSprite kudwBufferArrayBounds b calls
      = some t) :
    t.maSpriteCache.length ≤ kudwMaxSpritesInDynamicBatch := by
  induction calls generalizing b with
  | nil =>
    simp only [DynamicSpriteBatch.calls, Option.some.injEq] at h
    subst h; exact hb
  | cons c rest ih =>
    simp only [DynamicSpriteBatch.calls] at h
    cases hc : DynamicSpriteBatch.call kudwIndicesPerSprite kudwBufferArrayBounds b c with
    | none => rw [hc] at h; exact absurd h (by simp)
    | some u =>
      rw [hc] at h
      exact ih u (DynamicSpriteBatch.call_cache_bounded _ _ _ _ _ hb hc) h

/-! ### The calls are defined for sprites with a material -/

theorem DynamicSpriteBatch.ForceCommandChange_defined (kudwIndicesPerSprite : Nat)
    (b : DynamicSpriteBatch) (h : b.maSpriteCache ≠ [] → b.mpLastMaterial ≠ none) :
    ∃ t, DynamicSpriteBatch.ForceCommandChange kudwIndicesPerSprite b = some t := by
  unfold DynamicSpriteBatch.ForceCommandChange
  split_ifs with hempty
  · have hne : b.maSpriteCache ≠ [] := by simpa using hempty
    cases hm : b.mpLastMaterial with
    | none => exact absurd hm (h hne)
    | some material => exact ⟨_, rfl⟩
  · exact ⟨_, rfl⟩

theorem DynamicSpriteBatch.ForceRender_defined
    (kudwIndicesPerSprite kudwBufferArrayBounds : Nat)
    (b : DynamicSpriteBatch) (h : b.maSpriteCache ≠ [] → b.mpLastMaterial ≠ none) :
    ∃ t, DynamicSpriteBatch.ForceRender kudwIndicesPerSprite kudwBufferArrayBounds b
      = some t := by
  unfold DynamicSpriteBatch.ForceRender
  split_ifs with hempty
  · obtain ⟨u, hu⟩ := DynamicSpriteBatch.ForceCommandChange_defined kudwIndicesPerSprite b h
    rw [hu]; exact ⟨_, rfl⟩
  · exact ⟨_, rfl⟩

theorem DynamicSpriteBatch.Render_defined
    (kudwIndicesPerSprite kudwBufferArrayBounds : Nat)
    (b : DynamicSpriteBatch) (inpSprite : SpriteData) (inpTransform : Option Nat)
    (h : b.maSpriteCache ≠ [] → b.mpLastMaterial ≠ none) :
    ∃ t, DynamicSpriteBatch.Render kudwIndicesPerSprite kudwBufferArrayBounds b inpSprite
      inpTransform = some t := by
  have hfirst : ∃ u, (if b.maSpriteCache.length ≥ kudwMaxSpritesInDynamicBatch
      then DynamicSpriteBatch.ForceRender kudwIndicesPerSprite kudwBufferArrayBounds b
      else some b) = some u
      ∧ (u.maSpriteCache ≠ [] → u.mpLastMaterial ≠ none) := by
    split_ifs
    · obtain ⟨u, hu⟩ := DynamicSpriteBatch.ForceRender_defined kudwIndicesPerSprite
        kudwBufferArrayBounds b h
      refine ⟨u, hu, fun hne => ?_⟩
      exact absurd (DynamicSpriteBatch.ForceRender_cache _ _ _ _ hu).1 hne
    · exact ⟨b, rfl, h⟩
  obtain ⟨u, hu, hudef⟩ := hfirst
  have hsecond : ∃ v, (if u.mpLastMaterial.isSome
        && decide (u.mpLastMaterial ≠ inpSprite.pMaterial)
      then DynamicSpriteBatch.ForceCommandChange kudwIndicesPerSprite u
      else some u) = some v := by
    split_ifs
    · exact DynamicSpriteBatch.ForceCommandChange_defined kudwIndicesPerSprite u hudef
    · exact ⟨u, rfl⟩
  obtain ⟨v, hv⟩ := hsecond
  unfold DynamicSpriteBatch.Render
  rw [hu]
  simp only []
  rw [hv]
  exact ⟨_, rfl⟩

theorem DynamicSpriteBatch.calls_with_material_defined
    (kudwIndicesPerSprite kudwBufferArrayBounds : Nat) (calls : List DynamicSpriteBatch.Call)
    (b : DynamicSpriteBatch) (h : b.maSpriteCache ≠ [] → b.mpLastMaterial ≠ none)
    (hcalls : ∀ c ∈ calls, c.hasMaterial = true) :
    ∃ t, DynamicSpriteBatch.calls kudwIndicesPerSprite kudwBufferArrayBounds b calls
      = some t := by
  induction calls generalizing b with
  | nil => exact ⟨b, rfl⟩
  | cons c rest ih =>
    have hrest : ∀ c ∈ rest, c.hasMaterial = true :=
      fun c hc => hcalls c (List.mem_cons_of_mem _ hc)
    have hc := hcalls c (List.mem_cons_self _ _)
    have hstep : ∃ u, DynamicSpriteBatch.call kudwIndicesPerSprite kudwBufferArrayBounds b c
        = some u ∧ (u.maSpriteCache ≠ [] → u.mpLastMaterial ≠ none) := by
      cases c with
      | Render inpSprite inpTransform =>
        obtain ⟨u, hu⟩ := DynamicSpriteBatch.Render_defined kudwIndicesPerSprite
          kudwBufferArrayBounds b inpSprite inpTransform h
        refine ⟨u, hu, fun _ => ?_⟩
        have hm : u.mpLastMaterial = inpSprite.pMaterial := by
          unfold DynamicSpriteBatch.Render at hu
          split at hu
          · exact absurd hu (by simp)
          · split at hu
            · exact absurd hu (by simp)
            · simp only [Option.some.injEq] at hu
              subst hu; rfl
        rw [hm]
        simp only [DynamicSpriteBatch.Call.hasMaterial] at hc
        intro hnone
        rw [hnone] at hc
        exact absurd hc (by simp)
      | ForceCommandChange =>
        obtain ⟨u, hu⟩ := DynamicSpriteBatch.ForceCommandChange_defined
          kudwIndicesPerSprite b h
        obtain ⟨h₁, h₂, _⟩ := DynamicSpriteBatch.ForceCommandChange_cache _ _ _ hu
        exact ⟨u, hu, by rw [h₁, h₂]; exact h⟩
      | ForceRender =>
        obtain ⟨u, hu⟩ := DynamicSpriteBatch.ForceRender_defined kudwIndicesPerSprite
          kudwBufferArrayBounds b h
        exact ⟨u, hu, fun hne =>
          absurd (DynamicSpriteBatch.ForceRender_cache _ _ _ _ hu).1 hne⟩
    obtain ⟨u, hu, hudef⟩ := hstep
    obtain ⟨t, ht⟩ := ih u hudef hrest
    exact ⟨t, by simp only [DynamicSpriteBatch.calls, hu, ht]⟩

/-- Claim C29. After every sequence of `Render`, `ForceCommandChange` and `ForceRender`
calls on a new batch that is defined, the cache holds at most
`kudwMaxSpritesInDynamicBatch` sprites, which is 2048; a `Render` call on a cache
that holds the maximum or more flushes its sprites and leaves the cache with the new
sprite alone; and a sequence of calls whose sprites all have a material is defined. -/
theorem DynamicSpriteBatch_cache_never_exceeds_maximum
    (kudwIndicesPerSprite kudwBufferArrayBounds : Nat)
    (calls : List DynamicSpriteBatch.Call) :
    (∀ b, DynamicSpriteBatch.calls kudwIndicesPerSprite kudwBufferArrayBounds
        DynamicSpriteBatch.new calls = some b →
      b.maSpriteCache.length ≤ kudwMaxSpritesInDynamicBatch)
    ∧ (∀ (b t : DynamicSpriteBatch) (inpSprite : SpriteData) (inpTransform : Option Nat),
      b.maSpriteCache.length ≥ kudwMaxSpritesInDynamicBatch →
      DynamicSpriteBatch.Render kudwIndicesPerSprite kudwBufferArrayBounds b inpSprite
        inpTransform = some t →
      t.maSpriteCache = [DynamicSpriteBatch.Render.cached inpSprite inpTransform]
      ∧ ∃ f : DynamicSpriteBatch.Flush, t.flushes = b.flushes ++ [f]
        ∧ f.sprites = b.maSpriteCache)
    ∧ ((∀ c ∈ calls, c.hasMaterial = true) →
      ∃ b, DynamicSpriteBatch.calls kudwIndicesPerSprite kudwBufferArrayBounds
        DynamicSpriteBatch.new calls = some b)
    ∧ kudwMaxSpritesInDynamicBatch = 2048 :=
  ⟨fun b h => DynamicSpriteBatch.calls_cache_bounded _ _ calls DynamicSpriteBatch.new b
      (by simp [DynamicSpriteBatch.new]) h,
    fun b t inpSprite inpTransform hfull h =>
      ⟨by rw [(DynamicSpriteBatch.Render_cache _ _ _ _ _ _ h).1, if_pos hfull]; rfl,
        (DynamicSpriteBatch.Render_cache _ _ _ _ _ _ h).2 hfull⟩,
    fun hcalls => DynamicSpriteBatch.calls_with_material_defined _ _ calls DynamicSpriteBatch.new
      (fun hne => absurd rfl hne) hcalls,
    rfl⟩

/-- Witness of claim C29: the sample calls, two sprites of material 1, one of material 2
and a forced render, with 6 indices per sprite. -/
theorem DynamicSpriteBatch_cache_never_exceeds_maximum_witness :
    ∃ b, DynamicSpriteBatch.calls 6 1 DynamicSpriteBatch.new sampleSpriteCalls = some b
      ∧ b.maSpriteCache.length ≤ kudwMaxSpritesInDynamicBatch := by
  obtain ⟨b, hb⟩ := (DynamicSpriteBatch_cache_never_exceeds_maximum 6 1
    sampleSpriteCalls).2.2.1 (by decide)
  exact ⟨b, hb, (DynamicSpriteBatch_cache_never_exceeds_maximum 6 1
    sampleSpriteCalls).1 b hb⟩

/-! ## The dynamic sprite batch: the commands tile the sprites -/

theorem DynamicSpriteBatch.Grouped.empty (materials : Prop) (kudwIndicesPerSprite : Nat) :
    DynamicSpriteBatch.Grouped materials kudwIndicesPerSprite [] [] :=
  ⟨[], rfl, rfl, fun _ g hg => absurd hg (List.not_mem_nil g)⟩

/-- The invariant with no sprite counted since the last command. -/
theorem DynamicSpriteBatch.Consistent.of_grouped (materials : Prop)
    (kudwIndicesPerSprite : Nat) (t : DynamicSpriteBatch)
    (hlen : t.maSpriteCache.length ≤ kudwMaxSpritesInDynamicBatch)
    (hgrouped : DynamicSpriteBatch.Grouped materials kudwIndicesPerSprite t.maSpriteCache
      t.maRenderCommands)
    (hcount : t.mudwSpriteCommandCounter = 0)
    (hflushes : ∀ f ∈ t.flushes,
      DynamicSpriteBatch.Grouped materials kudwIndicesPerSprite f.sprites f.commands) :
    DynamicSpriteBatch.Consistent materials kudwIndicesPerSprite t :=
  ⟨hlen, ⟨t.maSpriteCache, [], by simp, by rw [hcount]; rfl, hgrouped,
    fun _ sprite hs => absurd hs (List.not_mem_nil sprite), fun _ hne => absurd rfl hne⟩,
    hflushes⟩

theorem DynamicSpriteBatch.Consistent.new (materials : Prop) (kudwIndicesPerSprite : Nat) :
    DynamicSpriteBatch.Consistent materials kudwIndicesPerSprite DynamicSpriteBatch.new :=
  DynamicSpriteBatch.Consistent.of_grouped _ _ _ (by simp [DynamicSpriteBatch.new])
    (DynamicSpriteBatch.Grouped.empty _ _) rfl
    (fun f hf => absurd hf (List.not_mem_nil f))

/-- A sprite without a material is not separated from the sprites that follow it: the
test for a change of material passes over a null `mpLastMaterial`, so after `Render` of
a sprite with a null material and of a sprite of material 2, `ForceRender` records one
command of material 2 that spans both sprites. -/
theorem DynamicSpriteBatch.Render_null_material :
    (DynamicSpriteBatch.calls 6 1 DynamicSpriteBatch.new
        [DynamicSpriteBatch.Call.Render ⟨none, SpriteVertices.value 0⟩ none,
          DynamicSpriteBatch.Call.Render (sampleSprite 2 1) none,
          DynamicSpriteBatch.Call.ForceRender]).map (fun b => b.flushes)
      = some [⟨0, [⟨none, SpriteVertices.value 0⟩, sampleSprite 2 1], [⟨2, 0, 12⟩]⟩] := by
  decide

end ChilliSource
